import Mathlib

/-!
# frameworks/av: AudioMixer

A shallow embedding of `services/audioflinger/AudioMixer.h`.

The header carries the constants, the layout of `track_t` and `state_t`, and the inline
members (`isValidPcmTrackFormat`, `needsRamp`, `doesResample`, `getUnreleasedFrames`,
`requiresInternalBuffers`, `trackNames`); these are embedded as written.  The bodies of the
members that the header only declares live in `AudioMixer.cpp`, which is not among the
sources; their definitions below are marked `Modelled from the spec:` and follow the
specification together with the comments the header attaches to the declarations.
-/

namespace AudioMixer

/-! ## Constants of the header -/

/-- Hard-coded upper limit of active track inputs (`MAX_NUM_TRACKS`). -/
def MAX_NUM_TRACKS : Nat := 32

/-- Hard-coded upper limit of output channels (`MAX_NUM_CHANNELS`). -/
def MAX_NUM_CHANNELS : Nat := 2

/-- Maximum number of channels supported for the content (`MAX_NUM_CHANNELS_TO_DOWNMIX`). -/
def MAX_NUM_CHANNELS_TO_DOWNMIX : Nat := 8

/-- Unity gain in U4.12 (`UNITY_GAIN_INT`). -/
def UNITY_GAIN_INT : Int := 0x1000

/-- First track name (`TRACK0`); names are `TRACK0 .. TRACK0 + MAX_NUM_TRACKS - 1`. -/
def TRACK0 : Int := 0x1000

/-- Target `TRACK` of setParameter. -/
def TRACK : Int := 0x3000

/-- Target `RESAMPLE` of setParameter. -/
def RESAMPLE : Int := 0x3001

/-- Target `RAMP_VOLUME` of setParameter: ramp to new volume. -/
def RAMP_VOLUME : Int := 0x3002

/-- Target `VOLUME` of setParameter: do not ramp. -/
def VOLUME : Int := 0x3003

/-- Parameter `CHANNEL_MASK` (target TRACK). -/
def CHANNEL_MASK : Int := 0x4000

/-- Parameter `FORMAT` (target TRACK). -/
def FORMAT : Int := 0x4001

/-- Parameter `MAIN_BUFFER` (target TRACK). -/
def MAIN_BUFFER : Int := 0x4002

/-- Parameter `AUX_BUFFER` (target TRACK). -/
def AUX_BUFFER : Int := 0x4003

/-- Parameter `DOWNMIX_TYPE` (target TRACK). -/
def DOWNMIX_TYPE : Int := 0x4004

/-- Parameter `MIXER_FORMAT` (target TRACK). -/
def MIXER_FORMAT : Int := 0x4005

/-- Parameter `SAMPLE_RATE` (target RESAMPLE). -/
def SAMPLE_RATE : Int := 0x4100

/-- Parameter `RESET` (target RESAMPLE). -/
def RESET : Int := 0x4101

/-- Parameter `REMOVE` (target RESAMPLE). -/
def REMOVE : Int := 0x4102

/-- Parameter `VOLUME0` (targets RAMP_VOLUME and VOLUME). -/
def VOLUME0 : Int := 0x4200

/-- Parameter `VOLUME1` (targets RAMP_VOLUME and VOLUME). -/
def VOLUME1 : Int := 0x4201

/-- Parameter `AUXLEVEL` (targets RAMP_VOLUME and VOLUME). -/
def AUXLEVEL : Int := 0x4210

/-- Mask of the channel-count bits of `track_t::needs`. -/
def NEEDS_CHANNEL_COUNT__MASK : Nat := 0x00000007

/-- Needs value of a mono track. -/
def NEEDS_CHANNEL_1 : Nat := 0x00000000

/-- Needs value of a stereo track. -/
def NEEDS_CHANNEL_2 : Nat := 0x00000001

/-- Needs bit of a muted track. -/
def NEEDS_MUTE : Nat := 0x00000100

/-- Needs bit of a resampled track. -/
def NEEDS_RESAMPLE : Nat := 0x00001000

/-- Needs bit of a track with an aux send. -/
def NEEDS_AUX : Nat := 0x00010000

/-- All ones of a `uint32_t`. -/
def UINT32_ALL : Nat := 2 ^ 32 - 1

/-! ## Types the header uses -/

/-- The sample formats `audio_format_t` that the sources name; `other` stands for every
further value of the enumeration of `system/audio.h`. -/
inductive audio_format_t where
  | AUDIO_FORMAT_PCM_16_BIT
  | AUDIO_FORMAT_PCM_8_BIT
  | AUDIO_FORMAT_PCM_32_BIT
  | AUDIO_FORMAT_PCM_8_24_BIT
  | AUDIO_FORMAT_PCM_FLOAT
  | AUDIO_FORMAT_PCM_24_BIT_PACKED
  | other (raw : Nat)
  deriving DecidableEq, Repr

open audio_format_t

/-- The inline `AudioMixer::isValidPcmTrackFormat`. -/
def isValidPcmTrackFormat (format : audio_format_t) : Bool :=
  format == AUDIO_FORMAT_PCM_16_BIT ||
    format == AUDIO_FORMAT_PCM_24_BIT_PACKED ||
    format == AUDIO_FORMAT_PCM_32_BIT ||
    format == AUDIO_FORMAT_PCM_FLOAT

/-- Modelled from the spec: `AudioBufferProvider` (media/AudioBufferProvider.h) is not among
the sources.  The specification describes it as the capability
`getNextBuffer(request) -> frames|empty`, `releaseBuffer(frames)`; the model keeps the
interleaved samples the upstream source has still to deliver, oldest first. -/
structure AudioBufferProvider where
  pending : List Int
  deriving DecidableEq, Repr

/-- Modelled from the spec: `AudioResampler` (AudioResampler.h) is not among the sources.
Of its state only the number of fetched-but-unconsumed upstream frames, which
`getUnreleasedFrames()` reports, is kept. -/
structure AudioResampler where
  mUnreleased : Nat
  deriving DecidableEq, Repr

/-- Modelled from the spec: `AudioResampler::getUnreleasedFrames()` reports how many
already-fetched-but-unconsumed upstream frames are buffered. -/
def AudioResampler.getUnreleasedFrames (r : AudioResampler) : Nat :=
  r.mUnreleased

/-- Modelled from the spec: `AudioResampler::reset()` discards buffered input history. -/
def AudioResampler.reset (_r : AudioResampler) : AudioResampler :=
  { mUnreleased := 0 }

/-- The data members of `AudioMixer::ReformatBufferProvider`. -/
structure ReformatBufferProvider where
  mChannels : Int
  mInputFormat : audio_format_t
  mOutputFormat : audio_format_t
  mInputFrameSize : Nat
  mOutputFrameSize : Nat
  mOutputCount : Nat
  mConsumed : Nat
  deriving DecidableEq, Repr

/-- The inline `ReformatBufferProvider::requiresInternalBuffers`:
`return true; //mInputFrameSize < mOutputFrameSize;`. -/
def ReformatBufferProvider.requiresInternalBuffers (_p : ReformatBufferProvider) : Bool :=
  true

/-- The track hooks `hook_t` that the header declares for the 16-bit integer path. -/
inductive hook_t where
  | track__nop
  | track__genericResample
  | track__16BitsStereo
  | track__16BitsMono
  deriving DecidableEq, Repr

/-- The process hooks `process_hook_t` that the header declares. -/
inductive process_hook_t where
  | process__validate
  | process__nop
  | process__genericNoResampling
  | process__genericResampling
  | process__OneTrack16BitsStereoNoResampling
  deriving DecidableEq, Repr

/-- The members of `AudioMixer::track_t`.  Arrays of `MAX_NUM_CHANNELS` entries are pairs;
pointers to caller-owned buffers are addresses with 0 for NULL; owned objects are options. -/
structure track_t where
  needs : Nat
  volume : Int × Int
  prevVolume : Int × Int
  volumeInc : Int × Int
  auxInc : Int
  prevAuxLevel : Int
  auxLevel : Int
  frameCount : Nat
  channelCount : Nat
  enabled : Bool
  channelMask : Nat
  bufferProvider : Option AudioBufferProvider
  hook : Option hook_t
  resampler : Option AudioResampler
  sampleRate : Nat
  mainBuffer : Nat
  auxBuffer : Nat
  mReformatBufferProvider : Option ReformatBufferProvider
  downmixerBufferProvider : Bool
  sessionId : Int
  mMixerFormat : audio_format_t
  mFormat : audio_format_t
  mMixerInFormat : audio_format_t

/-- The inline `track_t::needsRamp`: `(volumeInc[0] | volumeInc[1] | auxInc) != 0`. -/
def track_t.needsRamp (t : track_t) : Bool :=
  (Int.lor (Int.lor t.volumeInc.1 t.volumeInc.2) t.auxInc) != 0

/-- The inline `track_t::doesResample`: `resampler != NULL`. -/
def track_t.doesResample (t : track_t) : Bool :=
  t.resampler.isSome

/-- The inline `track_t::resetResampler`: `if (resampler != NULL) resampler->reset();`. -/
def track_t.resetResampler (t : track_t) : track_t :=
  match t.resampler with
  | some r => { t with resampler := some r.reset }
  | none => t

/-- The inline `track_t::getUnreleasedFrames`:
`resampler != NULL ? resampler->getUnreleasedFrames() : 0`. -/
def track_t.getUnreleasedFrames (t : track_t) : Nat :=
  match t.resampler with
  | some r => r.getUnreleasedFrames
  | none => 0

/-- The members of `AudioMixer::state_t`; the array `tracks[MAX_NUM_TRACKS]` is a function
of the slot index. -/
structure state_t where
  enabledTracks : Nat
  needsChanged : Nat
  frameCount : Nat
  hook : process_hook_t
  tracks : Nat → track_t

end AudioMixer

/-- The data members of `class AudioMixer`; the static `sIsMultichannelCapable` is carried
with the instance. -/
structure AudioMixer where
  mTrackNames : Nat
  mConfiguredNames : Nat
  mSampleRate : Nat
  mState : AudioMixer.state_t
  sIsMultichannelCapable : Bool

namespace AudioMixer

open audio_format_t

/-- The inline `AudioMixer::trackNames`. -/
def trackNames (m : AudioMixer) : Nat :=
  m.mTrackNames

/-! ## Track allocation (bodies in AudioMixer.cpp) -/

/-- Bit `n` of a `uint32_t` bitmask as a mask: `1 << n`. -/
def trackBit (n : Nat) : Nat :=
  1 <<< n

/-- Clearing bit `n` of a `uint32_t` bitmask: `x & ~(1 << n)`. -/
def clearTrackBit (x n : Nat) : Nat :=
  x &&& (UINT32_ALL ^^^ trackBit n)

/-- Slot index of a track name, `name - TRACK0`, for names in
`TRACK0 <= name < TRACK0 + MAX_NUM_TRACKS`; no slot for any other name. -/
def slotOfName (name : Int) : Option Nat :=
  if TRACK0 ≤ name ∧ name < TRACK0 + MAX_NUM_TRACKS then some (name - TRACK0).toNat else none

/-- Modelled from the spec: the body of `AudioMixer::invalidateState(mask)` is in
AudioMixer.cpp.  It marks the tracks of `mask` configuration-dirty and makes the cached
process hook the validating one. -/
def invalidateState (m : AudioMixer) (mask : Nat) : AudioMixer :=
  if mask = 0 then m
  else { m with mState := { m.mState with
           needsChanged := m.mState.needsChanged ||| mask
           hook := process_hook_t.process__validate } }

/-- Number of channels of an output channel mask: its number of set bits
(`audio_channel_count_from_out_mask` of system/audio.h). -/
def channelCountFromOutMask (channelMask : Nat) : Nat :=
  ((List.range 32).filter (fun i => channelMask.testBit i)).length

/-- Modelled from the spec: which channel masks track configuration accepts
(`initTrackDownmix` is in AudioMixer.cpp).  One or two channels reach the mix directly;
content of up to `MAX_NUM_CHANNELS_TO_DOWNMIX` channels is accepted when a downmix
transform is available, and configuration fails otherwise. -/
def isSupportedChannelMask (multichannelCapable : Bool) (channelMask : Nat) : Bool :=
  let c := channelCountFromOutMask channelMask
  (decide (1 ≤ c) && decide (c ≤ MAX_NUM_CHANNELS)) ||
    (multichannelCapable && decide (MAX_NUM_CHANNELS < c) &&
      decide (c ≤ MAX_NUM_CHANNELS_TO_DOWNMIX))

/-- Lowest index below `bound` that is set in `configured` and clear in `allocated`. -/
def lowestFreeSlot (configured allocated : Nat) : Nat → Option Nat
  | 0 => none
  | k + 1 =>
    match lowestFreeSlot configured allocated k with
    | some i => some i
    | none => if configured.testBit k && !allocated.testBit k then some k else none

/-- Size in bytes of one sample of a format (`audio_bytes_per_sample` of system/audio.h);
0 for formats that are not linear PCM. -/
def bytesPerSample : audio_format_t → Nat
  | AUDIO_FORMAT_PCM_16_BIT => 2
  | AUDIO_FORMAT_PCM_8_BIT => 1
  | AUDIO_FORMAT_PCM_32_BIT => 4
  | AUDIO_FORMAT_PCM_8_24_BIT => 4
  | AUDIO_FORMAT_PCM_FLOAT => 4
  | AUDIO_FORMAT_PCM_24_BIT_PACKED => 3
  | other _ => 0

/-- Modelled from the spec: the constructor `ReformatBufferProvider(channels, inputFormat,
outputFormat)` (AudioMixer.cpp); frame sizes are channels times the sample size. -/
def ReformatBufferProvider.create (channels : Nat) (inputFormat outputFormat : audio_format_t) :
    ReformatBufferProvider :=
  { mChannels := channels
    mInputFormat := inputFormat
    mOutputFormat := outputFormat
    mInputFrameSize := channels * bytesPerSample inputFormat
    mOutputFrameSize := channels * bytesPerSample outputFormat
    mOutputCount := 0
    mConsumed := 0 }

/-- Modelled from the spec: the state `getTrackName` gives a newly allocated track
(AudioMixer.cpp).  Ramp and volume state are zero-initialised, the track is disabled, at the
mix sample rate without a resampler, and has no buffers or provider yet; content of more
than `MAX_NUM_CHANNELS` channels gets a downmixer that delivers `MAX_NUM_CHANNELS`, and a
format other than the 16-bit mixer input format gets a reformatter. -/
def newTrack (mixRate channelMask : Nat) (format : audio_format_t) (sessionId : Int) :
    track_t :=
  let c := channelCountFromOutMask channelMask
  { needs := 0
    volume := (0, 0)
    prevVolume := (0, 0)
    volumeInc := (0, 0)
    auxInc := 0
    prevAuxLevel := 0
    auxLevel := 0
    frameCount := 0
    channelCount := if c ≤ MAX_NUM_CHANNELS then c else MAX_NUM_CHANNELS
    enabled := false
    channelMask := channelMask
    bufferProvider := none
    hook := none
    resampler := none
    sampleRate := mixRate
    mainBuffer := 0
    auxBuffer := 0
    mReformatBufferProvider :=
      if format ≠ AUDIO_FORMAT_PCM_16_BIT then
        some (ReformatBufferProvider.create
          (if c ≤ MAX_NUM_CHANNELS then c else MAX_NUM_CHANNELS) format
          AUDIO_FORMAT_PCM_16_BIT)
      else none
    downmixerBufferProvider := decide (MAX_NUM_CHANNELS < c)
    sessionId := sessionId
    mMixerFormat := AUDIO_FORMAT_PCM_16_BIT
    mFormat := format
    mMixerInFormat := AUDIO_FORMAT_PCM_16_BIT }

/-- Writing slot `n` of the array `tracks`. -/
def setTrack (m : AudioMixer) (n : Nat) (t : track_t) : AudioMixer :=
  { m with mState := { m.mState with
      tracks := fun i => if i = n then t else m.mState.tracks i } }

/-- Modelled from the spec: the constructor `AudioMixer(frameCount, sampleRate,
maxNumTracks)` (AudioMixer.cpp).  No track is allocated or enabled; `mConfiguredNames` is
all ones if `maxNumTracks == MAX_NUM_TRACKS` and has the low `maxNumTracks` bits set if it
is smaller. -/
def ctor (frameCount sampleRate maxNumTracks : Nat) (multichannelCapable : Bool) :
    AudioMixer :=
  { mTrackNames := 0
    mConfiguredNames :=
      if maxNumTracks ≥ MAX_NUM_TRACKS then UINT32_ALL else 2 ^ maxNumTracks - 1
    mSampleRate := sampleRate
    mState :=
      { enabledTracks := 0
        needsChanged := 0
        frameCount := frameCount
        hook := process_hook_t.process__nop
        tracks := fun _ => newTrack sampleRate 0 AUDIO_FORMAT_PCM_16_BIT 0 }
    sIsMultichannelCapable := multichannelCapable }

/-- Modelled from the spec: `AudioMixer::getTrackName(channelMask, format, sessionId)`
(AudioMixer.cpp).  It allocates the lowest free slot index within the configured capacity
and returns `TRACK0 + index`; it returns -1 and changes nothing if the format or the channel
mask is unsupported or if all slots are in use.  On success the slot is marked used in the
allocation bitmask and holds a fresh, disabled track. -/
def getTrackName (m : AudioMixer) (channelMask : Nat) (format : audio_format_t)
    (sessionId : Int) : Int × AudioMixer :=
  if !isValidPcmTrackFormat format then (-1, m)
  else if !isSupportedChannelMask m.sIsMultichannelCapable channelMask then (-1, m)
  else
    match lowestFreeSlot m.mConfiguredNames m.mTrackNames MAX_NUM_TRACKS with
    | none => (-1, m)
    | some n =>
      (TRACK0 + (n : Int),
        { setTrack m n (newTrack m.mSampleRate channelMask format sessionId) with
          mTrackNames := m.mTrackNames ||| trackBit n })

/-- Modelled from the spec: `AudioMixer::deleteTrackName(name)` (AudioMixer.cpp).  It tears
down the owned resampler, reformatter and downmixer, clears the slot from the allocation
and enabled bitmasks, and invalidates the cached process hook if the track was enabled. -/
def deleteTrackName (m : AudioMixer) (name : Int) : AudioMixer :=
  match slotOfName name with
  | none => m
  | some n =>
    let t := m.mState.tracks n
    let m1 := if t.enabled then invalidateState m (trackBit n) else m
    let t1 := { t with
      enabled := false
      resampler := none
      mReformatBufferProvider := none
      downmixerBufferProvider := false }
    let m2 := setTrack m1 n t1
    { m2 with
      mTrackNames := clearTrackBit m2.mTrackNames n
      mState := { m2.mState with enabledTracks := clearTrackBit m2.mState.enabledTracks n } }

/-- Modelled from the spec: `AudioMixer::enable(name)` (AudioMixer.cpp).  It sets the track
enabled in the enabled bitmask and invalidates the cached hook when that changes the
enabled status. -/
def enable (m : AudioMixer) (name : Int) : AudioMixer :=
  match slotOfName name with
  | none => m
  | some n =>
    let t := m.mState.tracks n
    if t.enabled then m
    else
      let m1 := setTrack m n { t with enabled := true }
      invalidateState
        { m1 with mState := { m1.mState with
            enabledTracks := m1.mState.enabledTracks ||| trackBit n } }
        (trackBit n)

/-- Modelled from the spec: `AudioMixer::disable(name)` (AudioMixer.cpp).  It clears the
track from the enabled bitmask and invalidates the cached hook when that changes the
enabled status. -/
def disable (m : AudioMixer) (name : Int) : AudioMixer :=
  match slotOfName name with
  | none => m
  | some n =>
    let t := m.mState.tracks n
    if t.enabled then
      let m1 := setTrack m n { t with enabled := false }
      invalidateState
        { m1 with mState := { m1.mState with
            enabledTracks := clearTrackBit m1.mState.enabledTracks n } }
        (trackBit n)
    else m

/-! ## Track configuration (bodies in AudioMixer.cpp) -/

/-- Whether the track named `name` is allocated: its slot's bit is set in `mTrackNames`. -/
def isAllocated (m : AudioMixer) (name : Int) : Bool :=
  match slotOfName name with
  | some n => m.mTrackNames.testBit n
  | none => false

/-- The argument `void *value` of setParameter, by the way the parameter reads it: an
integer, a sample format, or the address of a caller-owned buffer. -/
inductive ParamValue where
  | int (v : Int)
  | format (f : audio_format_t)
  | buffer (address : Nat)
  deriving DecidableEq, Repr

/-- Modelled from the spec: the arithmetic that AudioMixer.cpp and AudioResampler implement
and that neither the header nor the specification fixes.  `rampIncrement previous target
frames` is the linear increment a ramped volume write computes, `levelOf v` the value of
`prevVolume` that holds gain `v` without a ramp; `track__genericResample` and
`volumeRampStereo` give, for a track and a frame count, what the resampling hook and the
ramping, aux-sending or reformatting hook add to the mix accumulator, and the track
afterwards; `convertMixerFormat` is the final conversion to an output format other than
16-bit PCM. -/
structure Kernels where
  rampIncrement : Int → Int → Nat → Int
  levelOf : Int → Int
  track__genericResample : track_t → Nat → List Int × track_t
  volumeRampStereo : track_t → Nat → List Int × track_t
  convertMixerFormat : audio_format_t → List Int → List Int

/-- Modelled from the spec: `track_t::setResampler(sampleRate, devSampleRate)`
(AudioMixer.cpp), by the header's description of SAMPLE_RATE.  Nothing happens unless the
rate changes; on a change the new rate is stored and a sample rate converter is created only
if none exists and the new rate differs from the mix rate.  An existing converter remains
present, also when the new rate is the mix rate.  The result tells whether anything
changed. -/
def track_t.setResampler (t : track_t) (sampleRate devSampleRate : Nat) : Bool × track_t :=
  if t.sampleRate = sampleRate then (false, t)
  else
    (true,
      { t with
        sampleRate := sampleRate
        resampler :=
          match t.resampler with
          | some r => some r
          | none => if sampleRate ≠ devSampleRate then some { mUnreleased := 0 } else none })

/-- Modelled from the spec: setParameter for target TRACK (AudioMixer.cpp): channel mask,
format, main and aux buffer, downmix type, mixer format.  The result tells whether the
track changed. -/
def setParameterTrack (multichannelCapable : Bool) (t : track_t) (param : Int)
    (value : ParamValue) : Bool × track_t :=
  if param = CHANNEL_MASK then
    match value with
    | ParamValue.int v =>
      let mask := v.toNat
      let c := channelCountFromOutMask mask
      if t.channelMask ≠ mask ∧ isSupportedChannelMask multichannelCapable mask = true then
        (true, { t with
          channelMask := mask
          channelCount := if c ≤ MAX_NUM_CHANNELS then c else MAX_NUM_CHANNELS
          downmixerBufferProvider := decide (MAX_NUM_CHANNELS < c) })
      else (false, t)
    | _ => (false, t)
  else if param = FORMAT then
    match value with
    | ParamValue.format f =>
      if t.mFormat ≠ f ∧ isValidPcmTrackFormat f = true then
        (true, { t with
          mFormat := f
          mReformatBufferProvider :=
            if f ≠ t.mMixerInFormat then
              some (ReformatBufferProvider.create t.channelCount f t.mMixerInFormat)
            else none })
      else (false, t)
    | _ => (false, t)
  else if param = MAIN_BUFFER then
    match value with
    | ParamValue.buffer p =>
      if t.mainBuffer ≠ p then (true, { t with mainBuffer := p }) else (false, t)
    | _ => (false, t)
  else if param = AUX_BUFFER then
    match value with
    | ParamValue.buffer p =>
      if t.auxBuffer ≠ p then (true, { t with auxBuffer := p }) else (false, t)
    | _ => (false, t)
  else if param = MIXER_FORMAT then
    match value with
    | ParamValue.format f =>
      if t.mMixerFormat ≠ f then (true, { t with mMixerFormat := f }) else (false, t)
    | _ => (false, t)
  else (false, t)

/-- Modelled from the spec: setParameter for target RESAMPLE (AudioMixer.cpp), by the
header's description of the three parameters.  SAMPLE_RATE configures the rate through
`setResampler`; RESET resets the sample rate converter without changing the rate; REMOVE
removes the converter and restores the track to the mix sample rate. -/
def setParameterResample (mixRate : Nat) (t : track_t) (param : Int) (value : ParamValue) :
    Bool × track_t :=
  if param = SAMPLE_RATE then
    match value with
    | ParamValue.int v => t.setResampler v.toNat mixRate
    | _ => (false, t)
  else if param = RESET then (true, t.resetResampler)
  else if param = REMOVE then (true, { t with resampler := none, sampleRate := mixRate })
  else (false, t)

/-- Modelled from the spec: setParameter for the targets VOLUME and RAMP_VOLUME
(AudioMixer.cpp).  An immediate write sets the level to the target and zeroes the
increment; a ramped write sets the target and the linear increment from the previous level
over the ramp duration. -/
def setParameterVolume (K : Kernels) (frameCount : Nat) (ramp : Bool) (t : track_t)
    (param : Int) (value : ParamValue) : Bool × track_t :=
  match value with
  | ParamValue.int v =>
    if param = VOLUME0 then
      (true, { t with
        volume := (v, t.volume.2)
        prevVolume := (if ramp then t.prevVolume.1 else K.levelOf v, t.prevVolume.2)
        volumeInc :=
          (if ramp then K.rampIncrement t.prevVolume.1 v frameCount else 0, t.volumeInc.2) })
    else if param = VOLUME1 then
      (true, { t with
        volume := (t.volume.1, v)
        prevVolume := (t.prevVolume.1, if ramp then t.prevVolume.2 else K.levelOf v)
        volumeInc :=
          (t.volumeInc.1, if ramp then K.rampIncrement t.prevVolume.2 v frameCount else 0) })
    else if param = AUXLEVEL then
      (true, { t with
        auxLevel := v
        prevAuxLevel := if ramp then t.prevAuxLevel else K.levelOf v
        auxInc := if ramp then K.rampIncrement t.prevAuxLevel v frameCount else 0 })
    else (false, t)
  | _ => (false, t)

/-- Modelled from the spec: `AudioMixer::setParameter(name, target, param, value)`
(AudioMixer.cpp): a tagged union of configuration writes by target; a write that changes
the track marks the hook cache dirty. -/
def setParameter (K : Kernels) (m : AudioMixer) (name target param : Int)
    (value : ParamValue) : AudioMixer :=
  match slotOfName name with
  | none => m
  | some n =>
    let t := m.mState.tracks n
    let r :=
      if target = TRACK then setParameterTrack m.sIsMultichannelCapable t param value
      else if target = RESAMPLE then setParameterResample m.mSampleRate t param value
      else if target = RAMP_VOLUME then
        setParameterVolume K m.mState.frameCount true t param value
      else if target = VOLUME then
        setParameterVolume K m.mState.frameCount false t param value
      else (false, t)
    if r.1 then invalidateState (setTrack m n r.2) (trackBit n) else m

/-- Modelled from the spec: `AudioMixer::setBufferProvider(name, bufferProvider)`
(AudioMixer.cpp) replaces the supplier the track's hooks pull from. -/
def setBufferProvider (m : AudioMixer) (name : Int)
    (bufferProvider : Option AudioBufferProvider) : AudioMixer :=
  match slotOfName name with
  | none => m
  | some n =>
    invalidateState (setTrack m n { m.mState.tracks n with bufferProvider := bufferProvider })
      (trackBit n)

/-- Modelled from the spec: `AudioMixer::getUnreleasedFrames(name)` (AudioMixer.cpp)
reports the unreleased frames of the named track, 0 for a name out of range. -/
def getUnreleasedFrames (m : AudioMixer) (name : Int) : Nat :=
  match slotOfName name with
  | some n => (m.mState.tracks n).getUnreleasedFrames
  | none => 0

/-! ## The mix cycle (bodies in AudioMixer.cpp) -/

/-- Caller-owned output buffers by address: the interleaved samples each one holds. -/
abbrev Memory := Nat → List Int

/-- Saturation of a sample to the range of `int16_t`. -/
def clamp16 (sample : Int) : Int :=
  if sample > 32767 then 32767 else if sample < -32768 then -32768 else sample

/-- Wrap-around of a sum to the range of the `int32_t` accumulator. -/
def toInt32 (x : Int) : Int :=
  (x + 2 ^ 31) % 2 ^ 32 - 2 ^ 31

/-- Slot indices of the tracks of a bitmask, in ascending order. -/
def enabledSlots (enabledTracks : Nat) : List Nat :=
  (List.range MAX_NUM_TRACKS).filter (fun i => enabledTracks.testBit i)

/-- Whether the track sends to an aux buffer. -/
def track_t.hasAux (t : track_t) : Bool :=
  t.auxLevel != 0 && t.auxBuffer != 0

/-- Whether the track is muted: both volumes zero and no ramp in progress. -/
def track_t.isMuted (t : track_t) : Bool :=
  !t.needsRamp && t.volume.1 == 0 && t.volume.2 == 0

/-- Modelled from the spec: the needs mask process__validate computes for a track
(AudioMixer.cpp): the channel count, and whether the track resamples, sends to aux, or is
muted. -/
def track_t.computeNeeds (t : track_t) : Nat :=
  (NEEDS_CHANNEL_1 + t.channelCount - 1) |||
    (if t.doesResample then NEEDS_RESAMPLE else 0) |||
    (if t.hasAux then NEEDS_AUX else 0) |||
    (if t.isMuted then NEEDS_MUTE else 0)

/-- Modelled from the spec: the track hook selected for a needs mask (AudioMixer.cpp). -/
def selectTrackHook (needs : Nat) : hook_t :=
  if needs &&& NEEDS_MUTE ≠ 0 then hook_t.track__nop
  else if needs &&& NEEDS_RESAMPLE ≠ 0 then hook_t.track__genericResample
  else if needs &&& NEEDS_CHANNEL_COUNT__MASK = NEEDS_CHANNEL_2 then hook_t.track__16BitsStereo
  else hook_t.track__16BitsMono

/-- Validation of one track: its needs mask and the hook that matches it. -/
def track_t.validate (t : track_t) : track_t :=
  { t with needs := t.computeNeeds, hook := some (selectTrackHook t.computeNeeds) }

/-- Whether the track is mixed by the static 16-bit integer kernels: no resampler, no ramp,
no aux send, 16-bit mixer input and no reformatter or downmixer in its provider chain. -/
def track_t.isPlain16 (t : track_t) : Bool :=
  !t.doesResample && !t.needsRamp && !t.hasAux &&
    t.mMixerInFormat == AUDIO_FORMAT_PCM_16_BIT &&
    t.mReformatBufferProvider.isNone && !t.downmixerBufferProvider

/-- Modelled from the spec: the process hook process__validate selects (AudioMixer.cpp).
No track enabled gives the no-op hook; exactly one enabled track at the mix rate, stereo
16-bit in and out with static volume, gives the fused single-track kernel; every other
case gives the general hook, with or without resampling. -/
def selectProcessHook (s : state_t) : process_hook_t :=
  match enabledSlots s.enabledTracks with
  | [] => process_hook_t.process__nop
  | [i] =>
    let t := s.tracks i
    if t.doesResample then process_hook_t.process__genericResampling
    else if t.isPlain16 && t.channelCount == 2 && t.mMixerFormat == AUDIO_FORMAT_PCM_16_BIT
    then process_hook_t.process__OneTrack16BitsStereoNoResampling
    else process_hook_t.process__genericNoResampling
  | slots =>
    if slots.any (fun i => (s.tracks i).doesResample) then
      process_hook_t.process__genericResampling
    else process_hook_t.process__genericNoResampling

/-- Modelled from the spec: `process__validate` (AudioMixer.cpp) recomputes the needs of
the enabled tracks, picks the matching hooks and marks the configuration clean. -/
def process__validate (m : AudioMixer) : AudioMixer :=
  let s := m.mState
  { m with mState := { s with
      needsChanged := 0
      hook := selectProcessHook s
      tracks := fun i =>
        if i < MAX_NUM_TRACKS ∧ s.enabledTracks.testBit i = true then (s.tracks i).validate
        else s.tracks i } }

/-- Modelled from the spec: pulling `samples` interleaved samples from the track's buffer
provider; what the provider cannot supply is silence. -/
def track_t.getNextBuffer (t : track_t) (samples : Nat) : List Int × track_t :=
  match t.bufferProvider with
  | none => (List.replicate samples 0, t)
  | some p =>
    let got := p.pending.take samples
    (got ++ List.replicate (samples - got.length) 0,
      { t with bufferProvider := some { pending := p.pending.drop samples } })

/-- Static volume of a stereo track into accumulator units: sample times U4.12 gain. -/
def mulStereo (vl vr : Int) : List Int → List Int
  | l :: r :: rest => l * vl :: r * vr :: mulStereo vl vr rest
  | _ => []

/-- Static volume of a mono track into both channels of the accumulator. -/
def mulMono (vl vr : Int) : List Int → List Int
  | [] => []
  | x :: rest => x * vl :: x * vr :: mulMono vl vr rest

/-- Modelled from the spec: what a kernel of `K` may change in a track.  Ramp state is the
only per-call mutable state advanced inside the real-time path, besides what the track has
pulled from its provider and the history of its resampler; all other mutation happens at
configuration time. -/
def track_t.afterHook (t r : track_t) : track_t :=
  { t with
    prevVolume := r.prevVolume
    volumeInc := r.volumeInc
    prevAuxLevel := r.prevAuxLevel
    auxInc := r.auxInc
    bufferProvider := r.bufferProvider
    resampler :=
      match t.resampler, r.resampler with
      | some _, some x => some x
      | old, _ => old }

/-- Modelled from the spec: what a track's hook adds to the mix accumulator in one cycle of
`frameCount` frames, and the track afterwards (AudioMixer.cpp).  A muted track adds
nothing; the static 16-bit kernels multiply each sample by the channel's gain; all other
tracks go through the kernels of `K`. -/
def runTrackHook (K : Kernels) (t : track_t) (frameCount : Nat) : List Int × track_t :=
  match t.hook with
  | none => (List.replicate (MAX_NUM_CHANNELS * frameCount) 0, t)
  | some hook_t.track__nop => (List.replicate (MAX_NUM_CHANNELS * frameCount) 0, t)
  | some hook_t.track__genericResample =>
    let r := K.track__genericResample t frameCount
    (r.1, t.afterHook r.2)
  | some hook_t.track__16BitsStereo =>
    if t.isPlain16 then
      let r := t.getNextBuffer (2 * frameCount)
      (mulStereo t.volume.1 t.volume.2 r.1, r.2)
    else
      let r := K.volumeRampStereo t frameCount
      (r.1, t.afterHook r.2)
  | some hook_t.track__16BitsMono =>
    if t.isPlain16 then
      let r := t.getNextBuffer frameCount
      (mulMono t.volume.1 t.volume.2 r.1, r.2)
    else
      let r := K.volumeRampStereo t frameCount
      (r.1, t.afterHook r.2)

/-- Adding a track's contribution to the `int32_t` accumulator, sample by sample. -/
def accumulate : List Int → List Int → List Int
  | [], _ => []
  | a :: acc, [] => a :: acc
  | a :: acc, c :: cs => toInt32 (a + c) :: accumulate acc cs

/-- Modelled from the spec: `convertMixerFormat` (AudioMixer.cpp), the single saturating
convert-down of the accumulator at the final write; for 16-bit output the U4.12 gain is
shifted out and the sample saturated. -/
def convertMixerFormat (K : Kernels) (mixerOutFormat : audio_format_t) (acc : List Int) :
    List Int :=
  if mixerOutFormat = AUDIO_FORMAT_PCM_16_BIT then acc.map (fun (a : Int) => clamp16 (a >>> (12 : Nat)))
  else K.convertMixerFormat mixerOutFormat acc

/-- Modelled from the spec: `process__nop` (AudioMixer.cpp) writes silence to the main
buffer of every enabled track; with no enabled track it writes nothing. -/
def process__nop (m : AudioMixer) (mem : Memory) : AudioMixer × Memory :=
  let s := m.mState
  (m, fun b =>
    if (enabledSlots s.enabledTracks).any (fun i => (s.tracks i).mainBuffer == b) then
      List.replicate (MAX_NUM_CHANNELS * s.frameCount) 0
    else mem b)

/-- Modelled from the spec: the general process hook (AudioMixer.cpp).  For every enabled
track in ascending track-name order the hook's contribution is accumulated into the mix of
the track's main buffer, and each mix is converted down once at the final write. -/
def process__generic (K : Kernels) (m : AudioMixer) (mem : Memory) : AudioMixer × Memory :=
  let s := m.mState
  let slots := enabledSlots s.enabledTracks
  let run := fun i => runTrackHook K (s.tracks i) s.frameCount
  ({ m with mState := { s with
       tracks := fun i => if i ∈ slots then (run i).2 else s.tracks i } },
    fun b =>
      match slots.filter (fun i => (s.tracks i).mainBuffer == b) with
      | [] => mem b
      | i :: rest =>
        convertMixerFormat K (s.tracks i).mMixerFormat
          ((i :: rest).foldl (fun acc j => accumulate acc (run j).1)
            (List.replicate (MAX_NUM_CHANNELS * s.frameCount) 0)))

/-- Modelled from the spec: `process__genericNoResampling` (AudioMixer.cpp). -/
def process__genericNoResampling (K : Kernels) (m : AudioMixer) (mem : Memory) :
    AudioMixer × Memory :=
  process__generic K m mem

/-- Modelled from the spec: `process__genericResampling` (AudioMixer.cpp); the resampling
tracks differ from the others by their track hook only. -/
def process__genericResampling (K : Kernels) (m : AudioMixer) (mem : Memory) :
    AudioMixer × Memory :=
  process__generic K m mem

/-- The fused single-track kernel on interleaved stereo samples: gain in U4.12, shifted
out and saturated to 16 bits. -/
def volumeStereo16 (vl vr : Int) : List Int → List Int
  | l :: r :: rest =>
    clamp16 ((l * vl) >>> (12 : Nat)) :: clamp16 ((r * vr) >>> (12 : Nat)) :: volumeStereo16 vl vr rest
  | _ => []

/-- Modelled from the spec: `process__OneTrack16BitsStereoNoResampling` (AudioMixer.cpp),
the fused copy/volume kernel for exactly one enabled track. -/
def process__OneTrack16BitsStereoNoResampling (m : AudioMixer) (mem : Memory) :
    AudioMixer × Memory :=
  let s := m.mState
  match enabledSlots s.enabledTracks with
  | [] => (m, mem)
  | i :: _ =>
    let t := s.tracks i
    let r := t.getNextBuffer (2 * s.frameCount)
    (setTrack m i r.2,
      fun b => if b = t.mainBuffer then volumeStereo16 t.volume.1 t.volume.2 r.1 else mem b)

/-- Modelled from the spec: `AudioMixer::process(pts)` (AudioMixer.cpp): validate when the
configuration is dirty, then run the selected hook. -/
def process (K : Kernels) (m : AudioMixer) (mem : Memory) (_pts : Int) :
    AudioMixer × Memory :=
  let m1 := if m.mState.hook = process_hook_t.process__validate then process__validate m else m
  match m1.mState.hook with
  | process_hook_t.process__validate => (m1, mem)
  | process_hook_t.process__nop => process__nop m1 mem
  | process_hook_t.process__genericNoResampling => process__genericNoResampling K m1 mem
  | process_hook_t.process__genericResampling => process__genericResampling K m1 mem
  | process_hook_t.process__OneTrack16BitsStereoNoResampling =>
    process__OneTrack16BitsStereoNoResampling m1 mem

/-- The mixer states the public operations produce, starting from the constructor.  The
operations that take the name of an allocated track are applied to allocated names. -/
inductive Reachable (K : Kernels) : AudioMixer → Prop where
  | ctor (frameCount sampleRate maxNumTracks : Nat) (multichannelCapable : Bool) :
    Reachable K (ctor frameCount sampleRate maxNumTracks multichannelCapable)
  | getTrackName {m : AudioMixer} (channelMask : Nat) (format : audio_format_t)
    (sessionId : Int) :
    Reachable K m → Reachable K (getTrackName m channelMask format sessionId).2
  | deleteTrackName {m : AudioMixer} (name : Int) :
    Reachable K m → isAllocated m name = true → Reachable K (deleteTrackName m name)
  | enable {m : AudioMixer} (name : Int) :
    Reachable K m → isAllocated m name = true → Reachable K (enable m name)
  | disable {m : AudioMixer} (name : Int) :
    Reachable K m → isAllocated m name = true → Reachable K (disable m name)
  | setParameter {m : AudioMixer} (name target param : Int) (value : ParamValue) :
    Reachable K m → Reachable K (setParameter K m name target param value)
  | setBufferProvider {m : AudioMixer} (name : Int)
    (bufferProvider : Option AudioBufferProvider) :
    Reachable K m → Reachable K (setBufferProvider m name bufferProvider)
  | process {m : AudioMixer} (mem : Memory) (pts : Int) :
    Reachable K m → Reachable K (process K m mem pts).1

/-- The class invariant of the two bitmasks: both are `uint32_t` values and only allocated
tracks are enabled. -/
def WellFormed (m : AudioMixer) : Prop :=
  m.mTrackNames < 2 ^ 32 ∧ m.mState.enabledTracks < 2 ^ 32 ∧
    ∀ i, m.mState.enabledTracks.testBit i = true → m.mTrackNames.testBit i = true

/-- Successive getTrackName calls, one per request (channel mask, format, session id), with
no other call in between: the names returned, in order, and the mixer afterwards. -/
def getTrackNames (m : AudioMixer) : List (Nat × audio_format_t × Int) → List Int × AudioMixer
  | [] => ([], m)
  | (channelMask, format, sessionId) :: rest =>
    let r := getTrackName m channelMask format sessionId
    let rr := getTrackNames r.2 rest
    (r.1 :: rr.1, rr.2)

/-- The mixer states reachable through getTrackName and
setParameter(name, RESAMPLE, SAMPLE_RATE | RESET | REMOVE, value) from the constructor. -/
inductive ResampleReachable (K : Kernels) : AudioMixer → Prop where
  | ctor (frameCount sampleRate maxNumTracks : Nat) (multichannelCapable : Bool) :
    ResampleReachable K (ctor frameCount sampleRate maxNumTracks multichannelCapable)
  | getTrackName {m : AudioMixer} (channelMask : Nat) (format : audio_format_t)
    (sessionId : Int) :
    ResampleReachable K m →
      ResampleReachable K (getTrackName m channelMask format sessionId).2
  | setParameter {m : AudioMixer} (name param : Int) (value : ParamValue) :
    ResampleReachable K m → (param = SAMPLE_RATE ∨ param = RESET ∨ param = REMOVE) →
      ResampleReachable K (setParameter K m name RESAMPLE param value)

/-- A reformatter for two channels whose input and output format are both 16-bit PCM, so
that its output representation requires no conversion. -/
def passThroughReformatter : ReformatBufferProvider :=
  { mChannels := 2
    mInputFormat := AUDIO_FORMAT_PCM_16_BIT
    mOutputFormat := AUDIO_FORMAT_PCM_16_BIT
    mInputFrameSize := 4
    mOutputFrameSize := 4
    mOutputCount := 0
    mConsumed := 0 }

/-- Kernels that add silence and convert nothing, for evaluating the model on concrete
inputs.  As a sample rate converter they are one whose output in the cycles evaluated is
silence, as that of a converter whose output lags its input by a cycle or more. -/
def silentKernels : Kernels :=
  { rampIncrement := fun _ _ _ => 0
    levelOf := fun v => v
    track__genericResample := fun t n => (List.replicate (MAX_NUM_CHANNELS * n) 0, t)
    volumeRampStereo := fun t n => (List.replicate (MAX_NUM_CHANNELS * n) 0, t)
    convertMixerFormat := fun _ acc => acc }

/-- A track of a mixer made ready for mixing by the public operations: main buffer, unity
volume on both channels, buffer provider, enable. -/
def configureUnity (m : AudioMixer) (name : Int) (mainBuffer : Nat) (samples : List Int) :
    AudioMixer :=
  enable
    (setBufferProvider
      (setParameter silentKernels
        (setParameter silentKernels
          (setParameter silentKernels m name TRACK MAIN_BUFFER (ParamValue.buffer mainBuffer))
          name VOLUME VOLUME0 (ParamValue.int UNITY_GAIN_INT))
        name VOLUME VOLUME1 (ParamValue.int UNITY_GAIN_INT))
      name (some { pending := samples }))
    name

/-- A mixer of 4 frames per cycle at 48000 Hz with one enabled stereo 16-bit track. -/
def oneTrackExample : AudioMixer :=
  configureUnity (getTrackName (ctor 4 48000 32 false) 3 AUDIO_FORMAT_PCM_16_BIT 0).2
    0x1000 7 [1, 2, 3, 4, 5, 6, 7, -8, 9, 10]

/-- What the operations other than the channel-mask write and the enable switch leave
alone in a track: its enabled flag and its channel count. -/
def track_t.sameConfig (t r : track_t) : Prop :=
  r.enabled = t.enabled ∧ r.channelCount = t.channelCount

/-- The class invariant of the tracks: the bitmasks are well formed, the enabled flag of
every slot agrees with its bit of the enabled-tracks bitmask, and every allocated track has
one or two channels. -/
def Consistent (m : AudioMixer) : Prop :=
  WellFormed m ∧
    (∀ i, (m.mState.tracks i).enabled = m.mState.enabledTracks.testBit i) ∧
    ∀ i, m.mTrackNames.testBit i = true →
      (m.mState.tracks i).channelCount = 1 ∨ (m.mState.tracks i).channelCount = 2

/-- The mixer of `oneTrackExample` after one mix cycle, with the channel mask of its
validated stereo track then set to mono. -/
def staleNeedsExample : AudioMixer :=
  setParameter silentKernels (process silentKernels oneTrackExample (fun _ => []) 0).1
    0x1000 TRACK CHANNEL_MASK (ParamValue.int 1)

end AudioMixer

/-!
# frameworks/av: AudioPolicyService, the command thread

A shallow embedding of `AudioPolicyService::AudioCommandThread::insertCommand_l` of
`services/audiopolicy/AudioPolicyService.cpp`.  The vector `mAudioCommands` is a list, an
`sp<AudioCommand>` is the command it points to together with the address of the object,
and `systemTime()` is an argument.
-/

namespace AudioPolicyService

/-- The time of `ms` milliseconds in `nsecs_t` nanoseconds (`milliseconds` of
utils/Timers.h). -/
def milliseconds (ms : Int) : Int :=
  ms * 1000000

/-- Modelled from the spec: the enum of command codes is declared in AudioPolicyService.h,
which is not among the sources; these are the codes AudioPolicyService.cpp names. -/
inductive Command where
  | START_TONE
  | STOP_TONE
  | SET_VOLUME
  | SET_PARAMETERS
  | SET_VOICE_VOLUME
  | STOP_OUTPUT
  | RELEASE_OUTPUT
  | CREATE_AUDIO_PATCH
  | RELEASE_AUDIO_PATCH
  | UPDATE_AUDIOPORT_LIST
  | UPDATE_AUDIOPATCH_LIST
  | SET_AUDIOPORT_CONFIG
  deriving DecidableEq, Repr

/-- Modelled from the spec: `VolumeData` is declared in AudioPolicyService.h, which is not
among the sources; the members are those volumeCommand fills.  The `float` volume is held as
its bit pattern and is not inspected. -/
structure VolumeData where
  mStream : Int
  mVolume : Nat
  mIO : Int
  deriving DecidableEq, Repr

/-- Modelled from the spec: `ParametersData` is declared in AudioPolicyService.h, which is
not among the sources; the members are those parametersCommand fills.  The key/value pairs
string `mKeyValuePairs` is held in parsed form, as the pairs `AudioParameter` makes of
it. -/
structure ParametersData where
  mIO : Int
  mKeyValuePairs : List (String × String)
  deriving DecidableEq, Repr

/-- Modelled from the spec: the data classes are declared in AudioPolicyService.h, which is
not among the sources.  This is the object `mParam` points to, by its class; `other` stands
for the data classes that insertCommand_l does not read. -/
inductive AudioCommandData where
  | none
  | volume (data : VolumeData)
  | parameters (data : ParametersData)
  | other (tag : Nat)
  deriving DecidableEq, Repr

/-- Modelled from the spec: `AudioCommand` is declared in AudioPolicyService.h, which is not
among the sources; these are the members that AudioPolicyService.cpp reads and writes, and
the address of the object, which is what comparing two `sp<AudioCommand>` with `get()`
compares. -/
structure AudioCommand where
  mCommand : Command
  mTime : Int
  mStatus : Int
  mParam : AudioCommandData
  mWaitStatus : Bool
  address : Nat
  deriving DecidableEq, Repr

/-- Modelled from the spec: `AudioParameter` (media/AudioParameter.h) is not among the
sources.  It holds the key/value pairs of a parameter string, one value per key, which is
what the per-key filtering of superseded parameter commands works on. -/
structure AudioParameter where
  mParameters : List (String × String)
  deriving DecidableEq, Repr

/-- Modelled from the spec: `AudioParameter::size()`, the number of pairs. -/
def AudioParameter.size (p : AudioParameter) : Nat :=
  p.mParameters.length

/-- Modelled from the spec: `AudioParameter::remove(key)` removes the pair of the key. -/
def AudioParameter.remove (p : AudioParameter) (key : String) : AudioParameter :=
  { mParameters := p.mParameters.eraseP (fun kv => kv.1 == key) }

/-- Modelled from the spec: `AudioParameter::toString()`, the pairs as a key/value pairs
string (held in parsed form). -/
def AudioParameter.toString (p : AudioParameter) : List (String × String) :=
  p.mParameters

/-- The two nested loops of case SET_PARAMETERS: for every pair of `param`, in order, the
first pair of `param2` with the same key is looked up and, when there is one, removed. -/
def filterOutKeys (param param2 : AudioParameter) : AudioParameter :=
  param.mParameters.foldl
    (fun p2 kv => if p2.mParameters.any (fun kv2 => kv2.1 == kv.1) then p2.remove kv.1 else p2)
    param2

/-- The variables of insertCommand_l that the scan of the pending commands reads and
writes: the vector, the command being inserted, `delayMs` and `removedCommands`. -/
structure ScanState where
  mAudioCommands : List AudioCommand
  command : AudioCommand
  delayMs : Int
  removedCommands : List AudioCommand

/-- The `switch (command->mCommand)` of the scan, for a pending `command2` at index `i`
with the same command code and a later time stamp.  A `break` out of the switch leaves the
state as it is; so does a command whose `mParam` is not of the class its command code casts
it to, a case the source does not define. -/
def coalesce (s : ScanState) (i : Nat) (command2 : AudioCommand) : ScanState :=
  match s.command.mCommand with
  | Command.SET_PARAMETERS =>
    match s.command.mParam, command2.mParam with
    | AudioCommandData.parameters data, AudioCommandData.parameters data2 =>
      if data.mIO ≠ data2.mIO then s
      else
        let param : AudioParameter := { mParameters := data.mKeyValuePairs }
        let param2 := filterOutKeys param { mParameters := data2.mKeyValuePairs }
        let s1 : ScanState :=
          if param2.size = 0 then
            { s with removedCommands := s.removedCommands ++ [command2] }
          else
            let data2 : ParametersData := { data2 with mKeyValuePairs := param2.toString }
            let updated : AudioCommand :=
              { command2 with mParam := AudioCommandData.parameters data2 }
            { s with mAudioCommands := s.mAudioCommands.set i updated }
        { s1 with command := { s.command with mTime := command2.mTime }, delayMs := 1 }
    | _, _ => s
  | Command.SET_VOLUME =>
    match s.command.mParam, command2.mParam with
    | AudioCommandData.volume data, AudioCommandData.volume data2 =>
      if data.mIO ≠ data2.mIO then s
      else if data.mStream ≠ data2.mStream then s
      else
        { s with
          removedCommands := s.removedCommands ++ [command2]
          command := { s.command with mTime := command2.mTime }
          delayMs := 1 }
    | _, _ => s
  | _ => s

/-- The scan `for (i = mAudioCommands.size()-1; i >= 0; i--)`, entered with `i + 1`
indices still to visit; the result is the value of `i` after the loop (-1 when the loop
ran to its end) and the variables. -/
def scanLoop (s : ScanState) : Nat → Int × ScanState
  | 0 => (-1, s)
  | i + 1 =>
    match s.mAudioCommands[i]? with
    | none => scanLoop s i
    | some command2 =>
      if command2.mTime ≤ s.command.mTime then ((i : Int), s)
      else if command2.mCommand ≠ s.command.mCommand then scanLoop s i
      else scanLoop (coalesce s i command2) i

/-- The inner loop of the removal: the first command at an index `k >= start` that is the
object `removed` is removed from the vector. -/
def removeFirstFrom (mAudioCommands : List AudioCommand) (start : Nat)
    (removed : AudioCommand) : List AudioCommand :=
  mAudioCommands.take start ++
    (mAudioCommands.drop start).eraseP (fun c => c.address == removed.address)

/-- The removal loop `for (j = 0; j < removedCommands.size(); j++)`, searching from index
`i + 1`. -/
def removeFiltered (mAudioCommands : List AudioCommand) (i : Int)
    (removedCommands : List AudioCommand) : List AudioCommand :=
  removedCommands.foldl (fun q r => removeFirstFrom q (i + 1).toNat r) mAudioCommands

/-- The method `Vector::insertAt(item, index)`: no insertion at an index beyond the size. -/
def insertAt (mAudioCommands : List AudioCommand) (item : AudioCommand) (index : Nat) :
    List AudioCommand :=
  if index ≤ mAudioCommands.length then
    mAudioCommands.take index ++ item :: mAudioCommands.drop index
  else mAudioCommands

/-- What insertCommand_l leaves: the vector `mAudioCommands`, the command object it
inserted, and whether it acquired the wake lock. -/
structure InsertResult where
  mAudioCommands : List AudioCommand
  command : AudioCommand
  wakeLockAcquired : Bool

/-- The state the scan of insertCommand_l starts from: the command carries the time stamp
`systemTime() + milliseconds(delayMs)` and nothing is removed yet. -/
def scanStart (mAudioCommands : List AudioCommand) (command : AudioCommand) (delayMs now : Int) :
    ScanState :=
  { mAudioCommands := mAudioCommands
    command := { command with mTime := now + milliseconds delayMs }
    delayMs := delayMs
    removedCommands := [] }

/-- The method `AudioCommandThread::insertCommand_l(command, delayMs)`, called at time
`now = systemTime()` on the vector `mAudioCommands`. -/
def insertCommand_l (mAudioCommands : List AudioCommand) (command : AudioCommand)
    (delayMs now : Int) : InsertResult :=
  let r := scanLoop (scanStart mAudioCommands command delayMs now) mAudioCommands.length
  let i := r.1
  let s := r.2
  let remaining := removeFiltered s.mAudioCommands i s.removedCommands
  let inserted : AudioCommand :=
    if s.delayMs ≠ 0 then { s.command with mWaitStatus := false } else s.command
  { mAudioCommands := insertAt remaining inserted (i + 1).toNat
    command := inserted
    wakeLockAcquired := mAudioCommands.isEmpty }

/-- Whether the vector is sorted by non-decreasing time stamp. -/
def sortedByTime (mAudioCommands : List AudioCommand) : Prop :=
  mAudioCommands.Pairwise (fun a b => a.mTime ≤ b.mTime)

/-- Whether the pending command `d` is one the command `c` is coalesced with: the same
command code, and either two SET_VOLUME commands for the same output and stream or two
SET_PARAMETERS commands for the same `mIO`. -/
def coalesces (c d : AudioCommand) : Bool :=
  d.mCommand == c.mCommand &&
    match c.mCommand, c.mParam, d.mParam with
    | Command.SET_PARAMETERS, AudioCommandData.parameters data,
        AudioCommandData.parameters data2 => data.mIO == data2.mIO
    | Command.SET_VOLUME, AudioCommandData.volume data, AudioCommandData.volume data2 =>
      data.mIO == data2.mIO && data.mStream == data2.mStream
    | _, _, _ => false

/-- A SET_VOLUME command as volumeCommand builds it. -/
def volumeCommand (stream : Int) (volume : Nat) (output : Int) (address : Nat) : AudioCommand :=
  { mCommand := Command.SET_VOLUME
    mTime := 0
    mStatus := 0
    mParam := AudioCommandData.volume { mStream := stream, mVolume := volume, mIO := output }
    mWaitStatus := true
    address := address }

/-- A SET_PARAMETERS command as parametersCommand builds it. -/
def parametersCommand (ioHandle : Int) (keyValuePairs : List (String × String))
    (address : Nat) : AudioCommand :=
  { mCommand := Command.SET_PARAMETERS
    mTime := 0
    mStatus := 0
    mParam := AudioCommandData.parameters { mIO := ioHandle, mKeyValuePairs := keyValuePairs }
    mWaitStatus := true
    address := address }

/-- Modelled from the spec: the input source tags `MIC_SRC_TAG` ... `VOICE_COMM_SRC_TAG` are
macros of a header that is not among the sources; they are taken as given strings. -/
structure InputSourceTags where
  MIC_SRC_TAG : String
  VOICE_UL_SRC_TAG : String
  VOICE_DL_SRC_TAG : String
  VOICE_CALL_SRC_TAG : String
  CAMCORDER_SRC_TAG : String
  VOICE_REC_SRC_TAG : String
  VOICE_COMM_SRC_TAG : String

/-- The table `kInputSourceNames[AUDIO_SOURCE_CNT -1]`: the seven initialisers, and a null
pointer in every further entry of the declared size.  `AUDIO_SOURCE_CNT` is an enumerator of
system/audio.h, which is not among the sources, and is an argument. -/
def kInputSourceNames (AUDIO_SOURCE_CNT : Int) (tags : InputSourceTags) : List (Option String) :=
  [ some tags.MIC_SRC_TAG,
    some tags.VOICE_UL_SRC_TAG,
    some tags.VOICE_DL_SRC_TAG,
    some tags.VOICE_CALL_SRC_TAG,
    some tags.CAMCORDER_SRC_TAG,
    some tags.VOICE_REC_SRC_TAG,
    some tags.VOICE_COMM_SRC_TAG ] ++
    List.replicate ((AUDIO_SOURCE_CNT - 1).toNat - 7) none

/-- The loop `for (i = AUDIO_SOURCE_MIC; i < AUDIO_SOURCE_CNT; i++)` of
inputSourceNameToEnum at `i = AUDIO_SOURCE_MIC + k` with `n` values of `i` left below
`AUDIO_SOURCE_CNT`; the result is the value of `i` after the loop.  Reading past the table
or handing a null entry to `strcmp` is undefined and gives `none`. -/
def inputSourceNameLoop (table : List (Option String)) (AUDIO_SOURCE_MIC : Int)
    (name : String) : Nat → Nat → Option Int
  | k, 0 => some (AUDIO_SOURCE_MIC + k)
  | k, n + 1 =>
    match table[k]? with
    | some (some entry) =>
      if name = entry then some (AUDIO_SOURCE_MIC + k)
      else inputSourceNameLoop table AUDIO_SOURCE_MIC name (k + 1) n
    | _ => none

/-- The function `AudioPolicyService::inputSourceNameToEnum(name)`; the enumerators
`AUDIO_SOURCE_MIC` and `AUDIO_SOURCE_CNT` of system/audio.h are arguments. -/
def inputSourceNameToEnum (AUDIO_SOURCE_MIC AUDIO_SOURCE_CNT : Int) (tags : InputSourceTags)
    (name : String) : Option Int :=
  inputSourceNameLoop (kInputSourceNames AUDIO_SOURCE_CNT tags) AUDIO_SOURCE_MIC name 0
    (AUDIO_SOURCE_CNT - AUDIO_SOURCE_MIC).toNat

/-- A sorted vector of three pending commands: a volume command for stream 3 of output 1
due at 100, a parameters command for `mIO` 5 due at 200, and a second volume command for
stream 3 of output 1 due at 300. -/
def pendingExample : List AudioCommand :=
  [ { (volumeCommand 3 10 1 101) with mTime := 100 },
    { (parametersCommand 5 [("routing", "2"), ("screen_state", "on")] 102) with mTime := 200 },
    { (volumeCommand 3 20 1 103) with mTime := 300 } ]

end AudioPolicyService

/-!
# frameworks/av: NuPlayer::GenericSource

A shallow embedding of `media/libmediaplayerservice/nuplayer/GenericSource.cpp`.  An
`sp<>` that may be null is an `Option`; a failed `CHECK`, which aborts the process, and
an undefined read make a function return `none`.  What a `MediaSource` returns from
`read` is given by the list of its pending results.
-/

namespace GenericSource

/-- The status `OK` of utils/Errors.h. -/
def OK : Int := 0

/-- The errno `EWOULDBLOCK`. -/
def EWOULDBLOCK : Int := 11

/-- The status `WOULD_BLOCK = -EWOULDBLOCK` of utils/Errors.h. -/
def WOULD_BLOCK : Int := -EWOULDBLOCK

/-- Modelled from the spec: MediaErrors.h is not among the sources; `INFO_FORMAT_CHANGED`
is `MEDIA_ERROR_BASE - 12`. -/
def INFO_FORMAT_CHANGED : Int := -1012

/-- Modelled from the spec: MediaErrors.h is not among the sources; `ERROR_END_OF_STREAM`
is `MEDIA_ERROR_BASE - 11`. -/
def ERROR_END_OF_STREAM : Int := -1011

/-- Modelled from the spec: MediaErrors.h is not among the sources; `INFO_DISCONTINUITY` is
`MEDIA_ERROR_BASE - 13`. -/
def INFO_DISCONTINUITY : Int := -1013

/-- Modelled from the spec: mediaplayer.h, which declares `media_track_type`, is not among
the sources. -/
def MEDIA_TRACK_TYPE_UNKNOWN : Int := 0

/-- Modelled from the spec: an enumerator of `media_track_type` (mediaplayer.h). -/
def MEDIA_TRACK_TYPE_VIDEO : Int := 1

/-- Modelled from the spec: an enumerator of `media_track_type` (mediaplayer.h). -/
def MEDIA_TRACK_TYPE_AUDIO : Int := 2

/-- Modelled from the spec: an enumerator of `media_track_type` (mediaplayer.h). -/
def MEDIA_TRACK_TYPE_TIMEDTEXT : Int := 3

/-- Modelled from the spec: an enumerator of `media_track_type` (mediaplayer.h). -/
def MEDIA_TRACK_TYPE_SUBTITLE : Int := 4

/-- Modelled from the spec: MediaDefs.cpp is not among the sources; the mime type of 3GPP
timed text. -/
def MEDIA_MIMETYPE_TEXT_3GPP : String := "text/3gpp-tt"

/-- Modelled from the spec: MediaDefs.cpp is not among the sources; the mime type of Vorbis
audio. -/
def MEDIA_MIMETYPE_AUDIO_VORBIS : String := "audio/vorbis"

/-- Modelled from the spec: MediaDefs.cpp is not among the sources; the mime type of the
Widevine container. -/
def MEDIA_MIMETYPE_CONTAINER_WVM : String := "video/wvm"

/-- The libc function `strcasecmp`, as far as it is used: 0 when the two strings are equal
up to the case of ASCII letters, and non-zero (here 1) otherwise. -/
def strcasecmp (s1 s2 : String) : Int :=
  if s1.toList.map Char.toLower = s2.toList.map Char.toLower then 0 else 1

/-- The libc function `strncasecmp`, as far as it is used: 0 when the first `n` characters
of the two strings (all of them, for a shorter string) are equal up to the case of ASCII
letters, and non-zero (here 1) otherwise. -/
def strncasecmp (s1 s2 : String) (n : Nat) : Int :=
  if (s1.toList.take n).map Char.toLower = (s2.toList.take n).map Char.toLower then 0 else 1

/-- Modelled from the spec: MetaData.h is not among the sources; these are the keys that
GenericSource.cpp looks up. -/
inductive MetaKey where
  | kKeyMIMEType
  | kKeyMediaLanguage
  | kKeyDuration
  | kKeyTrackIsAutoselect
  | kKeyTrackIsDefault
  | kKeyTrackIsForced
  | kKeyValidSamples
  | kKeyTime
  deriving DecidableEq, Repr

/-- Modelled from the spec: a typed value of a `MetaData` item. -/
inductive MetaValue where
  | cstring (value : String)
  | int32 (value : Int)
  | int64 (value : Int)
  deriving DecidableEq, Repr

/-- Modelled from the spec: MetaData.h is not among the sources; a `MetaData` holds typed
values by key. -/
structure MetaData where
  mItems : List (MetaKey × MetaValue)
  deriving DecidableEq, Repr

/-- Modelled from the spec: `MetaData::findCString`, the string stored for the key. -/
def MetaData.findCString (m : MetaData) (key : MetaKey) : Option String :=
  match m.mItems.lookup key with
  | some (MetaValue.cstring value) => some value
  | _ => none

/-- Modelled from the spec: `MetaData::findInt32`, the 32-bit integer stored for the key. -/
def MetaData.findInt32 (m : MetaData) (key : MetaKey) : Option Int :=
  match m.mItems.lookup key with
  | some (MetaValue.int32 value) => some value
  | _ => none

/-- Modelled from the spec: `MetaData::findInt64`, the 64-bit integer stored for the key. -/
def MetaData.findInt64 (m : MetaData) (key : MetaKey) : Option Int :=
  match m.mItems.lookup key with
  | some (MetaValue.int64 value) => some value
  | _ => none

/-- Modelled from the spec: MediaBuffer.h is not among the sources; a `MediaBuffer` has its
bytes, the range of them that is valid, and meta data. -/
structure MediaBuffer where
  mData : List Nat
  mRangeOffset : Nat
  mRangeLength : Nat
  mMetaData : MetaData
  deriving DecidableEq, Repr

/-- Modelled from the spec: a value of an `AMessage` item (AMessage.h is not among the
sources). -/
inductive AMessageValue where
  | int32 (value : Int)
  | int64 (value : Int)
  | string (value : String)
  | pointer (value : MediaBuffer)
  deriving DecidableEq, Repr

/-- Modelled from the spec: AMessage.h is not among the sources; an `AMessage` holds one
value per item name. -/
structure AMessage where
  mItems : List (String × AMessageValue)
  deriving DecidableEq, Repr

/-- Modelled from the spec: `new AMessage()`, a message without items. -/
def AMessage.new : AMessage :=
  { mItems := [] }

/-- Modelled from the spec: the setters of `AMessage` store the value under the name, in
place of a value already stored under it. -/
def AMessage.setItem (m : AMessage) (name : String) (value : AMessageValue) : AMessage :=
  if m.mItems.any (fun item => item.1 == name) then
    { mItems := m.mItems.map (fun item => if item.1 == name then (name, value) else item) }
  else { mItems := m.mItems ++ [(name, value)] }

/-- Modelled from the spec: `AMessage::setInt32`. -/
def AMessage.setInt32 (m : AMessage) (name : String) (value : Int) : AMessage :=
  m.setItem name (AMessageValue.int32 value)

/-- Modelled from the spec: `AMessage::setInt64`. -/
def AMessage.setInt64 (m : AMessage) (name : String) (value : Int) : AMessage :=
  m.setItem name (AMessageValue.int64 value)

/-- Modelled from the spec: `AMessage::setString`. -/
def AMessage.setString (m : AMessage) (name : String) (value : String) : AMessage :=
  m.setItem name (AMessageValue.string value)

/-- Modelled from the spec: `AMessage::setPointer`. -/
def AMessage.setPointer (m : AMessage) (name : String) (value : MediaBuffer) : AMessage :=
  m.setItem name (AMessageValue.pointer value)

/-- Modelled from the spec: `AMessage::contains`, whether an item has the name. -/
def AMessage.contains (m : AMessage) (name : String) : Bool :=
  m.mItems.any (fun item => item.1 == name)

/-- Modelled from the spec: the value stored under the name, as the finders of `AMessage`
look it up. -/
def AMessage.findItem (m : AMessage) (name : String) : Option AMessageValue :=
  m.mItems.lookup name

/-- Modelled from the spec: ABuffer.h is not among the sources; an `ABuffer` has its bytes
(`none` for a buffer made with a null data pointer), its size and a meta message. -/
structure ABuffer where
  mData : Option (List Nat)
  mRangeLength : Nat
  mMeta : AMessage
  deriving DecidableEq, Repr

/-- Modelled from the spec: `new ABuffer(capacity)`; the fresh bytes, undetermined in the
source, are zeros here. -/
def ABuffer.new (capacity : Nat) : ABuffer :=
  { mData := some (List.replicate capacity 0), mRangeLength := capacity, mMeta := AMessage.new }

/-- Modelled from the spec: `new ABuffer(NULL, capacity)`, a buffer without bytes of its
own. -/
def ABuffer.newNull (capacity : Nat) : ABuffer :=
  { mData := none, mRangeLength := capacity, mMeta := AMessage.new }

/-- The bytes `src + offset ... src + offset + n` that a `memcpy` reads; reading past the
end is undefined. -/
def readBytes (src : List Nat) (offset n : Nat) : Option (List Nat) :=
  if offset + n ≤ src.length then some ((src.drop offset).take n) else none

/-- The library function `memcpy(dst + offset, src, n)` on the bytes of `dst`; writing past
the end is undefined. -/
def memcpy (dst : List Nat) (offset : Nat) (src : List Nat) : Option (List Nat) :=
  if offset + src.length ≤ dst.length then
    some (dst.take offset ++ src ++ dst.drop (offset + src.length))
  else none

/-- The four bytes of an `int32_t` in memory, least significant byte first. -/
def int32Bytes (value : Int) : List Nat :=
  let u := (value % 2 ^ 32).toNat
  [u % 256, u / 256 % 256, u / 65536 % 256, u / 16777216 % 256]

/-- What a call of `MediaSource::read` gives: a buffer with status `OK`, or a status. -/
inductive ReadResult where
  | buffer (mbuf : MediaBuffer)
  | status (err : Int)
  deriving DecidableEq, Repr

/-- Modelled from the spec: MediaSource.h is not among the sources; a `MediaSource` has a
format and gives, read by read, its pending results, and `ERROR_END_OF_STREAM` when none is
left. -/
structure MediaSource where
  mFormat : MetaData
  mPending : List ReadResult
  deriving DecidableEq, Repr

/-- Modelled from the spec: AnotherPacketSource.h is not among the sources; a packet source
keeps the queued buffers in order, and a final result. -/
structure AnotherPacketSource where
  mFormat : MetaData
  mBuffers : List ABuffer
  mEOSResult : Int
  deriving DecidableEq, Repr

/-- Modelled from the spec: `new AnotherPacketSource(format)`, an empty queue. -/
def AnotherPacketSource.new (format : MetaData) : AnotherPacketSource :=
  { mFormat := format, mBuffers := [], mEOSResult := OK }

/-- Modelled from the spec: `AnotherPacketSource::hasBufferAvailable(&finalResult)`: whether
a buffer is queued, and the final result. -/
def AnotherPacketSource.hasBufferAvailable (p : AnotherPacketSource) : Bool × Int :=
  (!p.mBuffers.isEmpty, p.mEOSResult)

/-- Modelled from the spec: `AnotherPacketSource::dequeueAccessUnit(&buffer)` takes the
first queued buffer; its result is `INFO_DISCONTINUITY` for a discontinuity marker and
`OK` for an access unit, and the final result when nothing is queued. -/
def AnotherPacketSource.dequeueAccessUnit (p : AnotherPacketSource) :
    Int × Option ABuffer × AnotherPacketSource :=
  match p.mBuffers with
  | [] => (p.mEOSResult, none, p)
  | buffer :: rest =>
    (if buffer.mMeta.contains "discontinuity" then INFO_DISCONTINUITY else OK,
      some buffer, { p with mBuffers := rest })

/-- Modelled from the spec: `AnotherPacketSource::queueAccessUnit(buffer)` appends the
buffer. -/
def AnotherPacketSource.queueAccessUnit (p : AnotherPacketSource) (buffer : ABuffer) :
    AnotherPacketSource :=
  { p with mBuffers := p.mBuffers ++ [buffer] }

/-- Modelled from the spec: `AnotherPacketSource::queueDiscontinuity(type, extra, discard)`
drops, when `discard` is set, the queued access units, clears the final result and appends a
discontinuity marker. -/
def AnotherPacketSource.queueDiscontinuity (p : AnotherPacketSource) (type : Int)
    (discard : Bool) : AnotherPacketSource :=
  { p with
    mBuffers :=
      (if discard then p.mBuffers.filter (fun b => b.mMeta.contains "discontinuity")
        else p.mBuffers) ++ [{ (ABuffer.new 0) with
          mMeta := AMessage.new.setInt32 "discontinuity" type }]
    mEOSResult := OK }

/-- Modelled from the spec: `AnotherPacketSource::signalEOS(result)` sets the final
result. -/
def AnotherPacketSource.signalEOS (p : AnotherPacketSource) (result : Int) :
    AnotherPacketSource :=
  { p with mEOSResult := result }

/-- Modelled from the spec: ATSParser.h is not among the sources; the discontinuity type
`ATSParser::DISCONTINUITY_SEEK`. -/
def DISCONTINUITY_SEEK : Int := 1

/-- Modelled from the spec: MediaExtractor.h is not among the sources; what
initFromDataSource asks of an extractor: the file meta data (or null) and, per track, its
meta data and its source (or null). -/
structure MediaExtractor where
  mFileMetaData : Option MetaData
  mTracks : List (MetaData × Option MediaSource)
  deriving DecidableEq, Repr

/-- What initFromDataSource gets of the data source: the result of `SniffWVM` (the sniffed
mime type, `none` when sniffing fails), the extractor `new WVMExtractor(dataSource)` and the
extractor `MediaExtractor::Create(dataSource)`, which may be null. -/
structure DataSource where
  sniffWVM : Option String
  wvmExtractor : MediaExtractor
  extractor : Option MediaExtractor
  deriving DecidableEq, Repr

/-- Modelled from the spec: GenericSource.h is not among the sources; the members of
`GenericSource::Track` that GenericSource.cpp uses. -/
structure Track where
  mIndex : Nat
  mSource : Option MediaSource
  mPackets : Option AnotherPacketSource
  deriving DecidableEq, Repr

end GenericSource

/-- Modelled from the spec: GenericSource.h is not among the sources; the members of
`NuPlayer::GenericSource` that GenericSource.cpp uses. -/
structure GenericSource where
  mSources : List GenericSource.MediaSource
  mAudioTrack : GenericSource.Track
  mVideoTrack : GenericSource.Track
  mDurationUs : Int
  mAudioIsVorbis : Bool
  mIsWidevine : Bool
  mUIDValid : Bool
  mUID : Nat
  deriving DecidableEq, Repr

namespace GenericSource

open MetaKey

/-- The members as the constructors of GenericSource initialise them, before the call of
initFromDataSource. -/
def ctor (isWidevine uidValid : Bool) (uid : Nat) : GenericSource :=
  { mSources := []
    mAudioTrack := { mIndex := 0, mSource := none, mPackets := none }
    mVideoTrack := { mIndex := 0, mSource := none, mPackets := none }
    mDurationUs := 0
    mAudioIsVorbis := false
    mIsWidevine := isWidevine
    mUIDValid := uidValid
    mUID := uid }

/-- The extractor that initFromDataSource works on: `none` when the function returns early
for an unsupported Widevine mime type, `some none` for a null extractor. -/
def createExtractor (s : GenericSource) (dataSource : DataSource) :
    Option (Option MediaExtractor) :=
  if s.mIsWidevine then
    match dataSource.sniffWVM with
    | none => none
    | some mimeType =>
      if strcasecmp mimeType MEDIA_MIMETYPE_CONTAINER_WVM ≠ 0 then none
      else some (some dataSource.wvmExtractor)
  else some dataSource.extractor

/-- The body of the loop over the tracks in initFromDataSource, for track `i` with meta
data `meta` and source `track`. -/
def initTrack (s : GenericSource) (i : Nat) (meta : MetaData) (track : Option MediaSource) :
    Option GenericSource :=
  match meta.findCString kKeyMIMEType with
  | none => none
  | some mime =>
    let s1 : GenericSource :=
      if strncasecmp mime "audio/" 6 = 0 then
        if s.mAudioTrack.mSource = none then
          { s with
            mAudioTrack := { s.mAudioTrack with mIndex := i, mSource := track }
            mAudioIsVorbis := strcasecmp mime MEDIA_MIMETYPE_AUDIO_VORBIS = 0 }
        else s
      else if strncasecmp mime "video/" 6 = 0 then
        if s.mVideoTrack.mSource = none then
          { s with mVideoTrack := { s.mVideoTrack with mIndex := i, mSource := track } }
        else s
      else s
    match track with
    | none => some s1
    | some source =>
      let s2 : GenericSource := { s1 with mSources := s1.mSources ++ [source] }
      match meta.findInt64 kKeyDuration with
      | some durationUs =>
        if durationUs > s2.mDurationUs then some { s2 with mDurationUs := durationUs }
        else some s2
      | none => some s2

/-- The loop `for (size_t i = 0; i < extractor->countTracks(); ++i)` of
initFromDataSource, from track `i` on. -/
def initTracks : GenericSource → List (MetaData × Option MediaSource) → Nat →
    Option GenericSource
  | s, [], _ => some s
  | s, (meta, track) :: rest, i =>
    match initTrack s i meta track with
    | none => none
    | some s1 => initTracks s1 rest (i + 1)

/-- The method `GenericSource::initFromDataSource(dataSource)`. -/
def initFromDataSource (s : GenericSource) (dataSource : DataSource) : Option GenericSource :=
  match createExtractor s dataSource with
  | none => some s
  | some none => none
  | some (some extractor) =>
    let s1 : GenericSource :=
      match extractor.mFileMetaData with
      | some fileMeta =>
        match fileMeta.findInt64 kKeyDuration with
        | some duration => { s with mDurationUs := duration }
        | none => s
      | none => s
    initTracks s1 extractor.mTracks 0

/-- The method `GenericSource::getDuration(&durationUs)`: the value stored in `*durationUs`
and the status. -/
def getDuration (s : GenericSource) : Int × Int :=
  (s.mDurationUs, OK)

/-- The method `GenericSource::getTrackCount()`. -/
def getTrackCount (s : GenericSource) : Nat :=
  s.mSources.length

/-- The method `GenericSource::getTrackInfo(trackIndex)`; `some none` is the null
message. -/
def getTrackInfo (s : GenericSource) (trackIndex : Nat) : Option (Option AMessage) :=
  let trackCount := s.mSources.length
  if trackIndex ≥ trackCount then some none
  else
    match s.mSources[trackIndex]? with
    | none => none
    | some source =>
      let format := AMessage.new
      let meta := source.mFormat
      match meta.findCString kKeyMIMEType with
      | none => none
      | some mime =>
        let trackType : Int :=
          if strncasecmp mime "video/" 6 = 0 then MEDIA_TRACK_TYPE_VIDEO
          else if strncasecmp mime "audio/" 6 = 0 then MEDIA_TRACK_TYPE_AUDIO
          else if strcasecmp mime MEDIA_MIMETYPE_TEXT_3GPP = 0 then MEDIA_TRACK_TYPE_TIMEDTEXT
          else MEDIA_TRACK_TYPE_UNKNOWN
        let format := format.setInt32 "type" trackType
        let lang : String :=
          match meta.findCString kKeyMediaLanguage with
          | some lang => lang
          | none => "und"
        let format := format.setString "language" lang
        if trackType = MEDIA_TRACK_TYPE_SUBTITLE then
          let format := format.setString "mime" mime
          let isAutoselect := (meta.findInt32 kKeyTrackIsAutoselect).getD 1
          let isDefault := (meta.findInt32 kKeyTrackIsDefault).getD 0
          let isForced := (meta.findInt32 kKeyTrackIsForced).getD 0
          let format := format.setInt32 "auto" (if isAutoselect ≠ 0 then 1 else 0)
          let format := format.setInt32 "default" (if isDefault ≠ 0 then 1 else 0)
          let format := format.setInt32 "forced" (if isForced ≠ 0 then 1 else 0)
          some (some format)
        else some (some format)

/-- The track `audio ? &mAudioTrack : &mVideoTrack`. -/
def selectedTrack (s : GenericSource) (audio : Bool) : Track :=
  if audio then s.mAudioTrack else s.mVideoTrack

/-- The state with the selected track replaced. -/
def withSelectedTrack (s : GenericSource) (audio : Bool) (track : Track) : GenericSource :=
  if audio then { s with mAudioTrack := track } else { s with mVideoTrack := track }

/-- The access unit that readBuffer makes of a buffer read with status `OK`, and its time
stamp. -/
def makeAccessUnit (s : GenericSource) (audio : Bool) (mbuf : MediaBuffer) :
    Option (ABuffer × Int) :=
  let outLength : Nat :=
    if audio && s.mAudioIsVorbis then mbuf.mRangeLength + 4 else mbuf.mRangeLength
  let made : Option ABuffer :=
    if s.mIsWidevine && !audio then
      some { (ABuffer.newNull mbuf.mRangeLength) with
        mMeta := AMessage.new.setPointer "mediaBuffer" mbuf }
    else
      match readBytes mbuf.mData mbuf.mRangeOffset mbuf.mRangeLength with
      | none => none
      | some bytes =>
        match memcpy (List.replicate outLength 0) 0 bytes with
        | none => none
        | some data => some { (ABuffer.new outLength) with mData := some data }
  match made with
  | none => none
  | some buffer =>
    let filled : Option ABuffer :=
      if audio && s.mAudioIsVorbis then
        let numPageSamples : Int :=
          match mbuf.mMetaData.findInt32 kKeyValidSamples with
          | some n => n
          | none => -1
        match buffer.mData with
        | none => none
        | some data =>
          match memcpy data mbuf.mRangeLength (int32Bytes numPageSamples) with
          | none => none
          | some data1 => some { buffer with mData := some data1 }
      else some buffer
    match filled with
    | none => none
    | some buffer1 =>
      match mbuf.mMetaData.findInt64 kKeyTime with
      | none => none
      | some timeUs =>
        some ({ buffer1 with mMeta := buffer1.mMeta.setInt64 "timeUs" timeUs }, timeUs)

/-- The loop `for (;;)` of readBuffer over the pending results of the source; the result
is what is left pending, the packet source, and the value of `*actualTimeUs`. -/
def readLoop (s : GenericSource) (audio seeking hasActual : Bool) :
    List ReadResult → AnotherPacketSource → Option Int →
      Option (List ReadResult × AnotherPacketSource × Option Int)
  | [], packets, actualTimeUs =>
    some ([], packets.signalEOS ERROR_END_OF_STREAM, actualTimeUs)
  | ReadResult.buffer mbuf :: rest, packets, actualTimeUs =>
    match makeAccessUnit s audio mbuf with
    | none => none
    | some (buffer, timeUs) =>
      let packets1 :=
        if seeking then packets.queueDiscontinuity DISCONTINUITY_SEEK true else packets
      some (rest, packets1.queueAccessUnit buffer,
        if hasActual then some timeUs else actualTimeUs)
  | ReadResult.status err :: rest, packets, actualTimeUs =>
    if err = OK then none
    else if err = WOULD_BLOCK then some (rest, packets, actualTimeUs)
    else if err = INFO_FORMAT_CHANGED then
      readLoop s audio seeking hasActual rest packets actualTimeUs
    else some (rest, packets.signalEOS err, actualTimeUs)

/-- The method `GenericSource::readBuffer(audio, seekTimeUs, actualTimeUs)`; `hasActual`
tells whether `actualTimeUs` is a non-null pointer, and the second component of the result
is the value left in `*actualTimeUs`. -/
def readBuffer (s : GenericSource) (audio : Bool) (seekTimeUs : Int) (hasActual : Bool) :
    Option (GenericSource × Option Int) :=
  let track := selectedTrack s audio
  match track.mSource with
  | none => none
  | some source =>
    let actualTimeUs : Option Int := if hasActual then some seekTimeUs else none
    let seeking : Bool := decide (seekTimeUs ≥ 0)
    match track.mPackets with
    | none => none
    | some packets =>
      match readLoop s audio seeking hasActual source.mPending packets actualTimeUs with
      | none => none
      | some (pending, packets1, actualTimeUs1) =>
        some (withSelectedTrack s audio
          { track with
            mSource := some { source with mPending := pending }
            mPackets := some packets1 }, actualTimeUs1)

/-- The read that dequeueAccessUnit tries first for the video track of a Widevine
source. -/
def readFirst (s : GenericSource) (audio : Bool) : Option GenericSource :=
  if s.mIsWidevine && !audio then
    match readBuffer s audio (-1) false with
    | none => none
    | some r => some r.1
  else some s

/-- The method `GenericSource::dequeueAccessUnit(audio, accessUnit)`; `accessUnit` is the
value of `*accessUnit` at the call, and the result is the state, the status and the value
of `*accessUnit` at the return. -/
def dequeueAccessUnit (s : GenericSource) (audio : Bool) (accessUnit : Option ABuffer) :
    Option (GenericSource × Int × Option ABuffer) :=
  match (selectedTrack s audio).mSource with
  | none => some (s, -EWOULDBLOCK, accessUnit)
  | some _ =>
    match readFirst s audio with
    | none => none
    | some s1 =>
      match (selectedTrack s1 audio).mPackets with
      | none => none
      | some packets =>
        let available := packets.hasBufferAvailable
        if !available.1 then
          some (s1, if available.2 = OK then -EWOULDBLOCK else available.2, accessUnit)
        else
          let dequeued := packets.dequeueAccessUnit
          let s2 := withSelectedTrack s1 audio
            { (selectedTrack s1 audio) with mPackets := some dequeued.2.2 }
          match readBuffer s2 audio (-1) false with
          | none => none
          | some r => some (r.1, dequeued.1, dequeued.2.1)

/-- The format of a Vorbis audio track with a language and a duration, for examples. -/
def audioFormatExample : MetaData :=
  { mItems := [(kKeyMIMEType, MetaValue.cstring "audio/vorbis"),
      (kKeyMediaLanguage, MetaValue.cstring "eng"), (kKeyDuration, MetaValue.int64 5000000)] }

/-- The format of a video track with a duration and no language, for examples. -/
def videoFormatExample : MetaData :=
  { mItems := [(kKeyMIMEType, MetaValue.cstring "Video/AVC"),
      (kKeyDuration, MetaValue.int64 7000000)] }

/-- A media buffer of five bytes of which the three from offset 1 are valid, with a time
stamp and a count of valid samples, for examples. -/
def mediaBufferExample : MediaBuffer :=
  { mData := [9, 1, 2, 3, 9]
    mRangeOffset := 1
    mRangeLength := 3
    mMetaData := { mItems := [(kKeyTime, MetaValue.int64 40000),
      (kKeyValidSamples, MetaValue.int32 1024)] } }

/-- An audio source with one buffer pending, for examples. -/
def audioSourceExample : MediaSource :=
  { mFormat := audioFormatExample, mPending := [ReadResult.buffer mediaBufferExample] }

/-- A video source with nothing pending, for examples. -/
def videoSourceExample : MediaSource :=
  { mFormat := videoFormatExample, mPending := [] }

/-- An extractor of a file with a duration, a video track and an audio track, for
examples. -/
def extractorExample : MediaExtractor :=
  { mFileMetaData := some { mItems := [(kKeyDuration, MetaValue.int64 6000000)] }
    mTracks := [(videoFormatExample, some videoSourceExample),
      (audioFormatExample, some audioSourceExample)] }

/-- A data source that is not Widevine and has the example extractor, for examples. -/
def dataSourceExample : DataSource :=
  { sniffWVM := none
    wvmExtractor := { mFileMetaData := none, mTracks := [] }
    extractor := some extractorExample }

/-- The source that initFromDataSource makes of the example data source, with the packet
sources of both tracks in place and empty, as `start` leaves them before it reads. -/
def startedExample : GenericSource :=
  match initFromDataSource (ctor false false 0) dataSourceExample with
  | none => ctor false false 0
  | some s =>
    { s with
      mAudioTrack := { s.mAudioTrack with
        mPackets := some (AnotherPacketSource.new audioFormatExample) }
      mVideoTrack := { s.mVideoTrack with
        mPackets := some (AnotherPacketSource.new videoFormatExample) } }

/-- The tracks of the extractor that initFromDataSource works on, by their meta data and
source; no track when it has no extractor. -/
def extractorTracks (s : GenericSource) (dataSource : DataSource) :
    List (MetaData × Option MediaSource) :=
  match createExtractor s dataSource with
  | some (some extractor) => extractor.mTracks
  | _ => []

/-- Whether the audio track, when it has a source, is the track of `tracks` at `mIndex`,
with a mime type that starts with `audio/`, and `mAudioIsVorbis` tells whether that mime
type is, up to case, the Vorbis one. -/
def audioTrackCoherent (tracks : List (MetaData × Option MediaSource)) (s : GenericSource) :
    Prop :=
  s.mAudioTrack.mSource ≠ none →
    ∃ meta track mime, tracks[s.mAudioTrack.mIndex]? = some (meta, track) ∧
      meta.findCString kKeyMIMEType = some mime ∧
      strncasecmp mime "audio/" 6 = 0 ∧
      s.mAudioIsVorbis = decide (strcasecmp mime MEDIA_MIMETYPE_AUDIO_VORBIS = 0)

/-- What the methods that read leave of the configuration of the audio track: the Widevine
flag, the Vorbis flag and the index of the audio track are as before, and the audio track
has a source only if it had one. -/
def keepsAudioConfig (s s1 : GenericSource) : Prop :=
  s1.mIsWidevine = s.mIsWidevine ∧ s1.mAudioIsVorbis = s.mAudioIsVorbis ∧
    s1.mAudioTrack.mIndex = s.mAudioTrack.mIndex ∧
    (s1.mAudioTrack.mSource ≠ none → s.mAudioTrack.mSource ≠ none)

/-- The states of a GenericSource made for `dataSource`: what initFromDataSource leaves of
the members the constructor initialised, and from there every state after a packet source
is given to a track (as `start` does), after readBuffer and after dequeueAccessUnit. -/
inductive Running (dataSource : DataSource) : GenericSource → Prop where
  | initFromDataSource (isWidevine uidValid : Bool) (uid : Nat) (s : GenericSource) :
    initFromDataSource (ctor isWidevine uidValid uid) dataSource = some s →
      Running dataSource s
  | packets {s : GenericSource} (audio : Bool) (packets : AnotherPacketSource) :
    Running dataSource s →
      Running dataSource
        (withSelectedTrack s audio { (selectedTrack s audio) with mPackets := some packets })
  | readBuffer {s : GenericSource} (audio : Bool) (seekTimeUs : Int) (hasActual : Bool)
    (r : GenericSource × Option Int) :
    Running dataSource s → readBuffer s audio seekTimeUs hasActual = some r →
      Running dataSource r.1
  | dequeueAccessUnit {s : GenericSource} (audio : Bool) (accessUnit : Option ABuffer)
    (r : GenericSource × Int × Option ABuffer) :
    Running dataSource s → dequeueAccessUnit s audio accessUnit = some r →
      Running dataSource r.1

/-- A media buffer of two valid bytes with a time stamp and no count of valid samples, for
examples. -/
def mediaBufferNoSamplesExample : MediaBuffer :=
  { mData := [7, 8]
    mRangeOffset := 0
    mRangeLength := 2
    mMetaData := { mItems := [(kKeyTime, MetaValue.int64 80000)] } }

/-- A data source that is not Widevine, with one Vorbis audio track whose source has the
buffer without a count of valid samples pending, for examples. -/
def dataSourceNoSamplesExample : DataSource :=
  { sniffWVM := none
    wvmExtractor := { mFileMetaData := none, mTracks := [] }
    extractor := some
      { mFileMetaData := none
        mTracks := [(audioFormatExample,
          some { mFormat := audioFormatExample,
                 mPending := [ReadResult.buffer mediaBufferNoSamplesExample] })] } }

/-- The source that initFromDataSource makes of `dataSourceNoSamplesExample`, with an empty
packet source given to the audio track. -/
def startedNoSamplesExample : GenericSource :=
  match initFromDataSource (ctor false false 0) dataSourceNoSamplesExample with
  | none => ctor false false 0
  | some s =>
    withSelectedTrack s true
      { (selectedTrack s true) with
        mPackets := some (AnotherPacketSource.new audioFormatExample) }

end GenericSource

/-! # Theorems -/

namespace AudioMixer

open audio_format_t

/-! ## Bitmask lemmas -/

theorem testBit_trackBit (n i : Nat) : (trackBit n).testBit i = decide (n = i) := by
  unfold trackBit
  rw [Nat.one_shiftLeft, Nat.testBit_two_pow]

theorem trackBit_lt {n : Nat} (hn : n < 32) : trackBit n < 2 ^ 32 := by
  unfold trackBit
  rw [Nat.one_shiftLeft]
  exact Nat.pow_lt_pow_right (by norm_num) hn

theorem testBit_clearTrackBit (x n i : Nat) (hn : n < 32) :
    (clearTrackBit x n).testBit i = (x.testBit i && decide (i < 32) && !decide (n = i)) := by
  unfold clearTrackBit UINT32_ALL
  rw [Nat.testBit_and, Nat.testBit_xor, Nat.testBit_two_pow_sub_one, testBit_trackBit]
  by_cases h1 : i < 32 <;> by_cases h2 : n = i <;> simp [h1, h2]
  omega

theorem clearTrackBit_lt (x : Nat) {n : Nat} (hn : n < 32) : clearTrackBit x n < 2 ^ 32 := by
  unfold clearTrackBit
  apply Nat.and_lt_two_pow
  apply Nat.xor_lt_two_pow
  · unfold UINT32_ALL; norm_num
  · exact trackBit_lt hn

theorem testBit_eq_false_of_lt {x i : Nat} (hx : x < 2 ^ 32) (hi : 32 ≤ i) :
    x.testBit i = false := by
  apply Nat.testBit_lt_two_pow
  exact lt_of_lt_of_le hx (Nat.pow_le_pow_right (by norm_num) hi)

/-- Setting a clear bit and clearing it again gives the bitmask back. -/
theorem clearTrackBit_or_trackBit {x n : Nat} (hx : x < 2 ^ 32) (hn : n < 32)
    (hclear : x.testBit n = false) : clearTrackBit (x ||| trackBit n) n = x := by
  apply Nat.eq_of_testBit_eq
  intro i
  rw [testBit_clearTrackBit _ _ _ hn, Nat.testBit_or, testBit_trackBit]
  by_cases h2 : n = i
  · subst h2; simp [hclear]
  · by_cases h1 : i < 32
    · simp [h1, h2]
    · simp [h1, h2, testBit_eq_false_of_lt hx (not_lt.mp h1)]

/-- Clearing a bit that is clear changes nothing. -/
theorem clearTrackBit_of_clear {x n : Nat} (hx : x < 2 ^ 32) (hn : n < 32)
    (hclear : x.testBit n = false) : clearTrackBit x n = x := by
  apply Nat.eq_of_testBit_eq
  intro i
  rw [testBit_clearTrackBit _ _ _ hn]
  by_cases h2 : n = i
  · subst h2; simp [hclear]
  · by_cases h1 : i < 32
    · simp [h1, h2]
    · simp [h1, h2, testBit_eq_false_of_lt hx (not_lt.mp h1)]

/-! ## The slot search -/

theorem lowestFreeSlot_none {c a : Nat} : ∀ {k : Nat}, lowestFreeSlot c a k = none →
    ∀ j, j < k → ¬(c.testBit j = true ∧ a.testBit j = false)
  | 0, _, j, hj => by omega
  | k + 1, h, j, hj => by
    unfold lowestFreeSlot at h
    cases hk : lowestFreeSlot c a k with
    | some i' => rw [hk] at h; simp at h
    | none =>
      rw [hk] at h
      simp only at h
      split at h
      · simp at h
      · rename_i hp
        rcases Nat.lt_succ_iff_lt_or_eq.mp hj with hlt | heq
        · exact lowestFreeSlot_none hk j hlt
        · subst heq
          simpa using hp

theorem lowestFreeSlot_some {c a : Nat} : ∀ {k i : Nat}, lowestFreeSlot c a k = some i →
    i < k ∧ c.testBit i = true ∧ a.testBit i = false ∧
      ∀ j, j < i → ¬(c.testBit j = true ∧ a.testBit j = false)
  | 0, i, h => by simp [lowestFreeSlot] at h
  | k + 1, i, h => by
    unfold lowestFreeSlot at h
    cases hk : lowestFreeSlot c a k with
    | some i' =>
      rw [hk] at h
      simp only [Option.some.injEq] at h
      subst h
      obtain ⟨h1, h2, h3, h4⟩ := lowestFreeSlot_some hk
      exact ⟨Nat.lt_succ_of_lt h1, h2, h3, h4⟩
    | none =>
      rw [hk] at h
      simp only at h
      split at h
      · rename_i hp
        simp only [Option.some.injEq] at h
        subst h
        simp only [Bool.and_eq_true, Bool.not_eq_true'] at hp
        refine ⟨Nat.lt_succ_self _, hp.1, hp.2, ?_⟩
        intro j hj
        exact lowestFreeSlot_none hk j hj
      · simp at h

/-- The search returns a free configured slot below the bound when none lies below it. -/
theorem lowestFreeSlot_eq_some {c a k i : Nat} (hi : i < k) (hc : c.testBit i = true)
    (ha : a.testBit i = false)
    (hmin : ∀ j, j < i → ¬(c.testBit j = true ∧ a.testBit j = false)) :
    lowestFreeSlot c a k = some i := by
  cases h : lowestFreeSlot c a k with
  | none => exact absurd ⟨hc, ha⟩ (lowestFreeSlot_none h i hi)
  | some i' =>
    obtain ⟨_, h2, h3, h4⟩ := lowestFreeSlot_some h
    rcases Nat.lt_trichotomy i i' with hlt | heq | hgt
    · exact absurd ⟨hc, ha⟩ (h4 i hlt)
    · rw [heq]
    · exact absurd ⟨h2, h3⟩ (hmin i' hgt)

/-! ## Effect of the operations on the two bitmasks -/

theorem slotOfName_lt {name : Int} {n : Nat} (h : slotOfName name = some n) :
    n < 32 ∧ name = TRACK0 + (n : Int) := by
  unfold slotOfName at h
  split at h
  · rename_i hr
    simp only [Option.some.injEq] at h
    simp only [TRACK0, MAX_NUM_TRACKS] at hr h ⊢
    omega
  · simp at h

theorem slotOfName_track (n : Nat) (hn : n < 32) : slotOfName (TRACK0 + (n : Int)) = some n := by
  unfold slotOfName TRACK0 MAX_NUM_TRACKS
  rw [if_pos (by omega)]
  congr 1
  omega

theorem invalidateState_mTrackNames (m : AudioMixer) (mask : Nat) :
    (invalidateState m mask).mTrackNames = m.mTrackNames := by
  unfold invalidateState
  split <;> rfl

theorem invalidateState_enabledTracks (m : AudioMixer) (mask : Nat) :
    (invalidateState m mask).mState.enabledTracks = m.mState.enabledTracks := by
  unfold invalidateState
  split <;> rfl

theorem invalidateState_tracks (m : AudioMixer) (mask : Nat) :
    (invalidateState m mask).mState.tracks = m.mState.tracks := by
  unfold invalidateState
  split <;> rfl

theorem invalidateState_mConfiguredNames (m : AudioMixer) (mask : Nat) :
    (invalidateState m mask).mConfiguredNames = m.mConfiguredNames := by
  unfold invalidateState
  split <;> rfl

theorem invalidateState_mSampleRate (m : AudioMixer) (mask : Nat) :
    (invalidateState m mask).mSampleRate = m.mSampleRate := by
  unfold invalidateState
  split <;> rfl

theorem invalidateState_capable (m : AudioMixer) (mask : Nat) :
    (invalidateState m mask).sIsMultichannelCapable = m.sIsMultichannelCapable := by
  unfold invalidateState
  split <;> rfl

/-- What getTrackName returns: either failure with the mixer unchanged, or the name of the
lowest free configured slot with that slot marked allocated and freshly initialised. -/
theorem getTrackName_cases (m : AudioMixer) (channelMask : Nat) (format : audio_format_t)
    (sessionId : Int) :
    getTrackName m channelMask format sessionId = (-1, m) ∨
      ∃ n, lowestFreeSlot m.mConfiguredNames m.mTrackNames MAX_NUM_TRACKS = some n ∧
        isValidPcmTrackFormat format = true ∧
        isSupportedChannelMask m.sIsMultichannelCapable channelMask = true ∧
        getTrackName m channelMask format sessionId =
          (TRACK0 + (n : Int),
            { setTrack m n (newTrack m.mSampleRate channelMask format sessionId) with
              mTrackNames := m.mTrackNames ||| trackBit n }) := by
  unfold getTrackName
  by_cases hf : isValidPcmTrackFormat format = true
  · by_cases hc : isSupportedChannelMask m.sIsMultichannelCapable channelMask = true
    · cases hs : lowestFreeSlot m.mConfiguredNames m.mTrackNames MAX_NUM_TRACKS with
      | none => left; simp [hf, hc]
      | some n => right; exact ⟨n, rfl, hf, hc, by simp [hf, hc]⟩
    · left; simp [hf, hc]
  · left; simp [hf]

theorem ite_invalidateState_bitmasks (c : Prop) [Decidable c] (m m1 : AudioMixer) (mask : Nat)
    (h1 : m1.mTrackNames = m.mTrackNames)
    (h2 : m1.mState.enabledTracks = m.mState.enabledTracks) :
    (if c then invalidateState m1 mask else m).mTrackNames = m.mTrackNames ∧
      (if c then invalidateState m1 mask else m).mState.enabledTracks =
        m.mState.enabledTracks := by
  split
  · rw [invalidateState_mTrackNames, invalidateState_enabledTracks]
    exact ⟨h1, h2⟩
  · exact ⟨rfl, rfl⟩

theorem setParameter_bitmasks (K : Kernels) (m : AudioMixer) (name target param : Int)
    (value : ParamValue) :
    (setParameter K m name target param value).mTrackNames = m.mTrackNames ∧
      (setParameter K m name target param value).mState.enabledTracks =
        m.mState.enabledTracks := by
  unfold setParameter
  split
  · exact ⟨rfl, rfl⟩
  · exact ite_invalidateState_bitmasks _ m _ _ rfl rfl

theorem setBufferProvider_bitmasks (m : AudioMixer) (name : Int)
    (bufferProvider : Option AudioBufferProvider) :
    (setBufferProvider m name bufferProvider).mTrackNames = m.mTrackNames ∧
      (setBufferProvider m name bufferProvider).mState.enabledTracks =
        m.mState.enabledTracks := by
  unfold setBufferProvider
  split
  · exact ⟨rfl, rfl⟩
  · rw [invalidateState_mTrackNames, invalidateState_enabledTracks]
    exact ⟨rfl, rfl⟩

theorem process_bitmasks (K : Kernels) (m : AudioMixer) (mem : Memory) (pts : Int) :
    (process K m mem pts).1.mTrackNames = m.mTrackNames ∧
      (process K m mem pts).1.mState.enabledTracks = m.mState.enabledTracks := by
  have hv : (if m.mState.hook = process_hook_t.process__validate then process__validate m
      else m).mTrackNames = m.mTrackNames ∧
      (if m.mState.hook = process_hook_t.process__validate then process__validate m
      else m).mState.enabledTracks = m.mState.enabledTracks := by
    split <;> exact ⟨rfl, rfl⟩
  unfold process
  simp only
  generalize (if m.mState.hook = process_hook_t.process__validate then process__validate m
      else m) = m1 at hv ⊢
  rw [← hv.1, ← hv.2]
  split
  · exact ⟨rfl, rfl⟩
  · exact ⟨rfl, rfl⟩
  · exact ⟨rfl, rfl⟩
  · exact ⟨rfl, rfl⟩
  · unfold process__OneTrack16BitsStereoNoResampling
    simp only
    split <;> exact ⟨rfl, rfl⟩

theorem ctor_wellFormed (frameCount sampleRate maxNumTracks : Nat) (capable : Bool) :
    WellFormed (ctor frameCount sampleRate maxNumTracks capable) := by
  refine ⟨?_, ?_, ?_⟩
  · show (0 : Nat) < 2 ^ 32
    norm_num
  · show (0 : Nat) < 2 ^ 32
    norm_num
  · intro i h
    simp [ctor] at h

theorem getTrackName_wellFormed {m : AudioMixer} (h : WellFormed m) (channelMask : Nat)
    (format : audio_format_t) (sessionId : Int) :
    WellFormed (getTrackName m channelMask format sessionId).2 := by
  rcases getTrackName_cases m channelMask format sessionId with he | ⟨n, hs, _, _, he⟩
  · rw [he]; exact h
  · rw [he]
    obtain ⟨hn, _, _, _⟩ := lowestFreeSlot_some hs
    obtain ⟨h1, h2, h3⟩ := h
    refine ⟨?_, h2, ?_⟩
    · exact Nat.or_lt_two_pow h1 (trackBit_lt hn)
    · intro i hi
      show (m.mTrackNames ||| trackBit n).testBit i = true
      rw [Nat.testBit_or, h3 i hi]
      rfl

theorem deleteTrackName_wellFormed {m : AudioMixer} (h : WellFormed m) (name : Int) :
    WellFormed (deleteTrackName m name) := by
  unfold deleteTrackName
  split
  · exact h
  · rename_i n hs
    obtain ⟨hn, _⟩ := slotOfName_lt hs
    obtain ⟨h1, h2, h3⟩ := h
    refine ⟨clearTrackBit_lt _ hn, clearTrackBit_lt _ hn, ?_⟩
    intro i hi
    simp only [setTrack] at hi ⊢
    rw [testBit_clearTrackBit _ _ _ hn] at hi ⊢
    simp only [Bool.and_eq_true, decide_eq_true_eq, Bool.not_eq_true', decide_eq_false_iff_not]
      at hi ⊢
    obtain ⟨e1, e2⟩ := ite_invalidateState_bitmasks ((m.mState.tracks n).enabled = true) m m
      (trackBit n) rfl rfl
    rw [e1]
    rw [e2] at hi
    exact ⟨⟨h3 i hi.1.1, hi.1.2⟩, hi.2⟩

theorem enable_wellFormed {m : AudioMixer} (h : WellFormed m) (name : Int)
    (ha : isAllocated m name = true) : WellFormed (enable m name) := by
  unfold enable
  unfold isAllocated at ha
  split
  · exact h
  · rename_i n hs
    rw [hs] at ha
    simp only at ha
    obtain ⟨hn, _⟩ := slotOfName_lt hs
    obtain ⟨h1, h2, h3⟩ := h
    simp only
    split
    · exact ⟨h1, h2, h3⟩
    · refine ⟨?_, ?_, ?_⟩
      · rw [invalidateState_mTrackNames]; exact h1
      · rw [invalidateState_enabledTracks]
        exact Nat.or_lt_two_pow h2 (trackBit_lt hn)
      · intro i hi
        rw [invalidateState_enabledTracks] at hi
        rw [invalidateState_mTrackNames]
        simp only [setTrack] at hi ⊢
        rw [Nat.testBit_or, testBit_trackBit] at hi
        simp only [Bool.or_eq_true, decide_eq_true_eq] at hi
        rcases hi with hi | hi
        · exact h3 i hi
        · rw [← hi]; exact ha

theorem disable_wellFormed {m : AudioMixer} (h : WellFormed m) (name : Int) :
    WellFormed (disable m name) := by
  unfold disable
  split
  · exact h
  · rename_i n hs
    obtain ⟨hn, _⟩ := slotOfName_lt hs
    obtain ⟨h1, h2, h3⟩ := h
    simp only
    split
    · refine ⟨?_, ?_, ?_⟩
      · rw [invalidateState_mTrackNames]; exact h1
      · rw [invalidateState_enabledTracks]
        exact clearTrackBit_lt _ hn
      · intro i hi
        rw [invalidateState_enabledTracks] at hi
        rw [invalidateState_mTrackNames]
        simp only [setTrack] at hi ⊢
        rw [testBit_clearTrackBit _ _ _ hn] at hi
        simp only [Bool.and_eq_true] at hi
        exact h3 i hi.1.1
    · exact ⟨h1, h2, h3⟩

/-- Every reachable mixer state satisfies the class invariant of the bitmasks. -/
theorem reachable_wellFormed {K : Kernels} {m : AudioMixer} (h : Reachable K m) :
    WellFormed m := by
  induction h with
  | ctor frameCount sampleRate maxNumTracks capable =>
    exact ctor_wellFormed frameCount sampleRate maxNumTracks capable
  | getTrackName channelMask format sessionId _ ih =>
    exact getTrackName_wellFormed ih channelMask format sessionId
  | deleteTrackName name _ _ ih => exact deleteTrackName_wellFormed ih name
  | enable name _ ha ih => exact enable_wellFormed ih name ha
  | disable name _ _ ih => exact disable_wellFormed ih name
  | @setParameter m name target param value _ ih =>
    obtain ⟨e1, e2⟩ := setParameter_bitmasks K m name target param value
    unfold WellFormed
    rw [e1, e2]
    exact ih
  | @setBufferProvider m name bufferProvider _ ih =>
    obtain ⟨e1, e2⟩ := setBufferProvider_bitmasks m name bufferProvider
    unfold WellFormed
    rw [e1, e2]
    exact ih
  | @process m mem pts _ ih =>
    obtain ⟨e1, e2⟩ := process_bitmasks K m mem pts
    unfold WellFormed
    rw [e1, e2]
    exact ih

/-! ## Track allocation -/

/-- The name getTrackName returns depends on the allocation bitmask, the configured
capacity and the downmix capability only. -/
theorem getTrackName_fst (m : AudioMixer) (channelMask : Nat) (format : audio_format_t)
    (sessionId : Int) :
    (getTrackName m channelMask format sessionId).1 =
      if isValidPcmTrackFormat format = true ∧
          isSupportedChannelMask m.sIsMultichannelCapable channelMask = true then
        match lowestFreeSlot m.mConfiguredNames m.mTrackNames MAX_NUM_TRACKS with
        | none => -1
        | some n => TRACK0 + (n : Int)
      else -1 := by
  unfold getTrackName
  by_cases hf : isValidPcmTrackFormat format = true
  · by_cases hc : isSupportedChannelMask m.sIsMultichannelCapable channelMask = true
    · simp only [hf, hc, Bool.not_true, Bool.false_eq_true, if_false, and_self, if_true]
      split <;> simp_all
    · simp [hf, hc]
  · simp [hf]

/-- C1: in every reachable mixer state, when getTrackName(channelMask, format, sessionId)
succeeds with name n, deleteTrackName(n) immediately afterwards restores the allocation
bitmask trackNames() and the enabled-tracks bitmask to their values before the
getTrackName call, and a further getTrackName with the same arguments returns n again. -/
theorem getTrackName_deleteTrackName_restores (K : Kernels) (m : AudioMixer)
    (hm : Reachable K m) (channelMask : Nat) (format : audio_format_t) (sessionId : Int)
    (hok : (getTrackName m channelMask format sessionId).1 ≠ -1) :
    trackNames (deleteTrackName (getTrackName m channelMask format sessionId).2
        (getTrackName m channelMask format sessionId).1) = trackNames m ∧
      (deleteTrackName (getTrackName m channelMask format sessionId).2
        (getTrackName m channelMask format sessionId).1).mState.enabledTracks =
          m.mState.enabledTracks ∧
      (getTrackName (deleteTrackName (getTrackName m channelMask format sessionId).2
        (getTrackName m channelMask format sessionId).1) channelMask format sessionId).1 =
          (getTrackName m channelMask format sessionId).1 := by
  obtain ⟨h1, h2, h3⟩ := reachable_wellFormed hm
  rcases getTrackName_cases m channelMask format sessionId with he | ⟨n, hs, _, _, he⟩
  · rw [he] at hok; exact absurd rfl hok
  · obtain ⟨hn, _, hfree, _⟩ := lowestFreeSlot_some hs
    have hen : m.mState.enabledTracks.testBit n = false := by
      cases hb : m.mState.enabledTracks.testBit n with
      | false => rfl
      | true => rw [h3 n hb] at hfree; exact absurd hfree (by simp)
    have hdel : (deleteTrackName (getTrackName m channelMask format sessionId).2
        (getTrackName m channelMask format sessionId).1).mTrackNames = m.mTrackNames ∧
        (deleteTrackName (getTrackName m channelMask format sessionId).2
        (getTrackName m channelMask format sessionId).1).mState.enabledTracks =
          m.mState.enabledTracks ∧
        (deleteTrackName (getTrackName m channelMask format sessionId).2
        (getTrackName m channelMask format sessionId).1).mConfiguredNames =
          m.mConfiguredNames ∧
        (deleteTrackName (getTrackName m channelMask format sessionId).2
        (getTrackName m channelMask format sessionId).1).sIsMultichannelCapable =
          m.sIsMultichannelCapable := by
      rw [he]
      simp only [deleteTrackName, slotOfName_track n hn, setTrack, newTrack, if_true,
        Bool.false_eq_true, if_false]
      exact ⟨clearTrackBit_or_trackBit h1 hn hfree, clearTrackBit_of_clear h2 hn hen,
        trivial, trivial⟩
    refine ⟨hdel.1, hdel.2.1, ?_⟩
    generalize deleteTrackName (getTrackName m channelMask format sessionId).2
        (getTrackName m channelMask format sessionId).1 = m2 at hdel ⊢
    rw [getTrackName_fst m2, getTrackName_fst m, hdel.1, hdel.2.2.1, hdel.2.2.2]

/-- C1 at a concrete input: a stereo 16-bit track on a freshly constructed mixer. -/
theorem getTrackName_deleteTrackName_restores_witness :
    (getTrackName (ctor 4 48000 32 false) 3 AUDIO_FORMAT_PCM_16_BIT 0).1 ≠ -1 ∧
      trackNames (deleteTrackName
        (getTrackName (ctor 4 48000 32 false) 3 AUDIO_FORMAT_PCM_16_BIT 0).2
        (getTrackName (ctor 4 48000 32 false) 3 AUDIO_FORMAT_PCM_16_BIT 0).1) =
          trackNames (ctor 4 48000 32 false) :=
  ⟨by decide,
    (getTrackName_deleteTrackName_restores
      silentKernels
      (ctor 4 48000 32 false) (Reachable.ctor 4 48000 32 false) 3 AUDIO_FORMAT_PCM_16_BIT 0
      (by decide)).1⟩

/-- With every slot configured and the low `k` slots allocated, an accepted request gets
slot `k` when `k < 32` and fails when all 32 slots are in use. -/
theorem getTrackName_of_prefix (m : AudioMixer) (k : Nat) (hk : k ≤ 32)
    (hconf : m.mConfiguredNames = UINT32_ALL) (halloc : m.mTrackNames = 2 ^ k - 1)
    (channelMask : Nat) (format : audio_format_t) (sessionId : Int)
    (hf : isValidPcmTrackFormat format = true)
    (hc : isSupportedChannelMask m.sIsMultichannelCapable channelMask = true) :
    (getTrackName m channelMask format sessionId).1 = (if k < 32 then TRACK0 + (k : Int) else -1) ∧
      (getTrackName m channelMask format sessionId).2.mConfiguredNames = UINT32_ALL ∧
      (getTrackName m channelMask format sessionId).2.mTrackNames = 2 ^ (min (k + 1) 32) - 1 ∧
      (getTrackName m channelMask format sessionId).2.sIsMultichannelCapable =
        m.sIsMultichannelCapable := by
  by_cases hlt : k < 32
  · have hs : lowestFreeSlot m.mConfiguredNames m.mTrackNames MAX_NUM_TRACKS = some k := by
      apply lowestFreeSlot_eq_some hlt
      · rw [hconf]; unfold UINT32_ALL
        rw [Nat.testBit_two_pow_sub_one]; simpa using hlt
      · rw [halloc, Nat.testBit_two_pow_sub_one]; simp
      · intro j hj
        rw [halloc, Nat.testBit_two_pow_sub_one]
        simp [hj]
    rcases getTrackName_cases m channelMask format sessionId with he | ⟨n, hs', _, _, he⟩
    · exfalso
      have := getTrackName_fst m channelMask format sessionId
      rw [he, if_pos ⟨hf, hc⟩, hs] at this
      change (-1 : Int) = TRACK0 + (k : Int) at this
      simp only [TRACK0] at this
      omega
    · rw [hs] at hs'
      simp only [Option.some.injEq] at hs'
      subst hs'
      rw [he, if_pos hlt]
      refine ⟨rfl, hconf, ?_, rfl⟩
      show m.mTrackNames ||| trackBit k = 2 ^ (min (k + 1) 32) - 1
      rw [halloc, Nat.min_eq_left (by omega)]
      apply Nat.eq_of_testBit_eq
      intro i
      rw [Nat.testBit_or, testBit_trackBit, Nat.testBit_two_pow_sub_one,
        Nat.testBit_two_pow_sub_one]
      by_cases h1 : i < k <;> by_cases h2 : k = i <;> simp [h1, h2] <;> omega
  · have hk32 : k = 32 := by omega
    subst hk32
    have hs : lowestFreeSlot m.mConfiguredNames m.mTrackNames MAX_NUM_TRACKS = none := by
      cases h : lowestFreeSlot m.mConfiguredNames m.mTrackNames MAX_NUM_TRACKS with
      | none => rfl
      | some i =>
        obtain ⟨hi, _, hfree, _⟩ := lowestFreeSlot_some h
        rw [halloc, Nat.testBit_two_pow_sub_one] at hfree
        simp only [MAX_NUM_TRACKS] at hi
        simp [hi] at hfree
    rcases getTrackName_cases m channelMask format sessionId with he | ⟨n, hs', _, _, _⟩
    · rw [he, if_neg hlt]
      exact ⟨rfl, hconf, halloc, rfl⟩
    · rw [hs] at hs'; simp at hs'

/-- Names returned by successive accepted requests, starting with the low `k` slots
allocated on a mixer with every slot configured. -/
theorem getTrackNames_of_prefix :
    ∀ (reqs : List (Nat × audio_format_t × Int)) (m : AudioMixer) (k : Nat), k ≤ 32 →
      m.mConfiguredNames = UINT32_ALL → m.mTrackNames = 2 ^ k - 1 →
      (∀ r ∈ reqs, isValidPcmTrackFormat r.2.1 = true ∧
        isSupportedChannelMask m.sIsMultichannelCapable r.1 = true) →
      (getTrackNames m reqs).1 =
        (List.range reqs.length).map
          (fun j => if k + j < 32 then TRACK0 + ((k + j : Nat) : Int) else -1)
  | [], _, _, _, _, _, _ => rfl
  | (channelMask, format, sessionId) :: rest, m, k, hk, hconf, halloc, hreq => by
    obtain ⟨hf, hc⟩ := hreq (channelMask, format, sessionId) (List.mem_cons_self _ _)
    obtain ⟨e1, e2, e3, e4⟩ :=
      getTrackName_of_prefix m k hk hconf halloc channelMask format sessionId hf hc
    have ih := getTrackNames_of_prefix rest (getTrackName m channelMask format sessionId).2
      (min (k + 1) 32) (Nat.min_le_right _ _) e2 e3
      (fun r hr => by rw [e4]; exact hreq r (List.mem_cons_of_mem _ hr))
    show (getTrackName m channelMask format sessionId).1 ::
        (getTrackNames (getTrackName m channelMask format sessionId).2 rest).1 = _
    rw [ih, e1, List.length_cons, List.range_succ_eq_map, List.map_cons, List.map_map]
    congr 1
    apply List.map_congr_left
    intro j _
    simp only [Function.comp, Nat.add_zero]
    by_cases h : k + 1 ≤ 32
    · rw [Nat.min_eq_left h]
      have : k + 1 + j = k + (j + 1) := by omega
      rw [this]
    · rw [Nat.min_eq_right (by omega)]
      rw [if_neg (by omega), if_neg (by omega)]

/-- C2: on a mixer constructed with maxNumTracks = MAX_NUM_TRACKS = 32, 32 successive
getTrackName calls with valid channel masks and formats and no intervening deleteTrackName
all succeed and return 32 distinct names (TRACK0 .. TRACK0 + 31, in order), and the 33rd
call fails, returning -1. -/
theorem getTrackName_capacity (frameCount sampleRate : Nat) (capable : Bool)
    (reqs : List (Nat × audio_format_t × Int)) (hlen : reqs.length = 33)
    (hvalid : ∀ r ∈ reqs, isValidPcmTrackFormat r.2.1 = true ∧
      isSupportedChannelMask capable r.1 = true) :
    (getTrackNames (ctor frameCount sampleRate MAX_NUM_TRACKS capable) reqs).1 =
        (List.range 32).map (fun j => TRACK0 + (j : Int)) ++ [-1] ∧
      ((List.range 32).map (fun j => TRACK0 + (j : Int))).Nodup ∧
      ∀ name ∈ (List.range 32).map (fun j => TRACK0 + (j : Int)), name ≠ -1 := by
  refine ⟨?_, by decide, by decide⟩
  have h := getTrackNames_of_prefix reqs (ctor frameCount sampleRate MAX_NUM_TRACKS capable) 0
    (by omega) (by simp [ctor, MAX_NUM_TRACKS]) (by simp [ctor]) hvalid
  rw [h, hlen]
  decide

/-- C2 at a concrete input: 33 requests for a stereo 16-bit track. -/
theorem getTrackName_capacity_witness :
    (getTrackNames (ctor 4 48000 MAX_NUM_TRACKS false)
        (List.replicate 33 (3, AUDIO_FORMAT_PCM_16_BIT, 0))).1 =
      (List.range 32).map (fun j => TRACK0 + (j : Int)) ++ [-1] :=
  (getTrackName_capacity 4 48000 false (List.replicate 33 (3, AUDIO_FORMAT_PCM_16_BIT, 0))
    (by decide) (by decide)).1

/-- C3: whenever getTrackName succeeds it returns TRACK0 + i, where i is the lowest bit
index that is set in mConfiguredNames and clear in the allocation bitmask mTrackNames before
the call; hence TRACK0 <= name < TRACK0 + MAX_NUM_TRACKS, bit i is set in trackNames()
afterwards and every other bit of the allocation bitmask is unchanged. -/
theorem getTrackName_lowest_free (m : AudioMixer) (channelMask : Nat) (format : audio_format_t)
    (sessionId : Int) (hok : (getTrackName m channelMask format sessionId).1 ≠ -1) :
    ∃ i : Nat, (getTrackName m channelMask format sessionId).1 = TRACK0 + (i : Int) ∧
      m.mConfiguredNames.testBit i = true ∧ m.mTrackNames.testBit i = false ∧
      (∀ j, j < i → ¬(m.mConfiguredNames.testBit j = true ∧ m.mTrackNames.testBit j = false)) ∧
      TRACK0 ≤ (getTrackName m channelMask format sessionId).1 ∧
      (getTrackName m channelMask format sessionId).1 < TRACK0 + (MAX_NUM_TRACKS : Int) ∧
      (trackNames (getTrackName m channelMask format sessionId).2).testBit i = true ∧
      ∀ j, j ≠ i → (trackNames (getTrackName m channelMask format sessionId).2).testBit j =
        (trackNames m).testBit j := by
  rcases getTrackName_cases m channelMask format sessionId with he | ⟨n, hs, _, _, he⟩
  · rw [he] at hok; exact absurd rfl hok
  · obtain ⟨hn, hconf, hfree, hmin⟩ := lowestFreeSlot_some hs
    refine ⟨n, by rw [he], hconf, hfree, hmin, ?_, ?_, ?_, ?_⟩
    · rw [he]; show TRACK0 ≤ TRACK0 + (n : Int); omega
    · rw [he]; show TRACK0 + (n : Int) < TRACK0 + (MAX_NUM_TRACKS : Int); omega
    · rw [he]
      show (m.mTrackNames ||| trackBit n).testBit n = true
      rw [Nat.testBit_or, testBit_trackBit]; simp
    · intro j hj
      rw [he]
      show (m.mTrackNames ||| trackBit n).testBit j = m.mTrackNames.testBit j
      rw [Nat.testBit_or, testBit_trackBit]
      simp [Ne.symm hj]

/-- C3 at a concrete input: the second allocation on a fresh mixer gets slot 1. -/
theorem getTrackName_lowest_free_witness :
    ∃ i : Nat,
      (getTrackName (getTrackName (ctor 4 48000 32 false) 3 AUDIO_FORMAT_PCM_16_BIT 0).2 1
        AUDIO_FORMAT_PCM_FLOAT 7).1 = TRACK0 + (i : Int) :=
  (getTrackName_lowest_free (getTrackName (ctor 4 48000 32 false) 3 AUDIO_FORMAT_PCM_16_BIT 0).2
    1 AUDIO_FORMAT_PCM_FLOAT 7 (by decide)).imp (fun _ h => h.1)

/-- C4: getTrackName called with a format for which isValidPcmTrackFormat is false returns
the failure value -1 and leaves the allocation bitmask trackNames() unchanged;
isValidPcmTrackFormat is true for exactly PCM 16-bit, PCM 24-bit packed, PCM 32-bit and PCM
float. -/
theorem getTrackName_invalid_format (m : AudioMixer) (channelMask : Nat)
    (format : audio_format_t) (sessionId : Int) :
    (isValidPcmTrackFormat format = false →
      (getTrackName m channelMask format sessionId).1 = -1 ∧
        trackNames (getTrackName m channelMask format sessionId).2 = trackNames m) ∧
      (isValidPcmTrackFormat format = true ↔
        format = AUDIO_FORMAT_PCM_16_BIT ∨ format = AUDIO_FORMAT_PCM_24_BIT_PACKED ∨
          format = AUDIO_FORMAT_PCM_32_BIT ∨ format = AUDIO_FORMAT_PCM_FLOAT) := by
  constructor
  · intro h
    unfold getTrackName
    simp [h]
  · unfold isValidPcmTrackFormat
    simp only [Bool.or_eq_true, beq_iff_eq, or_assoc]

/-- C4 at a concrete input: an 8-bit PCM request on a fresh mixer. -/
theorem getTrackName_invalid_format_witness :
    isValidPcmTrackFormat AUDIO_FORMAT_PCM_8_BIT = false ∧
      (getTrackName (ctor 4 48000 32 false) 3 AUDIO_FORMAT_PCM_8_BIT 0).1 = -1 ∧
      trackNames (getTrackName (ctor 4 48000 32 false) 3 AUDIO_FORMAT_PCM_8_BIT 0).2 =
        trackNames (ctor 4 48000 32 false) :=
  ⟨by decide,
    (getTrackName_invalid_format (ctor 4 48000 32 false) 3 AUDIO_FORMAT_PCM_8_BIT 0).1
      (by decide)⟩

/-! ## Resampler -/

/-- C5: getUnreleasedFrames for a track that has no resampler (resampler == NULL) returns
0; for a track that has a resampler it returns exactly that resampler's
getUnreleasedFrames() value. -/
theorem getUnreleasedFrames_resampler (t : track_t) :
    (t.resampler = none → t.getUnreleasedFrames = 0) ∧
      (t.doesResample = false → t.getUnreleasedFrames = 0) ∧
      ∀ r, t.resampler = some r → t.getUnreleasedFrames = r.getUnreleasedFrames := by
  refine ⟨?_, ?_, ?_⟩
  · intro h
    unfold track_t.getUnreleasedFrames
    rw [h]
  · intro h
    unfold track_t.doesResample at h
    unfold track_t.getUnreleasedFrames
    cases hr : t.resampler with
    | none => rfl
    | some r => rw [hr] at h; simp at h
  · intro r h
    unfold track_t.getUnreleasedFrames
    rw [h]

/-- C5 at concrete inputs: a freshly initialised track, and the same track with a
resampler that holds 5 unreleased frames. -/
theorem getUnreleasedFrames_resampler_witness :
    (newTrack 48000 3 AUDIO_FORMAT_PCM_16_BIT 0).getUnreleasedFrames = 0 ∧
      ({ (newTrack 48000 3 AUDIO_FORMAT_PCM_16_BIT 0) with
          resampler := some { mUnreleased := 5 } } : track_t).getUnreleasedFrames = 5 :=
  ⟨(getUnreleasedFrames_resampler (newTrack 48000 3 AUDIO_FORMAT_PCM_16_BIT 0)).1 rfl,
    (getUnreleasedFrames_resampler
      { (newTrack 48000 3 AUDIO_FORMAT_PCM_16_BIT 0) with
        resampler := some { mUnreleased := 5 } }).2.2 { mUnreleased := 5 } rfl⟩

/-- C6 fails as stated: a reformatter whose input and output format are both 16-bit PCM,
with equal frame sizes, still reports that it requires internal buffers. -/
theorem requiresInternalBuffers_passthrough_counterexample :
    passThroughReformatter.mInputFormat = passThroughReformatter.mOutputFormat ∧
      passThroughReformatter.mInputFrameSize = passThroughReformatter.mOutputFrameSize ∧
      passThroughReformatter.requiresInternalBuffers ≠ false := by
  decide

/-- C6 as amended: ReformatBufferProvider::requiresInternalBuffers() reports true for every
reformatter, whatever its formats and frame sizes, also when the input format equals the
output format. -/
theorem requiresInternalBuffers_always (p : ReformatBufferProvider) :
    p.requiresInternalBuffers = true := by
  rfl

theorem resetResampler_sampleRate (t : track_t) :
    t.resetResampler.sampleRate = t.sampleRate := by
  unfold track_t.resetResampler
  split <;> rfl

theorem resetResampler_doesResample (t : track_t) :
    t.resetResampler.doesResample = t.doesResample := by
  unfold track_t.resetResampler track_t.doesResample
  split
  · rename_i r hr
    rw [hr]
    rfl
  · rfl

/-- The resampler invariant that the RESAMPLE writes keep: a track whose rate differs from
the mix rate resamples. -/
theorem setParameterResample_keeps (mixRate : Nat) (t : track_t) (param : Int)
    (value : ParamValue) (h : t.sampleRate ≠ mixRate → t.doesResample = true) :
    (setParameterResample mixRate t param value).2.sampleRate ≠ mixRate →
      (setParameterResample mixRate t param value).2.doesResample = true := by
  unfold setParameterResample
  split
  · cases value with
    | int v =>
      simp only
      unfold track_t.setResampler
      split
      · exact h
      · simp only
        intro hne
        unfold track_t.doesResample
        cases hr : t.resampler with
        | some r => rfl
        | none => simp [hne]
    | format f => exact h
    | buffer b => exact h
  · split
    · simp only
      rw [resetResampler_sampleRate, resetResampler_doesResample]
      exact h
    · split
      · intro hne; exact absurd rfl hne
      · exact h

/-- C7 fails as stated: after getTrackName, SAMPLE_RATE 44100 and SAMPLE_RATE 48000 on a
48000 Hz mixer, track 0 is at the mix sample rate and still has its resampler. -/
theorem resampler_iff_rate_counterexample :
    ResampleReachable silentKernels
      (setParameter silentKernels
        (setParameter silentKernels
          (getTrackName (ctor 4 48000 32 false) 3 AUDIO_FORMAT_PCM_16_BIT 0).2
          0x1000 RESAMPLE SAMPLE_RATE (ParamValue.int 44100))
        0x1000 RESAMPLE SAMPLE_RATE (ParamValue.int 48000)) ∧
    ((setParameter silentKernels
        (getTrackName (ctor 4 48000 32 false) 3 AUDIO_FORMAT_PCM_16_BIT 0).2
        0x1000 RESAMPLE SAMPLE_RATE (ParamValue.int 44100)).mState.tracks 0).doesResample
      = true ∧
    ((setParameter silentKernels
        (setParameter silentKernels
          (getTrackName (ctor 4 48000 32 false) 3 AUDIO_FORMAT_PCM_16_BIT 0).2
          0x1000 RESAMPLE SAMPLE_RATE (ParamValue.int 44100))
        0x1000 RESAMPLE SAMPLE_RATE (ParamValue.int 48000)).mState.tracks 0).sampleRate =
      (setParameter silentKernels
        (setParameter silentKernels
          (getTrackName (ctor 4 48000 32 false) 3 AUDIO_FORMAT_PCM_16_BIT 0).2
          0x1000 RESAMPLE SAMPLE_RATE (ParamValue.int 44100))
        0x1000 RESAMPLE SAMPLE_RATE (ParamValue.int 48000)).mSampleRate ∧
    ((setParameter silentKernels
        (setParameter silentKernels
          (getTrackName (ctor 4 48000 32 false) 3 AUDIO_FORMAT_PCM_16_BIT 0).2
          0x1000 RESAMPLE SAMPLE_RATE (ParamValue.int 44100))
        0x1000 RESAMPLE SAMPLE_RATE (ParamValue.int 48000)).mState.tracks 0).doesResample
      = true := by
  refine ⟨?_, by decide, by decide, by decide⟩
  exact ResampleReachable.setParameter _ _ _
    (ResampleReachable.setParameter _ _ _
      (ResampleReachable.getTrackName _ _ _ (ResampleReachable.ctor 4 48000 32 false))
      (Or.inl rfl))
    (Or.inl rfl)

/-- A SAMPLE_RATE write never removes a sample rate converter. -/
theorem setParameter_sampleRate_keeps_resampler (K : Kernels) (m : AudioMixer) (name : Int)
    (n : Nat) (value : ParamValue) (hs : slotOfName name = some n)
    (h : (m.mState.tracks n).doesResample = true) :
    ((setParameter K m name RESAMPLE SAMPLE_RATE value).mState.tracks n).doesResample =
      true := by
  unfold AudioMixer.setParameter
  rw [hs]
  have hR : RESAMPLE ≠ TRACK := by decide
  simp only [if_neg hR, if_true]
  split
  · rw [invalidateState_tracks]
    simp only [setTrack, if_true]
    unfold setParameterResample
    simp only [if_true]
    cases value with
    | int v =>
      simp only
      unfold track_t.setResampler
      split
      · exact h
      · unfold track_t.doesResample at h ⊢
        cases hr : (m.mState.tracks n).resampler with
        | some r => rfl
        | none => rw [hr] at h; simp at h
    | format f => exact h
    | buffer b => exact h
  · exact h

/-- C7 as amended: in every mixer state reachable through getTrackName and
setParameter(name, RESAMPLE, SAMPLE_RATE | RESET | REMOVE, value), a track whose sample
rate differs from the mix sample rate has a resampler (doesResample() is true), so a track
without a resampler runs at the mix rate; and a track that has a resampler still has it
after SAMPLE_RATE is set, to the mix rate or to any other rate. -/
theorem resampler_of_rate_ne (K : Kernels) (m : AudioMixer) (hm : ResampleReachable K m) :
    (∀ i, (m.mState.tracks i).sampleRate ≠ m.mSampleRate →
      (m.mState.tracks i).doesResample = true) ∧
    ∀ (name : Int) (n : Nat) (value : ParamValue), slotOfName name = some n →
      (m.mState.tracks n).doesResample = true →
      ((setParameter K m name RESAMPLE SAMPLE_RATE value).mState.tracks n).doesResample =
        true := by
  refine ⟨?_, fun name n value hs h =>
    setParameter_sampleRate_keeps_resampler K m name n value hs h⟩
  induction hm with
  | ctor frameCount sampleRate maxNumTracks capable =>
    intro i hrate
    exact absurd rfl hrate
  | @getTrackName m channelMask format sessionId _ ih =>
    intro i hrate
    rcases getTrackName_cases m channelMask format sessionId with he | ⟨n, _, _, _, he⟩
    · rw [he] at hrate ⊢
      exact ih i hrate
    · rw [he] at hrate ⊢
      simp only [setTrack] at hrate ⊢
      by_cases hin : i = n
      · rw [if_pos hin] at hrate
        exact absurd rfl hrate
      · rw [if_neg hin] at hrate ⊢
        exact ih i hrate
  | @setParameter m name param value _ _ ih =>
    intro i
    unfold AudioMixer.setParameter
    split
    · exact ih i
    · rename_i n hs
      have hR : RESAMPLE ≠ TRACK := by decide
      simp only [if_neg hR, if_true]
      split
      · rw [invalidateState_tracks, invalidateState_mSampleRate]
        simp only [setTrack]
        by_cases hin : i = n
        · rw [if_pos hin]
          exact setParameterResample_keeps _ _ _ _ (ih n)
        · rw [if_neg hin]
          exact ih i
      · exact ih i

/-- C7 as amended, at a concrete input: track 0 set to 44100 Hz on a 48000 Hz mixer. -/
theorem resampler_of_rate_ne_witness :
    ((setParameter silentKernels
        (getTrackName (ctor 4 48000 32 false) 3 AUDIO_FORMAT_PCM_16_BIT 0).2
        0x1000 RESAMPLE SAMPLE_RATE (ParamValue.int 44100)).mState.tracks 0).doesResample
      = true :=
  (resampler_of_rate_ne silentKernels _
    (ResampleReachable.setParameter _ _ _
      (ResampleReachable.getTrackName _ _ _ (ResampleReachable.ctor 4 48000 32 false))
      (Or.inl rfl))).1
    0 (by decide)

/-! ## The mix cycle -/

theorem nat_lor_eq_zero {a b : Nat} : a ||| b = 0 ↔ a = 0 ∧ b = 0 := by
  constructor
  · intro h
    constructor
    · apply Nat.eq_of_testBit_eq
      intro i
      have := congrArg (fun x => Nat.testBit x i) h
      simp only [Nat.testBit_or, Nat.zero_testBit, Bool.or_eq_false_iff] at this
      rw [this.1, Nat.zero_testBit]
    · apply Nat.eq_of_testBit_eq
      intro i
      have := congrArg (fun x => Nat.testBit x i) h
      simp only [Nat.testBit_or, Nat.zero_testBit, Bool.or_eq_false_iff] at this
      rw [this.2, Nat.zero_testBit]
  · rintro ⟨rfl, rfl⟩
    rfl

/-- The bitwise or of two `int32_t` values is zero exactly when both are zero. -/
theorem int_lor_eq_zero (a b : Int) : Int.lor a b = 0 ↔ a = 0 ∧ b = 0 := by
  cases a with
  | ofNat m =>
    cases b with
    | ofNat n =>
      show ((m ||| n : Nat) : Int) = 0 ↔ _
      rw [Int.natCast_eq_zero, nat_lor_eq_zero]
      constructor
      · rintro ⟨rfl, rfl⟩; exact ⟨rfl, rfl⟩
      · rintro ⟨h1, h2⟩
        exact ⟨Int.ofNat_eq_zero.mp h1, Int.ofNat_eq_zero.mp h2⟩
    | negSucc n =>
      show Int.negSucc _ = 0 ↔ _
      constructor
      · intro h; exact absurd h (by simp)
      · rintro ⟨_, h⟩; exact absurd h (by simp)
  | negSucc m =>
    cases b with
    | ofNat n =>
      show Int.negSucc _ = 0 ↔ _
      constructor
      · intro h; exact absurd h (by simp)
      · rintro ⟨h, _⟩; exact absurd h (by simp)
    | negSucc n =>
      show Int.negSucc _ = 0 ↔ _
      constructor
      · intro h; exact absurd h (by simp)
      · rintro ⟨h, _⟩; exact absurd h (by simp)

/-- The inline needsRamp is true exactly when one of the three increments is non-zero. -/
theorem needsRamp_iff (t : track_t) :
    t.needsRamp = true ↔ t.volumeInc.1 ≠ 0 ∨ t.volumeInc.2 ≠ 0 ∨ t.auxInc ≠ 0 := by
  unfold track_t.needsRamp
  rw [bne_iff_ne, Ne, int_lor_eq_zero, int_lor_eq_zero]
  constructor
  · intro h
    by_contra hc
    push_neg at hc
    exact h ⟨⟨hc.1, hc.2.1⟩, hc.2.2⟩
  · rintro h ⟨⟨h1, h2⟩, h3⟩
    rcases h with h | h | h
    · exact h h1
    · exact h h2
    · exact h h3

theorem ite_invalidateState_track (m : AudioMixer) (n : Nat) (r : Bool × track_t)
    (mask : Nat) :
    (if r.1 = true then invalidateState (setTrack m n r.2) mask else m).mState.tracks n = r.2 ∨
      (r.1 = false ∧ (if r.1 = true then invalidateState (setTrack m n r.2) mask else m) = m) := by
  split
  · left
    rw [invalidateState_tracks]
    simp [setTrack]
  · rename_i h
    right
    exact ⟨by simpa using h, rfl⟩

/-- The track a setParameter write leaves in the slot of the name. -/
theorem setParameter_track (K : Kernels) (m : AudioMixer) (name target param : Int)
    (value : ParamValue) (n : Nat) (hs : slotOfName name = some n) :
    (setParameter K m name target param value).mState.tracks n =
      (if target = TRACK then
          setParameterTrack m.sIsMultichannelCapable (m.mState.tracks n) param value
        else if target = RESAMPLE then
          setParameterResample m.mSampleRate (m.mState.tracks n) param value
        else if target = RAMP_VOLUME then
          setParameterVolume K m.mState.frameCount true (m.mState.tracks n) param value
        else if target = VOLUME then
          setParameterVolume K m.mState.frameCount false (m.mState.tracks n) param value
        else (false, m.mState.tracks n)).2 ∨
    ((if target = TRACK then
          setParameterTrack m.sIsMultichannelCapable (m.mState.tracks n) param value
        else if target = RESAMPLE then
          setParameterResample m.mSampleRate (m.mState.tracks n) param value
        else if target = RAMP_VOLUME then
          setParameterVolume K m.mState.frameCount true (m.mState.tracks n) param value
        else if target = VOLUME then
          setParameterVolume K m.mState.frameCount false (m.mState.tracks n) param value
        else (false, m.mState.tracks n)).1 = false ∧
      (setParameter K m name target param value) = m) := by
  unfold AudioMixer.setParameter
  rw [hs]
  exact ite_invalidateState_track m n _ _

/-- The track an immediate volume write leaves in the slot of the name. -/
theorem setParameter_volume_track (K : Kernels) (m : AudioMixer) (name param : Int) (v : Int)
    (n : Nat) (hs : slotOfName name = some n)
    (hp : param = VOLUME0 ∨ param = VOLUME1 ∨ param = AUXLEVEL) :
    (setParameter K m name VOLUME param (ParamValue.int v)).mState.tracks n =
      (setParameterVolume K m.mState.frameCount false (m.mState.tracks n) param
        (ParamValue.int v)).2 := by
  have h1 : VOLUME ≠ TRACK := by decide
  have h2 : VOLUME ≠ RESAMPLE := by decide
  have h3 : VOLUME ≠ RAMP_VOLUME := by decide
  rcases setParameter_track K m name VOLUME param (ParamValue.int v) n hs with h | ⟨h, _⟩
  · rw [h, if_neg h1, if_neg h2, if_neg h3, if_pos rfl]
  · exfalso
    rw [if_neg h1, if_neg h2, if_neg h3, if_pos rfl] at h
    unfold setParameterVolume at h
    rcases hp with hp | hp | hp
    · subst hp; simp at h
    · subst hp
      have : VOLUME1 ≠ VOLUME0 := by decide
      simp [this] at h
    · subst hp
      have h4 : AUXLEVEL ≠ VOLUME0 := by decide
      have h5 : AUXLEVEL ≠ VOLUME1 := by decide
      simp [h4, h5] at h

/-- C12: an immediate (non-ramped) write setParameter(name, VOLUME, VOLUME0 | VOLUME1 |
AUXLEVEL, v) sets that channel's current level to v and its increment (volumeInc[0],
volumeInc[1] or auxInc) to 0, leaving the other two increments as they were; needsRamp()
is true exactly when at least one of volumeInc[0], volumeInc[1], auxInc is non-zero, so
after immediate writes of all three it is false. -/
theorem setParameter_volume_immediate (K : Kernels) (m : AudioMixer) (name : Int) (n : Nat)
    (v0 v1 va : Int) (hs : slotOfName name = some n) :
    (((setParameter K m name VOLUME VOLUME0 (ParamValue.int v0)).mState.tracks n).volume.1 = v0 ∧
      ((setParameter K m name VOLUME VOLUME0 (ParamValue.int v0)).mState.tracks n).volumeInc =
        (0, (m.mState.tracks n).volumeInc.2) ∧
      ((setParameter K m name VOLUME VOLUME0 (ParamValue.int v0)).mState.tracks n).auxInc =
        (m.mState.tracks n).auxInc) ∧
    (((setParameter K m name VOLUME VOLUME1 (ParamValue.int v1)).mState.tracks n).volume.2 = v1 ∧
      ((setParameter K m name VOLUME VOLUME1 (ParamValue.int v1)).mState.tracks n).volumeInc =
        ((m.mState.tracks n).volumeInc.1, 0) ∧
      ((setParameter K m name VOLUME VOLUME1 (ParamValue.int v1)).mState.tracks n).auxInc =
        (m.mState.tracks n).auxInc) ∧
    (((setParameter K m name VOLUME AUXLEVEL (ParamValue.int va)).mState.tracks n).auxLevel = va ∧
      ((setParameter K m name VOLUME AUXLEVEL (ParamValue.int va)).mState.tracks n).auxInc = 0 ∧
      ((setParameter K m name VOLUME AUXLEVEL (ParamValue.int va)).mState.tracks n).volumeInc =
        (m.mState.tracks n).volumeInc) ∧
    (∀ t : track_t,
      t.needsRamp = true ↔ t.volumeInc.1 ≠ 0 ∨ t.volumeInc.2 ≠ 0 ∨ t.auxInc ≠ 0) ∧
    ((setParameter K
        (setParameter K (setParameter K m name VOLUME VOLUME0 (ParamValue.int v0))
          name VOLUME VOLUME1 (ParamValue.int v1))
        name VOLUME AUXLEVEL (ParamValue.int va)).mState.tracks n).needsRamp = false := by
  have h10 : VOLUME1 ≠ VOLUME0 := by decide
  have ha0 : AUXLEVEL ≠ VOLUME0 := by decide
  have ha1 : AUXLEVEL ≠ VOLUME1 := by decide
  have e0 : ∀ (m : AudioMixer) (v : Int),
      (setParameter K m name VOLUME VOLUME0 (ParamValue.int v)).mState.tracks n =
        { (m.mState.tracks n) with
          volume := (v, (m.mState.tracks n).volume.2)
          prevVolume := (K.levelOf v, (m.mState.tracks n).prevVolume.2)
          volumeInc := (0, (m.mState.tracks n).volumeInc.2) } := by
    intro m v
    rw [setParameter_volume_track K m name VOLUME0 v n hs (Or.inl rfl)]
    simp [setParameterVolume]
  have e1 : ∀ (m : AudioMixer) (v : Int),
      (setParameter K m name VOLUME VOLUME1 (ParamValue.int v)).mState.tracks n =
        { (m.mState.tracks n) with
          volume := ((m.mState.tracks n).volume.1, v)
          prevVolume := ((m.mState.tracks n).prevVolume.1, K.levelOf v)
          volumeInc := ((m.mState.tracks n).volumeInc.1, 0) } := by
    intro m v
    rw [setParameter_volume_track K m name VOLUME1 v n hs (Or.inr (Or.inl rfl))]
    simp [setParameterVolume, h10]
  have ea : ∀ (m : AudioMixer) (v : Int),
      (setParameter K m name VOLUME AUXLEVEL (ParamValue.int v)).mState.tracks n =
        { (m.mState.tracks n) with
          auxLevel := v
          prevAuxLevel := K.levelOf v
          auxInc := 0 } := by
    intro m v
    rw [setParameter_volume_track K m name AUXLEVEL v n hs (Or.inr (Or.inr rfl))]
    simp [setParameterVolume, ha0, ha1]
  refine ⟨?_, ?_, ?_, needsRamp_iff, ?_⟩
  · rw [e0]; exact ⟨rfl, rfl, rfl⟩
  · rw [e1]; exact ⟨rfl, rfl, rfl⟩
  · rw [ea]; exact ⟨rfl, rfl, rfl⟩
  · rw [ea, e1, e0]
    rfl

/-- C12 at a concrete input: immediate writes on the first track of a fresh mixer. -/
theorem setParameter_volume_immediate_witness :
    ((setParameter silentKernels
        (getTrackName (ctor 4 48000 32 false) 3 AUDIO_FORMAT_PCM_16_BIT 0).2
        0x1000 VOLUME VOLUME0 (ParamValue.int 0x800)).mState.tracks 0).volume.1 = 0x800 :=
  (setParameter_volume_immediate silentKernels
    (getTrackName (ctor 4 48000 32 false) 3 AUDIO_FORMAT_PCM_16_BIT 0).2 0x1000 0
    0x800 0x1000 0 (by decide)).1.1

/-! ## The class invariant of the tracks -/

theorem sameConfig_refl (t : track_t) : t.sameConfig t := ⟨rfl, rfl⟩

theorem sameConfig_trans {a b c : track_t} (h1 : a.sameConfig b) (h2 : b.sameConfig c) :
    a.sameConfig c :=
  ⟨h2.1.trans h1.1, h2.2.trans h1.2⟩

theorem getNextBuffer_sameConfig (t : track_t) (samples : Nat) :
    t.sameConfig (t.getNextBuffer samples).2 := by
  unfold track_t.getNextBuffer
  split <;> exact ⟨rfl, rfl⟩

theorem validate_sameConfig (t : track_t) : t.sameConfig t.validate := ⟨rfl, rfl⟩

theorem runTrackHook_sameConfig (K : Kernels) (t : track_t) (frameCount : Nat) :
    t.sameConfig (runTrackHook K t frameCount).2 := by
  unfold runTrackHook
  split
  · exact ⟨rfl, rfl⟩
  · exact ⟨rfl, rfl⟩
  · exact ⟨rfl, rfl⟩
  · split
    · exact getNextBuffer_sameConfig t _
    · exact ⟨rfl, rfl⟩
  · split
    · exact getNextBuffer_sameConfig t _
    · exact ⟨rfl, rfl⟩

theorem process__validate_sameConfig (m : AudioMixer) (i : Nat) :
    (m.mState.tracks i).sameConfig ((process__validate m).mState.tracks i) := by
  unfold process__validate
  simp only
  split
  · exact validate_sameConfig _
  · exact sameConfig_refl _

/-- A mix cycle leaves the enabled flag and the channel count of every track alone. -/
theorem process_sameConfig (K : Kernels) (m : AudioMixer) (mem : Memory) (pts : Int)
    (i : Nat) : (m.mState.tracks i).sameConfig ((process K m mem pts).1.mState.tracks i) := by
  have hv : (m.mState.tracks i).sameConfig
      ((if m.mState.hook = process_hook_t.process__validate then process__validate m
        else m).mState.tracks i) := by
    split
    · exact process__validate_sameConfig m i
    · exact sameConfig_refl _
  unfold process
  simp only
  generalize (if m.mState.hook = process_hook_t.process__validate then process__validate m
      else m) = m1 at hv ⊢
  refine sameConfig_trans hv ?_
  split
  · exact sameConfig_refl _
  · exact sameConfig_refl _
  · unfold process__genericNoResampling process__generic
    simp only
    split
    · exact runTrackHook_sameConfig K _ _
    · exact sameConfig_refl _
  · unfold process__genericResampling process__generic
    simp only
    split
    · exact runTrackHook_sameConfig K _ _
    · exact sameConfig_refl _
  · unfold process__OneTrack16BitsStereoNoResampling
    simp only
    split
    · exact sameConfig_refl _
    · simp only [setTrack]
      split
      · rename_i h
        rw [h]
        exact getNextBuffer_sameConfig _ _
      · exact sameConfig_refl _

theorem channelCount_of_supported {capable : Bool} {channelMask : Nat}
    (h : isSupportedChannelMask capable channelMask = true) :
    (if channelCountFromOutMask channelMask ≤ MAX_NUM_CHANNELS then
        channelCountFromOutMask channelMask else MAX_NUM_CHANNELS) = 1 ∨
      (if channelCountFromOutMask channelMask ≤ MAX_NUM_CHANNELS then
        channelCountFromOutMask channelMask else MAX_NUM_CHANNELS) = 2 := by
  unfold isSupportedChannelMask at h
  simp only [MAX_NUM_CHANNELS, MAX_NUM_CHANNELS_TO_DOWNMIX, Bool.or_eq_true, Bool.and_eq_true,
    decide_eq_true_eq] at h ⊢
  generalize channelCountFromOutMask channelMask = c at h ⊢
  split <;> omega

theorem setParameterTrack_config (capable : Bool) (t : track_t) (param : Int)
    (value : ParamValue) :
    (setParameterTrack capable t param value).2.enabled = t.enabled ∧
      ((setParameterTrack capable t param value).2.channelCount = t.channelCount ∨
        (setParameterTrack capable t param value).2.channelCount = 1 ∨
        (setParameterTrack capable t param value).2.channelCount = 2) := by
  cases value <;> unfold setParameterTrack <;> dsimp only <;> split_ifs <;>
    first
      | exact ⟨rfl, Or.inl rfl⟩
      | (rename_i h1 h2
         refine ⟨rfl, Or.inr ?_⟩
         have h3 := channelCount_of_supported h1.2
         simp only [h2, if_true, if_false] at h3
         exact h3)

theorem setParameterResample_sameConfig (mixRate : Nat) (t : track_t) (param : Int)
    (value : ParamValue) : t.sameConfig (setParameterResample mixRate t param value).2 := by
  unfold setParameterResample
  split
  · split
    · unfold track_t.setResampler
      split <;> exact ⟨rfl, rfl⟩
    · exact ⟨rfl, rfl⟩
  · split
    · unfold track_t.resetResampler
      split <;> exact ⟨rfl, rfl⟩
    · split <;> exact ⟨rfl, rfl⟩

theorem setParameterVolume_sameConfig (K : Kernels) (frameCount : Nat) (ramp : Bool)
    (t : track_t) (param : Int) (value : ParamValue) :
    t.sameConfig (setParameterVolume K frameCount ramp t param value).2 := by
  unfold setParameterVolume
  split
  · split
    · exact ⟨rfl, rfl⟩
    · split
      · exact ⟨rfl, rfl⟩
      · split <;> exact ⟨rfl, rfl⟩
  · exact ⟨rfl, rfl⟩

theorem ite_invalidateState_other (m : AudioMixer) (n i : Nat) (r : Bool × track_t)
    (mask : Nat) (hin : i ≠ n) :
    (if r.1 = true then invalidateState (setTrack m n r.2) mask else m).mState.tracks i =
      m.mState.tracks i := by
  split
  · rw [invalidateState_tracks]
    simp [setTrack, hin]
  · rfl

/-- A setParameter write leaves the enabled flag of every track alone, and its channel
count either alone or at one or two channels. -/
theorem setParameter_config (K : Kernels) (m : AudioMixer) (name target param : Int)
    (value : ParamValue) (i : Nat) :
    ((setParameter K m name target param value).mState.tracks i).enabled =
        (m.mState.tracks i).enabled ∧
      (((setParameter K m name target param value).mState.tracks i).channelCount =
          (m.mState.tracks i).channelCount ∨
        ((setParameter K m name target param value).mState.tracks i).channelCount = 1 ∨
        ((setParameter K m name target param value).mState.tracks i).channelCount = 2) := by
  cases hs : slotOfName name with
  | none =>
    unfold AudioMixer.setParameter
    rw [hs]
    exact ⟨rfl, Or.inl rfl⟩
  | some n =>
    by_cases hin : i = n
    · subst hin
      rcases setParameter_track K m name target param value i hs with h | ⟨_, h⟩
      · rw [h]
        split
        · exact setParameterTrack_config _ _ _ _
        · split
          · have := setParameterResample_sameConfig m.mSampleRate (m.mState.tracks i) param value
            exact ⟨this.1, Or.inl this.2⟩
          · split
            · have := setParameterVolume_sameConfig K m.mState.frameCount true
                (m.mState.tracks i) param value
              exact ⟨this.1, Or.inl this.2⟩
            · split
              · have := setParameterVolume_sameConfig K m.mState.frameCount false
                  (m.mState.tracks i) param value
                exact ⟨this.1, Or.inl this.2⟩
              · exact ⟨rfl, Or.inl rfl⟩
      · rw [h]
        exact ⟨rfl, Or.inl rfl⟩
    · have : (setParameter K m name target param value).mState.tracks i = m.mState.tracks i := by
        unfold AudioMixer.setParameter
        rw [hs]
        exact ite_invalidateState_other m n i _ _ hin
      rw [this]
      exact ⟨rfl, Or.inl rfl⟩

theorem setBufferProvider_sameConfig (m : AudioMixer) (name : Int)
    (bufferProvider : Option AudioBufferProvider) (i : Nat) :
    (m.mState.tracks i).sameConfig
      ((setBufferProvider m name bufferProvider).mState.tracks i) := by
  unfold setBufferProvider
  split
  · exact sameConfig_refl _
  · rw [invalidateState_tracks]
    simp only [setTrack]
    split
    · rename_i h
      rw [h]
      exact ⟨rfl, rfl⟩
    · exact sameConfig_refl _

theorem testBit_clearTrackBit_of_lt {x n : Nat} (hx : x < 2 ^ 32) (hn : n < 32) (i : Nat) :
    (clearTrackBit x n).testBit i = (x.testBit i && !decide (n = i)) := by
  rw [testBit_clearTrackBit _ _ _ hn]
  by_cases h1 : i < 32
  · simp [h1]
  · simp [h1, testBit_eq_false_of_lt hx (not_lt.mp h1)]

theorem deleteTrackName_tracks (m : AudioMixer) (name : Int) (n : Nat)
    (hs : slotOfName name = some n) (i : Nat) :
    (deleteTrackName m name).mState.tracks i =
      if i = n then
        { (m.mState.tracks n) with
          enabled := false
          resampler := none
          mReformatBufferProvider := none
          downmixerBufferProvider := false }
      else m.mState.tracks i := by
  unfold deleteTrackName
  rw [hs]
  simp only [setTrack]
  split
  · rfl
  · split
    · rw [invalidateState_tracks]
    · rfl

theorem deleteTrackName_masks (m : AudioMixer) (name : Int) (n : Nat)
    (hs : slotOfName name = some n) :
    (deleteTrackName m name).mTrackNames = clearTrackBit m.mTrackNames n ∧
      (deleteTrackName m name).mState.enabledTracks =
        clearTrackBit m.mState.enabledTracks n := by
  unfold deleteTrackName
  rw [hs]
  simp only [setTrack]
  obtain ⟨e1, e2⟩ := ite_invalidateState_bitmasks ((m.mState.tracks n).enabled = true) m m
    (trackBit n) rfl rfl
  rw [e1, e2]
  exact ⟨rfl, rfl⟩

theorem ctor_consistent (frameCount sampleRate maxNumTracks : Nat) (capable : Bool) :
    Consistent (ctor frameCount sampleRate maxNumTracks capable) := by
  refine ⟨ctor_wellFormed _ _ _ _, ?_, ?_⟩
  · intro i
    simp [ctor, newTrack]
  · intro i h
    simp [ctor] at h

theorem getTrackName_consistent {m : AudioMixer} (h : Consistent m) (channelMask : Nat)
    (format : audio_format_t) (sessionId : Int) :
    Consistent (getTrackName m channelMask format sessionId).2 := by
  have hwf := getTrackName_wellFormed h.1 channelMask format sessionId
  rcases getTrackName_cases m channelMask format sessionId with he | ⟨n, hs, _, hc, he⟩
  · rw [he]; exact h
  · refine ⟨hwf, ?_, ?_⟩
    · obtain ⟨_, _, hfree, _⟩ := lowestFreeSlot_some hs
      rw [he]
      intro i
      simp only [setTrack]
      split
      · rename_i hin
        subst hin
        show false = m.mState.enabledTracks.testBit i
        cases hb : m.mState.enabledTracks.testBit i with
        | false => rfl
        | true => rw [h.1.2.2 i hb] at hfree; exact absurd hfree (by simp)
      · exact h.2.1 i
    · rw [he]
      intro i hi
      simp only [setTrack]
      split
      · exact channelCount_of_supported hc
      · rename_i hin
        apply h.2.2 i
        have hi' : (m.mTrackNames ||| trackBit n).testBit i = true := hi
        rw [Nat.testBit_or, testBit_trackBit] at hi'
        simp only [Bool.or_eq_true, decide_eq_true_eq] at hi'
        rcases hi' with hi' | hi'
        · exact hi'
        · exact absurd hi'.symm hin

theorem deleteTrackName_consistent {m : AudioMixer} (h : Consistent m) (name : Int) :
    Consistent (deleteTrackName m name) := by
  have hwf := deleteTrackName_wellFormed h.1 name
  cases hs : slotOfName name with
  | none =>
    unfold deleteTrackName
    rw [hs]
    exact h
  | some n =>
    obtain ⟨hn, _⟩ := slotOfName_lt hs
    obtain ⟨e1, e2⟩ := deleteTrackName_masks m name n hs
    refine ⟨hwf, ?_, ?_⟩
    · intro i
      rw [deleteTrackName_tracks m name n hs, e2, testBit_clearTrackBit_of_lt h.1.2.1 hn]
      split
      · rename_i hin
        subst hin
        simp
      · rename_i hin
        rw [h.2.1 i]
        simp [Ne.symm hin]
    · intro i hi
      rw [e1, testBit_clearTrackBit_of_lt h.1.1 hn] at hi
      simp only [Bool.and_eq_true, Bool.not_eq_true', decide_eq_false_iff_not] at hi
      rw [deleteTrackName_tracks m name n hs, if_neg (Ne.symm hi.2)]
      exact h.2.2 i hi.1

theorem enable_consistent {m : AudioMixer} (h : Consistent m) (name : Int)
    (ha : isAllocated m name = true) : Consistent (enable m name) := by
  have hwf := enable_wellFormed h.1 name ha
  refine ⟨hwf, ?_, ?_⟩
  · unfold enable
    split
    · exact h.2.1
    · rename_i n hs
      simp only
      split
      · exact h.2.1
      · intro i
        rw [invalidateState_tracks, invalidateState_enabledTracks]
        simp only [setTrack]
        rw [Nat.testBit_or, testBit_trackBit]
        split
        · rename_i hin
          subst hin
          simp
        · rename_i hin
          rw [h.2.1 i]
          simp [Ne.symm hin]
  · unfold enable
    split
    · exact h.2.2
    · rename_i n hs
      simp only
      split
      · exact h.2.2
      · intro i hi
        rw [invalidateState_mTrackNames] at hi
        rw [invalidateState_tracks]
        simp only [setTrack] at hi ⊢
        split
        · rename_i hin
          subst hin
          exact h.2.2 i hi
        · exact h.2.2 i hi

theorem disable_consistent {m : AudioMixer} (h : Consistent m) (name : Int) :
    Consistent (disable m name) := by
  have hwf := disable_wellFormed h.1 name
  refine ⟨hwf, ?_, ?_⟩
  · unfold disable
    split
    · exact h.2.1
    · rename_i n hs
      obtain ⟨hn, _⟩ := slotOfName_lt hs
      simp only
      split
      · intro i
        rw [invalidateState_tracks, invalidateState_enabledTracks]
        simp only [setTrack]
        rw [testBit_clearTrackBit_of_lt h.1.2.1 hn]
        split
        · rename_i hin
          subst hin
          simp
        · rename_i hin
          rw [h.2.1 i]
          simp [Ne.symm hin]
      · exact h.2.1
  · unfold disable
    split
    · exact h.2.2
    · rename_i n hs
      simp only
      split
      · intro i hi
        rw [invalidateState_mTrackNames] at hi
        rw [invalidateState_tracks]
        simp only [setTrack] at hi ⊢
        split
        · rename_i hin
          subst hin
          exact h.2.2 i hi
        · exact h.2.2 i hi
      · exact h.2.2

/-- Every reachable mixer state satisfies the class invariant of the tracks. -/
theorem reachable_consistent {K : Kernels} {m : AudioMixer} (h : Reachable K m) :
    Consistent m := by
  induction h with
  | ctor frameCount sampleRate maxNumTracks capable =>
    exact ctor_consistent frameCount sampleRate maxNumTracks capable
  | getTrackName channelMask format sessionId _ ih =>
    exact getTrackName_consistent ih channelMask format sessionId
  | deleteTrackName name _ _ ih => exact deleteTrackName_consistent ih name
  | enable name _ ha ih => exact enable_consistent ih name ha
  | disable name _ _ ih => exact disable_consistent ih name
  | @setParameter m name target param value hm ih =>
    obtain ⟨e1, e2⟩ := setParameter_bitmasks K m name target param value
    refine ⟨reachable_wellFormed (Reachable.setParameter name target param value hm), ?_, ?_⟩
    · intro i
      rw [(setParameter_config K m name target param value i).1, e2]
      exact ih.2.1 i
    · intro i hi
      rw [e1] at hi
      rcases (setParameter_config K m name target param value i).2 with hc | hc
      · rw [hc]; exact ih.2.2 i hi
      · exact hc
  | @setBufferProvider m name bufferProvider hm ih =>
    obtain ⟨e1, e2⟩ := setBufferProvider_bitmasks m name bufferProvider
    have hc := setBufferProvider_sameConfig m name bufferProvider
    refine ⟨reachable_wellFormed (Reachable.setBufferProvider name bufferProvider hm), ?_, ?_⟩
    · intro i
      rw [(hc i).1, e2]
      exact ih.2.1 i
    · intro i hi
      rw [e1] at hi
      rw [(hc i).2]
      exact ih.2.2 i hi
  | @process m mem pts hm ih =>
    obtain ⟨e1, e2⟩ := process_bitmasks K m mem pts
    have hc := process_sameConfig K m mem pts
    refine ⟨reachable_wellFormed (Reachable.process mem pts hm), ?_, ?_⟩
    · intro i
      rw [(hc i).1, e2]
      exact ih.2.1 i
    · intro i hi
      rw [e1] at hi
      rw [(hc i).2]
      exact ih.2.2 i hi

/-! ## Enabling and disabling -/

theorem selectProcessHook_ne_validate (s : state_t) :
    selectProcessHook s ≠ process_hook_t.process__validate := by
  unfold selectProcessHook
  split
  · decide
  · simp only
    split_ifs <;> decide
  · split_ifs <;> decide

/-- With a dirty hook cache, process validates first: it does what it does on the
validated state. -/
theorem process_of_dirty (K : Kernels) (m : AudioMixer) (mem : Memory) (pts : Int)
    (h : m.mState.hook = process_hook_t.process__validate) :
    process K m mem pts = process K (process__validate m) mem pts := by
  have hne : (process__validate m).mState.hook ≠ process_hook_t.process__validate :=
    selectProcessHook_ne_validate m.mState
  unfold process
  simp only [h, if_true, if_neg hne]

theorem or_trackBit_of_set {x n : Nat} (h : x.testBit n = true) : x ||| trackBit n = x := by
  apply Nat.eq_of_testBit_eq
  intro i
  rw [Nat.testBit_or, testBit_trackBit]
  by_cases hin : n = i
  · subst hin; simp [h]
  · simp [hin]

/-- What enable does to the bitmasks and the hook cache in a consistent state. -/
theorem enable_masks {m : AudioMixer} (h : Consistent m) (name : Int) (n : Nat)
    (hs : slotOfName name = some n) :
    (enable m name).mState.enabledTracks = m.mState.enabledTracks ||| trackBit n ∧
      (enable m name).mTrackNames = m.mTrackNames ∧
      ((enable m name).mState.enabledTracks ≠ m.mState.enabledTracks →
        (enable m name).mState.hook = process_hook_t.process__validate) := by
  unfold enable
  rw [hs]
  simp only
  split
  · rename_i hen
    rw [h.2.1 n] at hen
    exact ⟨(or_trackBit_of_set hen).symm, rfl, fun hne => absurd rfl hne⟩
  · refine ⟨by rw [invalidateState_enabledTracks]; rfl,
      by rw [invalidateState_mTrackNames]; rfl, fun _ => ?_⟩
    unfold invalidateState
    have hb : trackBit n ≠ 0 := by
      unfold trackBit
      rw [Nat.one_shiftLeft]
      exact (Nat.two_pow_pos n).ne'
    rw [if_neg hb]

/-- What disable does to the bitmasks and the hook cache in a consistent state. -/
theorem disable_masks {m : AudioMixer} (h : Consistent m) (name : Int) (n : Nat)
    (hs : slotOfName name = some n) :
    (disable m name).mState.enabledTracks = clearTrackBit m.mState.enabledTracks n ∧
      (disable m name).mTrackNames = m.mTrackNames ∧
      ((disable m name).mState.enabledTracks ≠ m.mState.enabledTracks →
        (disable m name).mState.hook = process_hook_t.process__validate) := by
  obtain ⟨hn, _⟩ := slotOfName_lt hs
  unfold disable
  rw [hs]
  simp only
  split
  · refine ⟨by rw [invalidateState_enabledTracks]; rfl,
      by rw [invalidateState_mTrackNames]; rfl, fun _ => ?_⟩
    unfold invalidateState
    have hb : trackBit n ≠ 0 := by
      unfold trackBit
      rw [Nat.one_shiftLeft]
      exact (Nat.two_pow_pos n).ne'
    rw [if_neg hb]
  · rename_i hen
    rw [h.2.1 n] at hen
    have hclear : m.mState.enabledTracks.testBit n = false := by simpa using hen
    exact ⟨(clearTrackBit_of_clear h.1.2.1 hn hclear).symm, rfl, fun hne => absurd rfl hne⟩

/-- C13: in every reachable mixer state, enable(name) sets and disable(name) clears exactly
the bit of track name in the enabled-tracks bitmask, leaving every other track's enabled bit
and the allocation bitmask unchanged; every call that changes the enabled bit invalidates
the cached process hook, so the next process() re-validates before mixing. -/
theorem enable_disable_bit (K : Kernels) (m : AudioMixer) (hm : Reachable K m) (name : Int)
    (n : Nat) (hs : slotOfName name = some n) :
    ((enable m name).mState.enabledTracks.testBit n = true ∧
      (∀ j, j ≠ n → (enable m name).mState.enabledTracks.testBit j =
        m.mState.enabledTracks.testBit j) ∧
      trackNames (enable m name) = trackNames m ∧
      ((enable m name).mState.enabledTracks ≠ m.mState.enabledTracks →
        (enable m name).mState.hook = process_hook_t.process__validate ∧
        ∀ (mem : Memory) (pts : Int), process K (enable m name) mem pts =
          process K (process__validate (enable m name)) mem pts)) ∧
    ((disable m name).mState.enabledTracks.testBit n = false ∧
      (∀ j, j ≠ n → (disable m name).mState.enabledTracks.testBit j =
        m.mState.enabledTracks.testBit j) ∧
      trackNames (disable m name) = trackNames m ∧
      ((disable m name).mState.enabledTracks ≠ m.mState.enabledTracks →
        (disable m name).mState.hook = process_hook_t.process__validate ∧
        ∀ (mem : Memory) (pts : Int), process K (disable m name) mem pts =
          process K (process__validate (disable m name)) mem pts)) := by
  have hc := reachable_consistent hm
  obtain ⟨hn, _⟩ := slotOfName_lt hs
  obtain ⟨e1, e2, e3⟩ := enable_masks hc name n hs
  obtain ⟨d1, d2, d3⟩ := disable_masks hc name n hs
  refine ⟨⟨?_, ?_, e2, fun hne => ⟨e3 hne, fun mem pts => process_of_dirty K _ mem pts (e3 hne)⟩⟩,
    ⟨?_, ?_, d2, fun hne => ⟨d3 hne, fun mem pts => process_of_dirty K _ mem pts (d3 hne)⟩⟩⟩
  · rw [e1, Nat.testBit_or, testBit_trackBit]; simp
  · intro j hj
    rw [e1, Nat.testBit_or, testBit_trackBit]
    simp [Ne.symm hj]
  · rw [d1, testBit_clearTrackBit_of_lt hc.1.2.1 hn]; simp
  · intro j hj
    rw [d1, testBit_clearTrackBit_of_lt hc.1.2.1 hn]
    simp [Ne.symm hj]

/-- C13 at a concrete input: enabling the first track of a fresh mixer. -/
theorem enable_disable_bit_witness :
    (enable (getTrackName (ctor 4 48000 32 false) 3 AUDIO_FORMAT_PCM_16_BIT 0).2
      0x1000).mState.enabledTracks.testBit 0 = true :=
  (enable_disable_bit silentKernels
    (getTrackName (ctor 4 48000 32 false) 3 AUDIO_FORMAT_PCM_16_BIT 0).2
    (Reachable.getTrackName 3 AUDIO_FORMAT_PCM_16_BIT 0 (Reachable.ctor 4 48000 32 false))
    0x1000 0 (by decide)).1.1

/-! ## Order of accumulation -/

theorem mem_enabledSlots (enabledTracks i : Nat) :
    i ∈ enabledSlots enabledTracks ↔ i < MAX_NUM_TRACKS ∧ enabledTracks.testBit i = true := by
  unfold enabledSlots
  rw [List.mem_filter, List.mem_range]

theorem pairwise_enabledSlots (enabledTracks : Nat) :
    (enabledSlots enabledTracks).Pairwise (· < ·) :=
  (List.pairwise_lt_range _).filter _

theorem toInt32_add_comm (a c d : Int) :
    toInt32 (toInt32 (a + c) + d) = toInt32 (toInt32 (a + d) + c) := by
  unfold toInt32
  omega

/-- The wrap-around accumulation of two contributions gives the same accumulator in either
order: the order in which the integer accumulator receives the tracks is not visible in
the buffers that are written. -/
theorem accumulate_comm : ∀ (acc x y : List Int),
    accumulate (accumulate acc x) y = accumulate (accumulate acc y) x
  | [], _, _ => by simp [accumulate]
  | a :: acc, [], [] => rfl
  | a :: acc, [], d :: ds => by simp [accumulate]
  | a :: acc, c :: cs, [] => by simp [accumulate]
  | a :: acc, c :: cs, d :: ds => by
    simp only [accumulate, List.cons.injEq]
    exact ⟨toInt32_add_comm a c d, accumulate_comm acc cs ds⟩

/-! ## Channel count and needs -/

theorem computeNeeds_channel_bits {t : track_t}
    (h : t.channelCount = 1 ∨ t.channelCount = 2) :
    (t.computeNeeds &&& NEEDS_CHANNEL_COUNT__MASK) + 1 = t.channelCount := by
  unfold track_t.computeNeeds
  rcases h with h | h <;> rw [h] <;>
    cases t.doesResample <;> cases t.hasAux <;> cases t.isMuted <;> decide

/-- C15 fails as stated: after a mix cycle has validated the stereo track of
`oneTrackExample` and its channel mask is then set to mono, the allocated track 0 has
channelCount 1 while its needs mask still holds NEEDS_CHANNEL_2. -/
theorem channelCount_needs_counterexample :
    Reachable silentKernels staleNeedsExample ∧
      staleNeedsExample.mTrackNames.testBit 0 = true ∧
      (staleNeedsExample.mState.tracks 0).channelCount = 1 ∧
      ((staleNeedsExample.mState.tracks 0).needs &&& NEEDS_CHANNEL_COUNT__MASK) + 1 = 2 ∧
      (staleNeedsExample.mState.tracks 0).channelCount ≠
        ((staleNeedsExample.mState.tracks 0).needs &&& NEEDS_CHANNEL_COUNT__MASK) + 1 := by
  refine ⟨?_, by decide, by decide, by decide, by decide⟩
  unfold staleNeedsExample oneTrackExample configureUnity
  exact Reachable.setParameter _ _ _ _
    (Reachable.process _ _
      (Reachable.enable _
        (Reachable.setBufferProvider _ _
          (Reachable.setParameter _ _ _ _
            (Reachable.setParameter _ _ _ _
              (Reachable.setParameter _ _ _ _
                (Reachable.getTrackName _ _ _ (Reachable.ctor 4 48000 32 false))))))
        (by decide)))

/-- C15 as amended: in every reachable mixer state each allocated track has channelCount in
{1, 2}, never exceeding MAX_NUM_CHANNELS = 2; and in the state process__validate leaves,
every enabled track has channelCount = (needs & NEEDS_CHANNEL_COUNT__MASK) + 1, with
NEEDS_CHANNEL_1 = 0 for mono and NEEDS_CHANNEL_2 = 1 for stereo. -/
theorem channelCount_invariant (K : Kernels) (m : AudioMixer) (hm : Reachable K m) :
    (∀ i, m.mTrackNames.testBit i = true →
      ((m.mState.tracks i).channelCount = 1 ∨ (m.mState.tracks i).channelCount = 2) ∧
        (m.mState.tracks i).channelCount ≤ MAX_NUM_CHANNELS) ∧
    (∀ i, i < MAX_NUM_TRACKS → m.mState.enabledTracks.testBit i = true →
      ((process__validate m).mState.tracks i).channelCount =
        (((process__validate m).mState.tracks i).needs &&& NEEDS_CHANNEL_COUNT__MASK) + 1 ∧
      (((process__validate m).mState.tracks i).channelCount = 1 ↔
        ((process__validate m).mState.tracks i).needs &&& NEEDS_CHANNEL_COUNT__MASK =
          NEEDS_CHANNEL_1) ∧
      (((process__validate m).mState.tracks i).channelCount = 2 ↔
        ((process__validate m).mState.tracks i).needs &&& NEEDS_CHANNEL_COUNT__MASK =
          NEEDS_CHANNEL_2)) := by
  have hc := reachable_consistent hm
  constructor
  · intro i hi
    have h := hc.2.2 i hi
    refine ⟨h, ?_⟩
    unfold MAX_NUM_CHANNELS
    omega
  · intro i hi hen
    have hcc := hc.2.2 i (hc.1.2.2 i hen)
    have ht : (process__validate m).mState.tracks i = (m.mState.tracks i).validate := by
      unfold process__validate
      simp only
      rw [if_pos ⟨hi, hen⟩]
    rw [ht]
    have hbits := computeNeeds_channel_bits hcc
    have e1 : (m.mState.tracks i).validate.channelCount = (m.mState.tracks i).channelCount := rfl
    have e2 : (m.mState.tracks i).validate.needs = (m.mState.tracks i).computeNeeds := rfl
    rw [e1, e2]
    unfold NEEDS_CHANNEL_1 NEEDS_CHANNEL_2
    refine ⟨hbits.symm, ?_, ?_⟩ <;> omega

/-- C15 as amended, at a concrete input: the stereo track of `oneTrackExample`. -/
theorem channelCount_invariant_witness :
    (oneTrackExample.mState.tracks 0).channelCount = 1 ∨
      (oneTrackExample.mState.tracks 0).channelCount = 2 :=
  ((channelCount_invariant silentKernels oneTrackExample
    (by
      unfold oneTrackExample configureUnity
      exact Reachable.enable _
        (Reachable.setBufferProvider _ _
          (Reachable.setParameter _ _ _ _
            (Reachable.setParameter _ _ _ _
              (Reachable.setParameter _ _ _ _
                (Reachable.getTrackName _ _ _ (Reachable.ctor 4 48000 32 false))))))
        (by decide))).1 0 (by decide)).1

end AudioMixer

/-! ## AudioPolicyService: the command thread -/

namespace AudioPolicyService

theorem drop_of_get {q : List AudioCommand} {m : Nat} {x : AudioCommand}
    (h : q[m]? = some x) : q.drop m = x :: q.drop (m + 1) := by
  obtain ⟨hm, rfl⟩ := List.getElem?_eq_some.mp h
  exact List.drop_eq_getElem_cons hm

theorem take_succ_of_get {q : List AudioCommand} {m : Nat} {x : AudioCommand}
    (h : q[m]? = some x) : q.take (m + 1) = q.take m ++ [x] := by
  rw [List.take_succ, h]
  rfl

theorem split_of_get {q : List AudioCommand} {m : Nat} {x : AudioCommand}
    (h : q[m]? = some x) : q = q.take m ++ x :: q.drop (m + 1) := by
  rw [← drop_of_get h, List.take_append_drop]

theorem sorted_split {q : List AudioCommand} {m : Nat} {x : AudioCommand}
    (hs : sortedByTime q) (h : q[m]? = some x) :
    (∀ y ∈ q.take m, y.mTime ≤ x.mTime) ∧ (∀ y ∈ q.drop (m + 1), x.mTime ≤ y.mTime) := by
  unfold sortedByTime at hs
  rw [split_of_get h, List.pairwise_append] at hs
  obtain ⟨_, h2, h3⟩ := hs
  refine ⟨fun y hy => h3 y hy x (List.mem_cons_self _ _), ?_⟩
  exact fun y hy => List.rel_of_pairwise_cons h2 hy

theorem coalesces_cases {c d : AudioCommand} (h : coalesces c d = true) :
    d.mCommand = c.mCommand ∧
      ((c.mCommand = Command.SET_VOLUME ∧ ∃ data data2, c.mParam = AudioCommandData.volume data ∧
          d.mParam = AudioCommandData.volume data2 ∧ data.mIO = data2.mIO ∧
          data.mStream = data2.mStream) ∨
        (c.mCommand = Command.SET_PARAMETERS ∧ ∃ data data2,
          c.mParam = AudioCommandData.parameters data ∧
          d.mParam = AudioCommandData.parameters data2 ∧ data.mIO = data2.mIO)) := by
  rcases c with ⟨cmd, t, st, p, w, ad⟩
  rcases d with ⟨cmd2, t2, st2, p2, w2, ad2⟩
  cases cmd <;> cases p <;> cases p2 <;> simp [coalesces] at h ⊢ <;> exact h

theorem coalesce_of_not (q : List AudioCommand) (c : AudioCommand) (delayMs : Int)
    (R : List AudioCommand) (i : Nat) (d : AudioCommand)
    (hcmd : d.mCommand = c.mCommand) (h : coalesces c d = false) :
    coalesce ⟨q, c, delayMs, R⟩ i d = ⟨q, c, delayMs, R⟩ := by
  rcases c with ⟨cmd, t, st, p, w, ad⟩
  rcases d with ⟨cmd2, t2, st2, p2, w2, ad2⟩
  cases cmd <;> cases p <;> cases p2 <;> simp [coalesces, coalesce] at hcmd h ⊢ <;> tauto

theorem coalesce_command (q : List AudioCommand) (c : AudioCommand) (delayMs : Int)
    (R : List AudioCommand) (i : Nat) (d : AudioCommand) (h : coalesces c d = true) :
    (coalesce ⟨q, c, delayMs, R⟩ i d).command = { c with mTime := d.mTime } ∧
      (coalesce ⟨q, c, delayMs, R⟩ i d).delayMs = 1 ∧
      ∀ j, j ≠ i →
        (coalesce ⟨q, c, delayMs, R⟩ i d).mAudioCommands[j]? = q[j]? := by
  obtain ⟨_, h1 | h1⟩ := coalesces_cases h
  · obtain ⟨hc, data, data2, hp, hp2, hio, hst⟩ := h1
    simp [coalesce, hc, hp, hp2, hio, hst]
  · obtain ⟨hc, data, data2, hp, hp2, hio⟩ := h1
    simp only [coalesce, hc, hp, hp2, hio]
    refine ⟨by simp, by simp, fun j hj => ?_⟩
    simp only [ne_eq, not_true_eq_false, if_false]
    split_ifs
    · rfl
    · simp [List.getElem?_set, Ne.symm hj]

theorem scanLoop_sorted (q : List AudioCommand) (c : AudioCommand) (delayMs : Int)
    (R : List AudioCommand) (hs : sortedByTime q) :
    ∀ n, n ≤ q.length →
      (∀ x ∈ q.drop n, c.mTime < x.mTime ∧ coalesces c x = false) →
      (∃ k, k ≤ n ∧ scanLoop ⟨q, c, delayMs, R⟩ n = ((k : Int) - 1, ⟨q, c, delayMs, R⟩) ∧
          (∀ x ∈ q.take k, x.mTime ≤ c.mTime) ∧
          ∀ x ∈ q.drop k, c.mTime < x.mTime ∧ coalesces c x = false) ∨
        ∃ a d, a < n ∧ q[a]? = some d ∧ c.mTime < d.mTime ∧ coalesces c d = true ∧
          (∀ x ∈ q.drop (a + 1), c.mTime < x.mTime ∧ coalesces c x = false) ∧
          scanLoop ⟨q, c, delayMs, R⟩ n = ((a : Int) - 1, coalesce ⟨q, c, delayMs, R⟩ a d) := by
  intro n
  induction n with
  | zero =>
    intro _ hsc
    exact Or.inl ⟨0, le_refl 0, rfl, by simp, hsc⟩
  | succ m ih =>
    intro hm hsc
    have hlt : m < q.length := hm
    have hx : q[m]? = some q[m] := List.getElem?_eq_getElem hlt
    generalize q[m] = x at hx
    by_cases hle : x.mTime ≤ c.mTime
    · refine Or.inl ⟨m + 1, le_refl _, ?_, ?_, hsc⟩
      · simp [scanLoop, hx, hle]
      · intro y hy
        rw [take_succ_of_get hx, List.mem_append] at hy
        rcases hy with hy | hy
        · exact le_trans ((sorted_split hs hx).1 y hy) hle
        · rw [List.mem_singleton] at hy
          rw [hy]
          exact hle
    · have hgt : c.mTime < x.mTime := not_le.mp hle
      by_cases hco : coalesces c x = true
      · refine Or.inr ⟨m, x, Nat.lt_succ_self m, hx, hgt, hco, hsc, ?_⟩
        have hcmd := (coalesces_cases hco).1
        obtain ⟨h1, _, h3⟩ := coalesce_command q c delayMs R m x hco
        have hstep : scanLoop ⟨q, c, delayMs, R⟩ (m + 1) =
            scanLoop (coalesce ⟨q, c, delayMs, R⟩ m x) m := by
          simp [scanLoop, hx, hle, hcmd]
        rw [hstep]
        cases m with
        | zero => rfl
        | succ j =>
          have hj : j < q.length := by omega
          have hy : q[j]? = some q[j] := List.getElem?_eq_getElem hj
          generalize q[j] = y at hy
          have hyx : y.mTime ≤ x.mTime := by
            apply (sorted_split hs hx).1
            have : (q.take (j + 1))[j]? = some y := by
              rw [List.getElem?_take_of_lt (Nat.lt_succ_self j)]
              exact hy
            exact List.getElem?_mem this
          have hy2 := h3 j (by omega)
          rw [hy] at hy2
          simp [scanLoop, hy2, h1, hyx]
      · have hco2 : coalesces c x = false := by simpa using hco
        have hstep : scanLoop ⟨q, c, delayMs, R⟩ (m + 1) = scanLoop ⟨q, c, delayMs, R⟩ m := by
          by_cases hcmd : x.mCommand = c.mCommand
          · have := coalesce_of_not q c delayMs R m x hcmd hco2
            simp [scanLoop, hx, hle, hcmd, this]
          · simp [scanLoop, hx, hle, hcmd]
        have hsc2 : ∀ y ∈ q.drop m, c.mTime < y.mTime ∧ coalesces c y = false := by
          intro y hy
          rw [drop_of_get hx, List.mem_cons] at hy
          rcases hy with hy | hy
          · rw [hy]
            exact ⟨hgt, hco2⟩
          · exact hsc y hy
        rcases ih (by omega) hsc2 with ⟨k, hk, h1, h2, h3⟩ | ⟨a, d, ha, h1, h2, h3, h4, h5⟩
        · exact Or.inl ⟨k, by omega, by rw [hstep, h1], h2, h3⟩
        · exact Or.inr ⟨a, d, by omega, h1, h2, h3, h4, by rw [hstep, h5]⟩

theorem coalesce_volume (q : List AudioCommand) (c : AudioCommand) (delayMs : Int)
    (R : List AudioCommand) (i : Nat) (d : AudioCommand)
    (hc : c.mCommand = Command.SET_VOLUME) (h : coalesces c d = true) :
    coalesce ⟨q, c, delayMs, R⟩ i d = ⟨q, { c with mTime := d.mTime }, 1, R ++ [d]⟩ := by
  obtain ⟨_, h1 | h1⟩ := coalesces_cases h
  · obtain ⟨_, data, data2, hp, hp2, hio, hst⟩ := h1
    simp [coalesce, hc, hp, hp2, hio, hst]
  · rw [hc] at h1
    exact absurd h1.1 (by decide)

theorem coalesce_parameters (q : List AudioCommand) (c : AudioCommand) (delayMs : Int)
    (R : List AudioCommand) (i : Nat) (d : AudioCommand) (data : ParametersData)
    (hc : c.mCommand = Command.SET_PARAMETERS)
    (hp : c.mParam = AudioCommandData.parameters data) (h : coalesces c d = true) :
    ∃ data2, d.mParam = AudioCommandData.parameters data2 ∧ data.mIO = data2.mIO ∧
      coalesce ⟨q, c, delayMs, R⟩ i d =
        if (filterOutKeys ⟨data.mKeyValuePairs⟩ ⟨data2.mKeyValuePairs⟩).mParameters = [] then
          ⟨q, { c with mTime := d.mTime }, 1, R ++ [d]⟩
        else
          ⟨q.set i { d with
              mParam := AudioCommandData.parameters ⟨data2.mIO,
                (filterOutKeys ⟨data.mKeyValuePairs⟩ ⟨data2.mKeyValuePairs⟩).mParameters⟩ },
            { c with mTime := d.mTime }, 1, R⟩ := by
  obtain ⟨_, h1 | h1⟩ := coalesces_cases h
  · rw [hc] at h1
    exact absurd h1.1 (by decide)
  · obtain ⟨_, data1, data2, hp1, hp2, hio⟩ := h1
    rw [hp] at hp1
    cases hp1
    refine ⟨data2, hp2, hio, ?_⟩
    simp only [coalesce, hc, hp, hp2, hio, ne_eq, not_true_eq_false, if_false,
      AudioParameter.size, AudioParameter.toString, List.length_eq_zero]
    split_ifs <;> rfl

theorem coalesce_shape (q : List AudioCommand) (c : AudioCommand) (delayMs : Int)
    (i : Nat) (d : AudioCommand) (h : coalesces c d = true) :
    ((coalesce ⟨q, c, delayMs, []⟩ i d).mAudioCommands = q ∧
        (coalesce ⟨q, c, delayMs, []⟩ i d).removedCommands = [d]) ∨
      ((coalesce ⟨q, c, delayMs, []⟩ i d).removedCommands = [] ∧
        ∃ e, e.mTime = d.mTime ∧ (coalesce ⟨q, c, delayMs, []⟩ i d).mAudioCommands = q.set i e) := by
  obtain ⟨_, h1 | h1⟩ := coalesces_cases h
  · rw [coalesce_volume q c delayMs [] i d h1.1 h]
    exact Or.inl ⟨rfl, rfl⟩
  · obtain ⟨hc, data, _, hp, _⟩ := h1
    obtain ⟨data2, _, _, h2⟩ := coalesce_parameters q c delayMs [] i d data hc hp h
    rw [h2]
    split_ifs
    · exact Or.inl ⟨rfl, rfl⟩
    · refine Or.inr ⟨rfl, _, ?_, rfl⟩
      rfl

theorem removeFiltered_single {q : List AudioCommand} {a : Nat} {d : AudioCommand}
    (h : q[a]? = some d) :
    removeFiltered q ((a : Int) - 1) [d] = q.take a ++ q.drop (a + 1) := by
  simp [removeFiltered, removeFirstFrom, drop_of_get h]

theorem insertAt_take (q rest : List AudioCommand) (item : AudioCommand) (a : Nat)
    (ha : a ≤ q.length) :
    insertAt (q.take a ++ rest) item a = q.take a ++ item :: rest := by
  have hl : (q.take a).length = a := by simp [ha]
  unfold insertAt
  rw [if_pos (by simp [ha])]
  rw [List.take_append_of_le_length (by omega), List.drop_append_of_le_length (by omega)]
  rw [List.take_of_length_le (by omega), List.drop_of_length_le (by omega)]
  simp

theorem insertCommand_l_cases (q : List AudioCommand) (c : AudioCommand) (delayMs now : Int)
    (hs : sortedByTime q) :
    (∃ k, k ≤ q.length ∧
        scanLoop (scanStart q c delayMs now) q.length =
          ((k : Int) - 1, scanStart q c delayMs now) ∧
        (∀ x ∈ q.take k, x.mTime ≤ now + milliseconds delayMs) ∧
        (∀ x ∈ q.drop k, now + milliseconds delayMs < x.mTime ∧
          coalesces { c with mTime := now + milliseconds delayMs } x = false) ∧
        (insertCommand_l q c delayMs now).command =
          { c with mTime := now + milliseconds delayMs,
                   mWaitStatus := if delayMs ≠ 0 then false else c.mWaitStatus } ∧
        (insertCommand_l q c delayMs now).mAudioCommands =
          q.take k ++ (insertCommand_l q c delayMs now).command :: q.drop k) ∨
      ∃ a d kept, q[a]? = some d ∧ now + milliseconds delayMs < d.mTime ∧
        coalesces { c with mTime := now + milliseconds delayMs } d = true ∧
        (∀ x ∈ q.drop (a + 1), now + milliseconds delayMs < x.mTime ∧
          coalesces { c with mTime := now + milliseconds delayMs } x = false) ∧
        scanLoop (scanStart q c delayMs now) q.length =
          ((a : Int) - 1, coalesce (scanStart q c delayMs now) a d) ∧
        (insertCommand_l q c delayMs now).command =
          { c with mTime := d.mTime, mWaitStatus := false } ∧
        (insertCommand_l q c delayMs now).mAudioCommands =
          q.take a ++ (insertCommand_l q c delayMs now).command :: (kept ++ q.drop (a + 1)) ∧
        (∀ x ∈ kept, x.mTime = d.mTime) ∧
        kept =
          if (coalesce (scanStart q c delayMs now) a d).removedCommands = [] then
            ((coalesce (scanStart q c delayMs now) a d).mAudioCommands[a]?).toList
          else [] := by
  have hscan := scanLoop_sorted q { c with mTime := now + milliseconds delayMs } delayMs [] hs
    q.length (le_refl _) (by simp)
  rcases hscan with ⟨k, hk, h1, h2, h3⟩ | ⟨a, d, ha, h1, h2, h3, h4, h5⟩
  · have h1' : scanLoop (scanStart q c delayMs now) q.length =
        ((k : Int) - 1, scanStart q c delayMs now) := h1
    have hk1 : ((k : Int) - 1 + 1).toNat = k := by simp
    have hqq : (insertCommand_l q c delayMs now).mAudioCommands =
        insertAt q (insertCommand_l q c delayMs now).command k := by
      simp only [insertCommand_l, h1', hk1]
      rfl
    refine Or.inl ⟨k, hk, h1', h2, h3, ?_, ?_⟩
    · simp only [insertCommand_l, h1']
      simp only [scanStart]
      split_ifs <;> rfl
    · rw [hqq]
      have := insertAt_take q (q.drop k) (insertCommand_l q c delayMs now).command k hk
      rwa [List.take_append_drop] at this
  · have h5' : scanLoop (scanStart q c delayMs now) q.length =
        ((a : Int) - 1, coalesce (scanStart q c delayMs now) a d) := h5
    obtain ⟨hc1, hc2, _⟩ :=
      coalesce_command q { c with mTime := now + milliseconds delayMs } delayMs [] a d h3
    have hc1' : (coalesce (scanStart q c delayMs now) a d).command = _ := hc1
    have hc2' : (coalesce (scanStart q c delayMs now) a d).delayMs = 1 := hc2
    have ha1 : ((a : Int) - 1 + 1).toNat = a := by simp
    have hcmd : (insertCommand_l q c delayMs now).command =
        { c with mTime := d.mTime, mWaitStatus := false } := by
      simp only [insertCommand_l, h5', hc1', hc2']
      rfl
    have hqq : (insertCommand_l q c delayMs now).mAudioCommands =
        insertAt (removeFiltered (coalesce (scanStart q c delayMs now) a d).mAudioCommands
          ((a : Int) - 1) (coalesce (scanStart q c delayMs now) a d).removedCommands)
          (insertCommand_l q c delayMs now).command a := by
      simp only [insertCommand_l, h5', ha1]
    rcases coalesce_shape q { c with mTime := now + milliseconds delayMs } delayMs a d h3 with
      ⟨hq, hr⟩ | ⟨hr, e, he, hq⟩
    · have hq' : (coalesce (scanStart q c delayMs now) a d).mAudioCommands = q := hq
      have hr' : (coalesce (scanStart q c delayMs now) a d).removedCommands = [d] := hr
      refine Or.inr ⟨a, d, [], h1, h2, h3, h4, h5', hcmd, ?_, by simp, ?_⟩
      · rw [List.nil_append, hqq, hq', hr', removeFiltered_single h1]
        exact insertAt_take q _ _ a (le_of_lt ha)
      · rw [hr']
        simp
    · have hq' : (coalesce (scanStart q c delayMs now) a d).mAudioCommands = q.set a e := hq
      have hr' : (coalesce (scanStart q c delayMs now) a d).removedCommands = [] := hr
      refine Or.inr ⟨a, d, [e], h1, h2, h3, h4, h5', hcmd, ?_, by simpa using he, ?_⟩
      · rw [hqq, hq', hr']
        have hset : q.set a e = q.take a ++ ([e] ++ q.drop (a + 1)) := by
          rw [List.set_eq_take_append_cons_drop, if_pos ha]
          rfl
        rw [hset]
        exact insertAt_take q _ _ a (le_of_lt ha)
      · rw [hr', hq']
        simp [List.getElem?_set, ha]

theorem pendingExample_sorted : sortedByTime pendingExample := by
  simp [sortedByTime, pendingExample, volumeCommand, parametersCommand]

/-- C16: insertCommand_l keeps the command vector ordered.  For every command, delay and
current time, a vector that is sorted by non-decreasing `mTime` before the call is sorted
by non-decreasing `mTime` after it, also when the inserted command supersedes a pending
command and takes over its time stamp. -/
theorem insertCommand_l_keeps_sorted (q : List AudioCommand) (c : AudioCommand)
    (delayMs now : Int) (hs : sortedByTime q) :
    sortedByTime (insertCommand_l q c delayMs now).mAudioCommands := by
  have htake : ∀ k, sortedByTime (q.take k) := fun k => List.Pairwise.sublist (List.take_sublist k q) hs
  have hdrop : ∀ k, sortedByTime (q.drop k) := fun k => List.Pairwise.sublist (List.drop_sublist k q) hs
  rcases insertCommand_l_cases q c delayMs now hs with
    ⟨k, _, _, h2, h3, h4, h5⟩ | ⟨a, d, kept, h1, _, _, _, _, h6, h7, h8, _⟩
  · rw [h5]
    unfold sortedByTime
    rw [List.pairwise_append, List.pairwise_cons]
    have ht : (insertCommand_l q c delayMs now).command.mTime = now + milliseconds delayMs := by
      rw [h4]
    refine ⟨htake k, ⟨fun y hy => ?_, hdrop k⟩, fun x hx y hy => ?_⟩
    · rw [ht]
      exact le_of_lt (h3 y hy).1
    · rcases List.mem_cons.mp hy with hy | hy
      · rw [hy, ht]
        exact h2 x hx
      · exact le_trans (h2 x hx) (le_of_lt (h3 y hy).1)
  · rw [h7]
    have ht : (insertCommand_l q c delayMs now).command.mTime = d.mTime := by
      rw [h6]
    obtain ⟨hb, ha⟩ := sorted_split hs h1
    have hrest : ∀ y ∈ kept ++ q.drop (a + 1), d.mTime ≤ y.mTime := by
      intro y hy
      rcases List.mem_append.mp hy with hy | hy
      · exact le_of_eq (h8 y hy).symm
      · exact ha y hy
    unfold sortedByTime
    rw [List.pairwise_append, List.pairwise_cons, List.pairwise_append]
    refine ⟨htake a, ⟨fun y hy => ?_, ?_, hdrop (a + 1), fun x hx y hy => ?_⟩,
      fun x hx y hy => ?_⟩
    · rw [ht]
      exact hrest y hy
    · exact List.pairwise_of_forall_mem_list
        (fun x hx y hy => le_of_eq ((h8 x hx).trans (h8 y hy).symm))
    · rw [h8 x hx]
      exact ha y hy
    · rcases List.mem_cons.mp hy with hy | hy
      · rw [hy, ht]
        exact hb x hx
      · exact le_trans (hb x hx) (hrest y hy)

theorem insertCommand_l_keeps_sorted_witness :
    sortedByTime pendingExample ∧
      sortedByTime (insertCommand_l pendingExample (volumeCommand 3 30 1 104) 0 0).mAudioCommands :=
  ⟨pendingExample_sorted,
    insertCommand_l_keeps_sorted pendingExample (volumeCommand 3 30 1 104) 0 0
      pendingExample_sorted⟩

/-- C19: after insertCommand_l(command, delayMs) on a vector sorted by time stamp,
`command->mWaitStatus` is false whenever `delayMs != 0` or the command was coalesced, that
is, a pending command with a time stamp later than `systemTime() + milliseconds(delayMs)`
is a SET_VOLUME command for the same output and stream or a SET_PARAMETERS command for the
same `mIO`, in which case the scan ends with `delayMs` forced to 1; when `delayMs == 0` and
there is no such pending command, `mWaitStatus` is as the caller set it. -/
theorem insertCommand_l_mWaitStatus (q : List AudioCommand) (c : AudioCommand)
    (delayMs now : Int) (hs : sortedByTime q) :
    (delayMs ≠ 0 → (insertCommand_l q c delayMs now).command.mWaitStatus = false) ∧
      ((∃ d ∈ q, now + milliseconds delayMs < d.mTime ∧ coalesces c d = true) →
        (insertCommand_l q c delayMs now).command.mWaitStatus = false ∧
          (scanLoop (scanStart q c delayMs now) q.length).2.delayMs = 1) ∧
      (delayMs = 0 →
        (∀ d ∈ q, now + milliseconds delayMs < d.mTime → coalesces c d = false) →
        (insertCommand_l q c delayMs now).command.mWaitStatus = c.mWaitStatus) := by
  rcases insertCommand_l_cases q c delayMs now hs with
    ⟨k, _, h1, h2, h3, h4, _⟩ | ⟨a, d, kept, h1, h2, h3, _, h5, h6, _, _, _⟩
  · refine ⟨fun hd => ?_, fun hex => ?_, fun hd _ => ?_⟩
    · rw [h4]
      simp [hd]
    · exfalso
      obtain ⟨d, hd, ht, hco⟩ := hex
      rw [← List.take_append_drop k q, List.mem_append] at hd
      rcases hd with hd | hd
      · exact absurd (h2 d hd) (not_le.mpr ht)
      · have := (h3 d hd).2
        have h0 : coalesces { c with mTime := now + milliseconds delayMs } d = coalesces c d := rfl
        rw [h0, hco] at this
        exact absurd this (by decide)
    · rw [h4]
      simp [hd]
  · have hw : (insertCommand_l q c delayMs now).command.mWaitStatus = false := by
      rw [h6]
    refine ⟨fun _ => hw, fun _ => ⟨hw, ?_⟩, fun _ hall => ?_⟩
    · rw [h5]
      exact (coalesce_command q { c with mTime := now + milliseconds delayMs } delayMs [] a d h3).2.1
    · exfalso
      have := hall d (List.getElem?_mem h1) h2
      have h0 : coalesces { c with mTime := now + milliseconds delayMs } d = coalesces c d := rfl
      rw [h0, this] at h3
      exact absurd h3 (by decide)

theorem insertCommand_l_mWaitStatus_witness :
    sortedByTime pendingExample ∧
      (insertCommand_l pendingExample (volumeCommand 3 30 1 104) 0 0).command.mWaitStatus
        = false ∧
      (scanLoop (scanStart pendingExample (volumeCommand 3 30 1 104) 0 0)
        pendingExample.length).2.delayMs = 1 :=
  ⟨pendingExample_sorted,
    (insertCommand_l_mWaitStatus pendingExample (volumeCommand 3 30 1 104) 0 0
      pendingExample_sorted).2.1
      ⟨{ (volumeCommand 3 20 1 103) with mTime := 300 }, by simp [pendingExample],
        by decide, by decide⟩⟩

/-- C20: on a vector sorted by time stamp, every pending command that the scan of
insertCommand_l puts in `removedCommands` has a time stamp greater than the time stamp
`systemTime() + milliseconds(delayMs)` of the command being inserted (which then takes
that greater time stamp over), and lies at an index `k` greater than the final index `i`
of the scan; the removal loop that searches from index `i + 1` removes the command at
that index from the vector. -/
theorem removedCommands_found (q : List AudioCommand) (c : AudioCommand) (delayMs now : Int)
    (hs : sortedByTime q) (r : AudioCommand)
    (hr : r ∈ (scanLoop (scanStart q c delayMs now) q.length).2.removedCommands) :
    now + milliseconds delayMs < r.mTime ∧
      (scanLoop (scanStart q c delayMs now) q.length).2.command.mTime = r.mTime ∧
      ∃ k : Nat, (scanLoop (scanStart q c delayMs now) q.length).1 < (k : Int) ∧
        (scanLoop (scanStart q c delayMs now) q.length).2.mAudioCommands[k]? = some r ∧
        removeFiltered (scanLoop (scanStart q c delayMs now) q.length).2.mAudioCommands
            (scanLoop (scanStart q c delayMs now) q.length).1
            (scanLoop (scanStart q c delayMs now) q.length).2.removedCommands =
          (scanLoop (scanStart q c delayMs now) q.length).2.mAudioCommands.take k ++
            (scanLoop (scanStart q c delayMs now) q.length).2.mAudioCommands.drop (k + 1) := by
  rcases insertCommand_l_cases q c delayMs now hs with
    ⟨k, _, h1, _⟩ | ⟨a, d, kept, h1, h2, h3, _, h5, _, _, _, _⟩
  · rw [h1] at hr
    simp [scanStart] at hr
  · rw [h5] at hr ⊢
    have hc := (coalesce_command q { c with mTime := now + milliseconds delayMs } delayMs [] a d
      h3).1
    have hc' : (coalesce (scanStart q c delayMs now) a d).command = _ := hc
    rcases coalesce_shape q { c with mTime := now + milliseconds delayMs } delayMs a d h3 with
      ⟨hq, hrem⟩ | ⟨hrem, _⟩
    · have hq' : (coalesce (scanStart q c delayMs now) a d).mAudioCommands = q := hq
      have hrem' : (coalesce (scanStart q c delayMs now) a d).removedCommands = [d] := hrem
      simp only [hrem', List.mem_singleton] at hr
      subst hr
      simp only [hq', hrem', hc']
      refine ⟨h2, trivial, a, by omega, h1, removeFiltered_single h1⟩
    · have hrem' : (coalesce (scanStart q c delayMs now) a d).removedCommands = [] := hrem
      rw [hrem'] at hr
      simp at hr

theorem removedCommands_found_witness :
    sortedByTime pendingExample ∧
      { (volumeCommand 3 20 1 103) with mTime := 300 } ∈
        (scanLoop (scanStart pendingExample (volumeCommand 3 30 1 104) 0 0)
          pendingExample.length).2.removedCommands ∧
      0 + milliseconds 0 < ({ (volumeCommand 3 20 1 103) with mTime := 300 } : AudioCommand).mTime :=
  ⟨pendingExample_sorted, by decide,
    (removedCommands_found pendingExample (volumeCommand 3 30 1 104) 0 0 pendingExample_sorted
      { (volumeCommand 3 20 1 103) with mTime := 300 } (by decide)).1⟩

theorem mem_split_cases {q : List AudioCommand} {p : AudioCommand} (k : Nat) (hp : p ∈ q) :
    p ∈ q.take k ∨ p ∈ q.drop k := by
  rw [← List.take_append_drop k q, List.mem_append] at hp
  exact hp

theorem coalesces_volume_iff {c d : AudioCommand} {data : VolumeData}
    (hc : c.mCommand = Command.SET_VOLUME) (hp : c.mParam = AudioCommandData.volume data) :
    coalesces c d = true ↔
      d.mCommand = Command.SET_VOLUME ∧
        ∃ data2, d.mParam = AudioCommandData.volume data2 ∧ data2.mIO = data.mIO ∧
          data2.mStream = data.mStream := by
  constructor
  · intro h
    obtain ⟨h0, h1 | h1⟩ := coalesces_cases h
    · obtain ⟨_, data1, data2, hp1, hp2, hio, hst⟩ := h1
      rw [hp] at hp1
      cases hp1
      exact ⟨h0.trans hc, data2, hp2, hio.symm, hst.symm⟩
    · rw [hc] at h1
      exact absurd h1.1 (by decide)
  · rintro ⟨hd, data2, hd2, hio, hst⟩
    simp [coalesces, hc, hp, hd, hd2, hio, hst]

theorem coalesces_parameters_iff {c d : AudioCommand} {data : ParametersData}
    (hc : c.mCommand = Command.SET_PARAMETERS)
    (hp : c.mParam = AudioCommandData.parameters data) :
    coalesces c d = true ↔
      d.mCommand = Command.SET_PARAMETERS ∧
        ∃ data2, d.mParam = AudioCommandData.parameters data2 ∧ data2.mIO = data.mIO := by
  constructor
  · intro h
    obtain ⟨h0, h1 | h1⟩ := coalesces_cases h
    · rw [hc] at h1
      exact absurd h1.1 (by decide)
    · obtain ⟨_, data1, data2, hp1, hp2, hio⟩ := h1
      rw [hp] at hp1
      cases hp1
      exact ⟨h0.trans hc, data2, hp2, hio.symm⟩
  · rintro ⟨hd, data2, hd2, hio⟩
    simp [coalesces, hc, hp, hd, hd2, hio]

/-- C17: last write wins for volume commands.  After insertCommand_l inserts a SET_VOLUME
command `c` in a vector sorted by time stamp, no command placed after `c` is a SET_VOLUME
command for the same output `mIO` and the same stream; and when a pending SET_VOLUME
command for that output and stream has a time stamp later than
`systemTime() + milliseconds(delayMs)`, one such command, the last of them in the vector, is
removed and `c` is inserted at its index with its time stamp. -/
theorem insertCommand_l_volume (q : List AudioCommand) (c : AudioCommand) (delayMs now : Int)
    (data : VolumeData) (hs : sortedByTime q) (hc : c.mCommand = Command.SET_VOLUME)
    (hp : c.mParam = AudioCommandData.volume data) :
    (∃ k post, (insertCommand_l q c delayMs now).mAudioCommands =
        q.take k ++ (insertCommand_l q c delayMs now).command :: post ∧
        ∀ x ∈ post, ∀ data2, x.mCommand = Command.SET_VOLUME →
          x.mParam = AudioCommandData.volume data2 →
          ¬ (data2.mIO = data.mIO ∧ data2.mStream = data.mStream)) ∧
      ((∃ p ∈ q, now + milliseconds delayMs < p.mTime ∧ p.mCommand = Command.SET_VOLUME ∧
          ∃ data2, p.mParam = AudioCommandData.volume data2 ∧ data2.mIO = data.mIO ∧
            data2.mStream = data.mStream) →
        ∃ a d data2, q[a]? = some d ∧ now + milliseconds delayMs < d.mTime ∧
          d.mCommand = Command.SET_VOLUME ∧ d.mParam = AudioCommandData.volume data2 ∧
          data2.mIO = data.mIO ∧ data2.mStream = data.mStream ∧
          (∀ x ∈ q.drop (a + 1), coalesces c x = false) ∧
          (insertCommand_l q c delayMs now).command.mTime = d.mTime ∧
          (insertCommand_l q c delayMs now).mAudioCommands =
            q.take a ++ (insertCommand_l q c delayMs now).command :: q.drop (a + 1)) := by
  have hiff : ∀ d, coalesces { c with mTime := now + milliseconds delayMs } d = true ↔ _ :=
    fun d => coalesces_volume_iff (c := { c with mTime := now + milliseconds delayMs })
      (d := d) hc hp
  have hnot : ∀ post : List AudioCommand,
      (∀ x ∈ post, now + milliseconds delayMs < x.mTime ∧
        coalesces { c with mTime := now + milliseconds delayMs } x = false) →
      ∀ x ∈ post, ∀ data2, x.mCommand = Command.SET_VOLUME →
        x.mParam = AudioCommandData.volume data2 →
        ¬ (data2.mIO = data.mIO ∧ data2.mStream = data.mStream) := by
    intro post hpost x hx data2 hx1 hx2 hx3
    have := (hiff x).mpr ⟨hx1, data2, hx2, hx3.1, hx3.2⟩
    rw [(hpost x hx).2] at this
    exact absurd this (by decide)
  rcases insertCommand_l_cases q c delayMs now hs with
    ⟨k, _, _, h2, h3, _, h5⟩ | ⟨a, d, kept, h1, h2, h3, h4, _, h6, h7, _, h9⟩
  · refine ⟨⟨k, q.drop k, h5, hnot _ h3⟩, fun hex => ?_⟩
    exfalso
    obtain ⟨p, hpq, ht, hp1, data2, hp2, hp3, hp4⟩ := hex
    rcases mem_split_cases k hpq with hm | hm
    · exact absurd (h2 p hm) (not_le.mpr ht)
    · have := (hiff p).mpr ⟨hp1, data2, hp2, hp3, hp4⟩
      rw [(h3 p hm).2] at this
      exact absurd this (by decide)
  · have hk : kept = [] := by
      rw [h9]
      have := coalesce_volume q { c with mTime := now + milliseconds delayMs } delayMs [] a d
        hc h3
      have h' : coalesce (scanStart q c delayMs now) a d = _ := this
      rw [h']
      simp
    rw [hk, List.nil_append] at h7
    refine ⟨⟨a, q.drop (a + 1), h7, hnot _ h4⟩, fun _ => ?_⟩
    obtain ⟨hd1, data2, hd2, hd3, hd4⟩ := (hiff d).mp h3
    exact ⟨a, d, data2, h1, h2, hd1, hd2, hd3, hd4, fun x hx => (h4 x hx).2, by rw [h6], h7⟩

theorem insertCommand_l_volume_witness :
    sortedByTime pendingExample ∧
      ∃ a d data2, pendingExample[a]? = some d ∧ 0 + milliseconds 0 < d.mTime ∧
        d.mCommand = Command.SET_VOLUME ∧ d.mParam = AudioCommandData.volume data2 ∧
        data2.mIO = 1 ∧ data2.mStream = 3 ∧
        (∀ x ∈ pendingExample.drop (a + 1), coalesces (volumeCommand 3 30 1 104) x = false) ∧
        (insertCommand_l pendingExample (volumeCommand 3 30 1 104) 0 0).command.mTime
          = d.mTime ∧
        (insertCommand_l pendingExample (volumeCommand 3 30 1 104) 0 0).mAudioCommands =
          pendingExample.take a ++
            (insertCommand_l pendingExample (volumeCommand 3 30 1 104) 0 0).command ::
              pendingExample.drop (a + 1) :=
  ⟨pendingExample_sorted,
    (insertCommand_l_volume pendingExample (volumeCommand 3 30 1 104) 0 0
      { mStream := 3, mVolume := 30, mIO := 1 } pendingExample_sorted rfl rfl).2
      ⟨{ (volumeCommand 3 20 1 103) with mTime := 300 }, by simp [pendingExample],
        by decide, rfl, { mStream := 3, mVolume := 20, mIO := 1 }, rfl, rfl, rfl⟩⟩

theorem eraseP_key_eq_filter (key : String) :
    ∀ l : List (String × String), (l.map Prod.fst).Nodup →
      l.eraseP (fun kv => kv.1 == key) = l.filter (fun kv => !(kv.1 == key)) := by
  intro l
  induction l with
  | nil => intro _; rfl
  | cons x l ih =>
    intro hn
    rw [List.map_cons, List.nodup_cons] at hn
    by_cases hx : x.1 = key
    · have hx1 : (x.1 == key) = true := by simpa using hx
      simp only [List.eraseP_cons, List.filter_cons, hx1, cond_true, Bool.not_true,
        Bool.false_eq_true, if_false]
      symm
      rw [List.filter_eq_self]
      intro kv hkv
      have : kv.1 ≠ key := by
        intro h
        apply hn.1
        rw [hx, ← h]
        exact List.mem_map_of_mem Prod.fst hkv
      simpa using this
    · have hx1 : ¬ (x.1 == key) = true := by simpa using hx
      have hx2 : (x.1 == key) = false := by simpa using hx
      simp only [List.eraseP_cons, List.filter_cons, hx2, cond_false, Bool.not_false, if_true]
      rw [ih hn.2]

theorem filterOutKeys_eq_filter :
    ∀ (l1 l2 : List (String × String)), (l2.map Prod.fst).Nodup →
      (filterOutKeys ⟨l1⟩ ⟨l2⟩).mParameters =
        l2.filter (fun kv => !(l1.any (fun kv1 => kv1.1 == kv.1))) := by
  intro l1
  induction l1 with
  | nil =>
    intro l2 _
    simp [filterOutKeys]
  | cons x l1 ih =>
    intro l2 hn
    have hstep : filterOutKeys ⟨x :: l1⟩ ⟨l2⟩ =
        filterOutKeys ⟨l1⟩ ⟨l2.eraseP (fun kv => kv.1 == x.1)⟩ := by
      unfold filterOutKeys
      rw [List.foldl_cons]
      congr 1
      by_cases h : l2.any (fun kv2 => kv2.1 == x.1) = true
      · rw [if_pos h]
        rfl
      · rw [if_neg h]
        congr 1
        symm
        apply List.eraseP_of_forall_not
        intro a ha hp
        exact h (List.any_eq_true.mpr ⟨a, ha, hp⟩)
    rw [hstep, eraseP_key_eq_filter x.1 l2 hn]
    rw [ih _ (List.Nodup.sublist (List.Sublist.map Prod.fst (List.filter_sublist l2)) hn)]
    rw [List.filter_filter]
    apply List.filter_congr
    intro kv _
    have h : (kv.1 == x.1) = (x.1 == kv.1) := by
      rw [Bool.eq_iff_iff]
      simp only [beq_iff_eq]
      exact eq_comm
    simp only [List.any_cons, Bool.not_or]
    rw [h, Bool.and_comm]

/-- C18: last write wins per key for parameter commands.  When insertCommand_l inserts a
SET_PARAMETERS command `c` in a vector sorted by time stamp whose parameter commands hold
one value per key, and meets a pending SET_PARAMETERS command `d` for the same `mIO` with a
later time stamp, the pairs that remain of `d` are its pairs whose key is not a key of `c`;
`d` is removed when no pair remains and otherwise stays, behind `c`, with the remaining
pairs only; afterwards no SET_PARAMETERS command for that `mIO` placed after `c` holds a
key of `c`. -/
theorem insertCommand_l_parameters (q : List AudioCommand) (c : AudioCommand)
    (delayMs now : Int) (data : ParametersData) (hs : sortedByTime q)
    (hc : c.mCommand = Command.SET_PARAMETERS)
    (hp : c.mParam = AudioCommandData.parameters data)
    (hkeys : ∀ d ∈ q, ∀ data2, d.mParam = AudioCommandData.parameters data2 →
      (data2.mKeyValuePairs.map Prod.fst).Nodup) :
    (∃ k post, (insertCommand_l q c delayMs now).mAudioCommands =
        q.take k ++ (insertCommand_l q c delayMs now).command :: post ∧
        ∀ x ∈ post, ∀ data2, x.mCommand = Command.SET_PARAMETERS →
          x.mParam = AudioCommandData.parameters data2 → data2.mIO = data.mIO →
          ∀ kv ∈ data2.mKeyValuePairs, ∀ kv1 ∈ data.mKeyValuePairs, kv1.1 ≠ kv.1) ∧
      ((∃ p ∈ q, now + milliseconds delayMs < p.mTime ∧
          p.mCommand = Command.SET_PARAMETERS ∧
          ∃ data2, p.mParam = AudioCommandData.parameters data2 ∧ data2.mIO = data.mIO) →
        ∃ a d data2 remaining, q[a]? = some d ∧ now + milliseconds delayMs < d.mTime ∧
          d.mCommand = Command.SET_PARAMETERS ∧
          d.mParam = AudioCommandData.parameters data2 ∧ data2.mIO = data.mIO ∧
          (∀ x ∈ q.drop (a + 1), coalesces c x = false) ∧
          remaining = data2.mKeyValuePairs.filter
            (fun kv => !(data.mKeyValuePairs.any (fun kv1 => kv1.1 == kv.1))) ∧
          (insertCommand_l q c delayMs now).command.mTime = d.mTime ∧
          (insertCommand_l q c delayMs now).mAudioCommands =
            q.take a ++ (insertCommand_l q c delayMs now).command ::
              ((if remaining = [] then []
                else [{ d with mParam := AudioCommandData.parameters ⟨data2.mIO, remaining⟩ }])
                ++ q.drop (a + 1))) := by
  have hiff : ∀ d, coalesces { c with mTime := now + milliseconds delayMs } d = true ↔ _ :=
    fun d => coalesces_parameters_iff (c := { c with mTime := now + milliseconds delayMs })
      (d := d) hc hp
  have hnot : ∀ post : List AudioCommand,
      (∀ x ∈ post, now + milliseconds delayMs < x.mTime ∧
        coalesces { c with mTime := now + milliseconds delayMs } x = false) →
      ∀ x ∈ post, ∀ data2, x.mCommand = Command.SET_PARAMETERS →
        x.mParam = AudioCommandData.parameters data2 → data2.mIO = data.mIO →
        ∀ kv ∈ data2.mKeyValuePairs, ∀ kv1 ∈ data.mKeyValuePairs, kv1.1 ≠ kv.1 := by
    intro post hpost x hx data2 hx1 hx2 hx3
    have := (hiff x).mpr ⟨hx1, data2, hx2, hx3⟩
    rw [(hpost x hx).2] at this
    exact absurd this (by decide)
  rcases insertCommand_l_cases q c delayMs now hs with
    ⟨k, _, _, h2, h3, _, h5⟩ | ⟨a, d, kept, h1, h2, h3, h4, _, h6, h7, _, h9⟩
  · refine ⟨⟨k, q.drop k, h5, hnot _ h3⟩, fun hex => ?_⟩
    exfalso
    obtain ⟨p, hpq, ht, hp1, data2, hp2, hp3⟩ := hex
    rcases mem_split_cases k hpq with hm | hm
    · exact absurd (h2 p hm) (not_le.mpr ht)
    · have := (hiff p).mpr ⟨hp1, data2, hp2, hp3⟩
      rw [(h3 p hm).2] at this
      exact absurd this (by decide)
  · obtain ⟨data2, hd2, hio, hco⟩ := coalesce_parameters q
      { c with mTime := now + milliseconds delayMs } delayMs [] a d data hc hp h3
    have hco' : coalesce (scanStart q c delayMs now) a d = _ := hco
    have hd1 : d.mCommand = Command.SET_PARAMETERS := ((hiff d).mp h3).1
    have hfil := filterOutKeys_eq_filter data.mKeyValuePairs data2.mKeyValuePairs
      (hkeys d (List.getElem?_mem h1) data2 hd2)
    have ha : a < q.length := (List.getElem?_eq_some.mp h1).1
    have hk : kept =
        if data2.mKeyValuePairs.filter
            (fun kv => !(data.mKeyValuePairs.any (fun kv1 => kv1.1 == kv.1))) = [] then []
        else [{ d with mParam := AudioCommandData.parameters ⟨data2.mIO,
          data2.mKeyValuePairs.filter
            (fun kv => !(data.mKeyValuePairs.any (fun kv1 => kv1.1 == kv.1)))⟩ }] := by
      rw [h9, hco', hfil]
      by_cases hrem : data2.mKeyValuePairs.filter
          (fun kv => !(data.mKeyValuePairs.any (fun kv1 => kv1.1 == kv.1))) = []
      · rw [if_pos hrem, if_pos hrem]
        simp
      · rw [if_neg hrem, if_neg hrem]
        simp [List.getElem?_set, ha]
    rw [hk] at h7
    refine ⟨⟨a, _, h7, ?_⟩, fun _ => ⟨a, d, data2, _, h1, h2, hd1, hd2, hio.symm,
      fun x hx => (h4 x hx).2, rfl, by rw [h6], h7⟩⟩
    intro x hx dx hx1 hx2 hx3 kv hkv kv1 hkv1
    rcases List.mem_append.mp hx with hx | hx
    · split_ifs at hx with hrem
      · simp at hx
      · rw [List.mem_singleton] at hx
        subst hx
        simp only [AudioCommandData.parameters.injEq] at hx2
        subst hx2
        have := (List.mem_filter.mp hkv).2
        simp only [Bool.not_eq_true', List.any_eq_false, beq_iff_eq] at this
        exact this kv1 hkv1
    · exact hnot _ h4 x hx dx hx1 hx2 hx3 kv hkv kv1 hkv1

theorem insertCommand_l_parameters_witness :
    sortedByTime pendingExample ∧
      ∃ a d data2 remaining, pendingExample[a]? = some d ∧ 0 + milliseconds 0 < d.mTime ∧
        d.mCommand = Command.SET_PARAMETERS ∧
        d.mParam = AudioCommandData.parameters data2 ∧ data2.mIO = 5 ∧
        (∀ x ∈ pendingExample.drop (a + 1),
          coalesces (parametersCommand 5 [("routing", "4")] 105) x = false) ∧
        remaining = data2.mKeyValuePairs.filter
          (fun kv => !([("routing", "4")].any (fun kv1 => kv1.1 == kv.1))) ∧
        (insertCommand_l pendingExample (parametersCommand 5 [("routing", "4")] 105) 0
          0).command.mTime = d.mTime ∧
        (insertCommand_l pendingExample (parametersCommand 5 [("routing", "4")] 105) 0
            0).mAudioCommands =
          pendingExample.take a ++
            (insertCommand_l pendingExample (parametersCommand 5 [("routing", "4")] 105) 0
              0).command ::
              ((if remaining = [] then []
                else [{ d with mParam := AudioCommandData.parameters ⟨data2.mIO, remaining⟩ }])
                ++ pendingExample.drop (a + 1)) :=
  ⟨pendingExample_sorted,
    (insertCommand_l_parameters pendingExample (parametersCommand 5 [("routing", "4")] 105) 0 0
      { mIO := 5, mKeyValuePairs := [("routing", "4")] } pendingExample_sorted rfl rfl
      (by
        intro d hd data2 hd2
        simp only [pendingExample, List.mem_cons, List.mem_singleton, List.not_mem_nil,
          or_false] at hd
        rcases hd with rfl | rfl | rfl
        · simp [volumeCommand] at hd2
        · simp only [parametersCommand, AudioCommandData.parameters.injEq] at hd2
          subst hd2
          decide
        · simp [volumeCommand] at hd2)).2
      ⟨{ (parametersCommand 5 [("routing", "2"), ("screen_state", "on")] 102) with
          mTime := 200 }, by simp [pendingExample], by decide, rfl,
        { mIO := 5, mKeyValuePairs := [("routing", "2"), ("screen_state", "on")] },
        rfl, rfl⟩⟩

theorem inputSourceNameToEnum_null_entry (tags : InputSourceTags) (name : String)
    (h : ∀ e ∈ kInputSourceNames 9 tags, e ≠ some name) :
    inputSourceNameToEnum 1 9 tags name = none := by
  simp only [kInputSourceNames] at h
  simp at h
  obtain ⟨h1, h2, h3, h4, h5, h6, h7⟩ := h
  have e1 : ¬ name = tags.MIC_SRC_TAG := fun e => h1 e.symm
  have e2 : ¬ name = tags.VOICE_UL_SRC_TAG := fun e => h2 e.symm
  have e3 : ¬ name = tags.VOICE_DL_SRC_TAG := fun e => h3 e.symm
  have e4 : ¬ name = tags.VOICE_CALL_SRC_TAG := fun e => h4 e.symm
  have e5 : ¬ name = tags.CAMCORDER_SRC_TAG := fun e => h5 e.symm
  have e6 : ¬ name = tags.VOICE_REC_SRC_TAG := fun e => h6 e.symm
  have e7 : ¬ name = tags.VOICE_COMM_SRC_TAG := fun e => h7 e.symm
  simp [inputSourceNameToEnum, inputSourceNameLoop, kInputSourceNames, e1, e2, e3, e4, e5, e6,
    e7]

theorem coalesce_mTime_le (s : ScanState) (i : Nat) (d : AudioCommand)
    (hcmd : d.mCommand = s.command.mCommand) (hlt : s.command.mTime < d.mTime) :
    s.command.mTime ≤ (coalesce s i d).command.mTime := by
  obtain ⟨q, c, delayMs, R⟩ := s
  by_cases hco : coalesces c d = true
  · rw [(coalesce_command q c delayMs R i d hco).1]
    exact le_of_lt hlt
  · have hco2 : coalesces c d = false := by simpa using hco
    rw [coalesce_of_not q c delayMs R i d hcmd hco2]

theorem scanLoop_mTime_le : ∀ (n : Nat) (s : ScanState),
    s.command.mTime ≤ (scanLoop s n).2.command.mTime := by
  intro n
  induction n with
  | zero => intro s; exact le_refl _
  | succ i ih =>
    intro s
    unfold scanLoop
    cases hget : s.mAudioCommands[i]? with
    | none => exact ih s
    | some command2 =>
      simp only
      by_cases hle : command2.mTime ≤ s.command.mTime
      · rw [if_pos hle]
      · rw [if_neg hle]
        by_cases hcmd : command2.mCommand ≠ s.command.mCommand
        · rw [if_pos hcmd]
          exact ih s
        · rw [if_neg hcmd]
          refine le_trans ?_ (ih _)
          exact coalesce_mTime_le s i command2 (not_not.mp hcmd) (not_le.mp hle)

theorem insertCommand_l_command_mTime (q : List AudioCommand) (c : AudioCommand)
    (delayMs now : Int) :
    (insertCommand_l q c delayMs now).command.mTime =
      (scanLoop (scanStart q c delayMs now) q.length).2.command.mTime := by
  simp only [insertCommand_l]
  split_ifs <;> rfl

/-- C22: insertCommand_l applied to a vector sorted by `mTime` removes at most one pending
command: the scan puts at most one command in `removedCommands`, and the vector after the
call is as long as before when one command was removed and one longer when none was, never
shorter. -/
theorem insertCommand_l_removes_at_most_one (q : List AudioCommand) (c : AudioCommand)
    (delayMs now : Int) (hs : sortedByTime q) :
    (scanLoop (scanStart q c delayMs now) q.length).2.removedCommands.length ≤ 1 ∧
      (insertCommand_l q c delayMs now).mAudioCommands.length +
          (scanLoop (scanStart q c delayMs now) q.length).2.removedCommands.length =
        q.length + 1 ∧
      ((insertCommand_l q c delayMs now).mAudioCommands.length = q.length ∨
        (insertCommand_l q c delayMs now).mAudioCommands.length = q.length + 1) := by
  have hlen : ∀ k, k ≤ q.length → (q.take k).length + (q.drop k).length = q.length := by
    intro k hk
    rw [← List.length_append, List.take_append_drop]
  rcases insertCommand_l_cases q c delayMs now hs with
    ⟨k, hk, h1, _, _, _, h5⟩ | ⟨a, d, kept, h1, _, h3, _, h5, _, h7, _, h9⟩
  · have hl : (insertCommand_l q c delayMs now).mAudioCommands.length = q.length + 1 := by
      rw [h5, List.length_append, List.length_cons]
      have := hlen k hk
      omega
    rw [h1, hl]
    simp [scanStart]
  · have ha : a < q.length := (List.getElem?_eq_some.mp h1).1
    have hl : (insertCommand_l q c delayMs now).mAudioCommands.length =
        q.length + kept.length := by
      rw [h7, List.length_append, List.length_cons, List.length_append]
      have h2 := hlen (a + 1) (by omega)
      have h3 : (q.take a).length = a := by simp [le_of_lt ha]
      have h4 : (q.take (a + 1)).length = a + 1 := by simp; omega
      omega
    rw [h5, hl]
    rcases coalesce_shape q { c with mTime := now + milliseconds delayMs } delayMs a d h3 with
      ⟨hq, hr⟩ | ⟨hr, e, _, hq⟩
    · have hr' : (coalesce (scanStart q c delayMs now) a d).removedCommands = [d] := hr
      rw [hr'] at h9 ⊢
      simp at h9
      rw [h9]
      simp
    · have hr' : (coalesce (scanStart q c delayMs now) a d).removedCommands = [] := hr
      have hq' : (coalesce (scanStart q c delayMs now) a d).mAudioCommands = q.set a e := hq
      rw [hr', hq'] at h9
      rw [hr']
      simp [List.getElem?_set, ha] at h9
      rw [h9]
      simp

theorem insertCommand_l_removes_at_most_one_witness :
    sortedByTime pendingExample ∧
      (insertCommand_l pendingExample (volumeCommand 3 30 1 104) 0 0).mAudioCommands.length
        = pendingExample.length :=
  ⟨pendingExample_sorted, by
    have h := insertCommand_l_removes_at_most_one pendingExample (volumeCommand 3 30 1 104) 0 0
      pendingExample_sorted
    have hr : (scanLoop (scanStart pendingExample (volumeCommand 3 30 1 104) 0 0)
        pendingExample.length).2.removedCommands.length = 1 := by decide
    omega⟩

/-- C23: a command is never scheduled earlier than requested.  After
insertCommand_l(command, delayMs) called at time `now`, `command->mTime` is at least
`now + milliseconds(delayMs)`; on a vector sorted by time stamp it is equal to it if and
only if no pending command with a later time stamp is one the command coalesces with (a
SET_VOLUME command for the same output and stream, a SET_PARAMETERS command for the same
`mIO`), and otherwise it is the time stamp of the pending command that was matched, the last
such command in the vector. -/
theorem insertCommand_l_mTime (q : List AudioCommand) (c : AudioCommand) (delayMs now : Int) :
    now + milliseconds delayMs ≤ (insertCommand_l q c delayMs now).command.mTime ∧
      (sortedByTime q →
        ((insertCommand_l q c delayMs now).command.mTime = now + milliseconds delayMs ↔
            ∀ d ∈ q, now + milliseconds delayMs < d.mTime → coalesces c d = false) ∧
          ((∃ d ∈ q, now + milliseconds delayMs < d.mTime ∧ coalesces c d = true) →
            ∃ a d, q[a]? = some d ∧ now + milliseconds delayMs < d.mTime ∧
              coalesces c d = true ∧ (∀ x ∈ q.drop (a + 1), coalesces c x = false) ∧
              (insertCommand_l q c delayMs now).command.mTime = d.mTime)) := by
  have h0 : ∀ d, coalesces { c with mTime := now + milliseconds delayMs } d = coalesces c d :=
    fun _ => rfl
  refine ⟨?_, fun hs => ?_⟩
  · rw [insertCommand_l_command_mTime]
    exact scanLoop_mTime_le q.length (scanStart q c delayMs now)
  · rcases insertCommand_l_cases q c delayMs now hs with
      ⟨k, _, _, h2, h3, h4, _⟩ | ⟨a, d, kept, h1, h2, h3, h4, _, h6, _, _, _⟩
    · have hnone : ∀ d ∈ q, now + milliseconds delayMs < d.mTime → coalesces c d = false := by
        intro d hd ht
        rw [← List.take_append_drop k q, List.mem_append] at hd
        rcases hd with hd | hd
        · exact absurd (h2 d hd) (not_le.mpr ht)
        · exact (h0 d) ▸ (h3 d hd).2
      refine ⟨⟨fun _ => hnone, fun _ => by rw [h4]⟩, fun hex => ?_⟩
      obtain ⟨d, hd, ht, hco⟩ := hex
      rw [hnone d hd ht] at hco
      exact absurd hco (by decide)
    · have hco : coalesces c d = true := (h0 d) ▸ h3
      have ht : (insertCommand_l q c delayMs now).command.mTime = d.mTime := by rw [h6]
      refine ⟨⟨fun heq => ?_, fun hall => ?_⟩, fun _ =>
        ⟨a, d, h1, h2, hco, fun x hx => (h0 x) ▸ (h4 x hx).2, ht⟩⟩
      · rw [ht] at heq
        exact absurd heq (ne_of_gt h2)
      · have := hall d (List.getElem?_mem h1) h2
        rw [this] at hco
        exact absurd hco (by decide)

theorem insertCommand_l_mTime_witness :
    sortedByTime pendingExample ∧
      ∃ a d, pendingExample[a]? = some d ∧ 0 + milliseconds 0 < d.mTime ∧
        coalesces (volumeCommand 3 30 1 104) d = true ∧
        (∀ x ∈ pendingExample.drop (a + 1), coalesces (volumeCommand 3 30 1 104) x = false) ∧
        (insertCommand_l pendingExample (volumeCommand 3 30 1 104) 0 0).command.mTime
          = d.mTime :=
  ⟨pendingExample_sorted,
    ((insertCommand_l_mTime pendingExample (volumeCommand 3 30 1 104) 0 0).2
      pendingExample_sorted).2
      ⟨{ (volumeCommand 3 20 1 103) with mTime := 300 }, by simp [pendingExample],
        by decide, by decide⟩⟩

end AudioPolicyService

/-! ## NuPlayer::GenericSource -/

namespace GenericSource

open MetaKey

theorem strncasecmp_eq_zero_iff (mime p : String) (n : Nat) (hlen : p.toList.length = n)
    (hlow : p.toList.map Char.toLower = p.toList) :
    strncasecmp mime p n = 0 ↔ p.toList <+: mime.toList.map Char.toLower := by
  have htake : p.toList.take n = p.toList := by
    rw [← hlen]
    exact List.take_length p.toList
  unfold strncasecmp
  rw [htake, hlow, List.prefix_iff_eq_take, hlen, List.map_take]
  constructor
  · intro h
    by_contra hne
    rw [if_neg (fun e => hne e.symm)] at h
    exact absurd h (by decide)
  · intro h
    rw [if_pos h.symm]

theorem strcasecmp_eq_zero_iff (mime p : String)
    (hlow : p.toList.map Char.toLower = p.toList) :
    strcasecmp mime p = 0 ↔ mime.toList.map Char.toLower = p.toList := by
  unfold strcasecmp
  rw [hlow]
  constructor
  · intro h
    by_contra hne
    rw [if_neg hne] at h
    exact absurd h (by decide)
  · intro h
    rw [if_pos h]

theorem getTrackInfo_eq (s : GenericSource) (trackIndex : Nat) (source : MediaSource)
    (mime : String) (hsrc : s.mSources[trackIndex]? = some source)
    (hmime : source.mFormat.findCString kKeyMIMEType = some mime) :
    getTrackInfo s trackIndex = some (some
      { mItems := [("type", AMessageValue.int32
          (if strncasecmp mime "video/" 6 = 0 then MEDIA_TRACK_TYPE_VIDEO
          else if strncasecmp mime "audio/" 6 = 0 then MEDIA_TRACK_TYPE_AUDIO
          else if strcasecmp mime MEDIA_MIMETYPE_TEXT_3GPP = 0 then MEDIA_TRACK_TYPE_TIMEDTEXT
          else MEDIA_TRACK_TYPE_UNKNOWN)),
        ("language", AMessageValue.string
          (match source.mFormat.findCString kKeyMediaLanguage with
          | some lang => lang
          | none => "und"))] }) := by
  have hlt : ¬ trackIndex ≥ s.mSources.length := by
    have := (List.getElem?_eq_some.mp hsrc).1
    omega
  have hne : ¬ (if strncasecmp mime "video/" 6 = 0 then MEDIA_TRACK_TYPE_VIDEO
      else if strncasecmp mime "audio/" 6 = 0 then MEDIA_TRACK_TYPE_AUDIO
      else if strcasecmp mime MEDIA_MIMETYPE_TEXT_3GPP = 0 then MEDIA_TRACK_TYPE_TIMEDTEXT
      else MEDIA_TRACK_TYPE_UNKNOWN) = MEDIA_TRACK_TYPE_SUBTITLE := by
    split_ifs <;> decide
  unfold getTrackInfo
  simp only [if_neg hlt, hsrc, hmime, if_neg hne]
  rfl

/-- C24: getTrackInfo(trackIndex) returns the null message if and only if
`trackIndex >= getTrackCount()`.  For a track within the count whose format carries a mime
type, the returned format has under `type` VIDEO when the mime type, lower-cased, starts
with `video/`, else AUDIO when it starts with `audio/`, else TIMEDTEXT when it is, up to
case, the 3GPP timed text mime type, else UNKNOWN; and under `language` the language of the
track, or `und` when the track has none. -/
theorem getTrackInfo_type_language (s : GenericSource) (trackIndex : Nat) :
    (getTrackInfo s trackIndex = some none ↔ trackIndex ≥ getTrackCount s) ∧
      ∀ source mime, s.mSources[trackIndex]? = some source →
        source.mFormat.findCString kKeyMIMEType = some mime →
        ∃ format, getTrackInfo s trackIndex = some (some format) ∧
          format.findItem "type" = some (AMessageValue.int32
            (if "video/".toList <+: mime.toList.map Char.toLower then MEDIA_TRACK_TYPE_VIDEO
            else if "audio/".toList <+: mime.toList.map Char.toLower then
              MEDIA_TRACK_TYPE_AUDIO
            else if mime.toList.map Char.toLower = MEDIA_MIMETYPE_TEXT_3GPP.toList then
              MEDIA_TRACK_TYPE_TIMEDTEXT
            else MEDIA_TRACK_TYPE_UNKNOWN)) ∧
          format.findItem "language" = some (AMessageValue.string
            (match source.mFormat.findCString kKeyMediaLanguage with
            | some lang => lang
            | none => "und")) := by
  constructor
  · constructor
    · intro h
      by_contra hlt
      have hlt2 : trackIndex < s.mSources.length := by
        unfold getTrackCount at hlt
        omega
      have hsrc : s.mSources[trackIndex]? = some s.mSources[trackIndex] :=
        List.getElem?_eq_getElem hlt2
      cases hm : (s.mSources[trackIndex]).mFormat.findCString kKeyMIMEType with
      | none =>
        unfold getTrackInfo at h
        simp only [if_neg (not_le.mpr hlt2), hsrc, hm] at h
        exact absurd h (by simp)
      | some mime =>
        rw [getTrackInfo_eq s trackIndex _ mime hsrc hm] at h
        exact absurd h (by simp)
    · intro h
      unfold getTrackInfo
      simp only
      rw [if_pos (show trackIndex ≥ s.mSources.length from h)]
  · intro source mime hsrc hmime
    refine ⟨_, getTrackInfo_eq s trackIndex source mime hsrc hmime, ?_, ?_⟩
    · have h1 := strncasecmp_eq_zero_iff mime "video/" 6 (by decide) (by decide)
      have h2 := strncasecmp_eq_zero_iff mime "audio/" 6 (by decide) (by decide)
      have h3 := strcasecmp_eq_zero_iff mime MEDIA_MIMETYPE_TEXT_3GPP (by decide)
      simp only [h1, h2, h3]
      rfl
    · rfl

theorem getTrackInfo_type_language_witness :
    ∃ format, getTrackInfo startedExample 0 = some (some format) ∧
      format.findItem "type" = some (AMessageValue.int32
        (if "video/".toList <+: "Video/AVC".toList.map Char.toLower then MEDIA_TRACK_TYPE_VIDEO
        else if "audio/".toList <+: "Video/AVC".toList.map Char.toLower then
          MEDIA_TRACK_TYPE_AUDIO
        else if "Video/AVC".toList.map Char.toLower = MEDIA_MIMETYPE_TEXT_3GPP.toList then
          MEDIA_TRACK_TYPE_TIMEDTEXT
        else MEDIA_TRACK_TYPE_UNKNOWN)) ∧
      format.findItem "language" = some (AMessageValue.string
        (match videoSourceExample.mFormat.findCString kKeyMediaLanguage with
        | some lang => lang
        | none => "und")) :=
  (getTrackInfo_type_language startedExample 0).2 videoSourceExample "Video/AVC" (by decide)
    (by decide)

/-- C25: the format that getTrackInfo returns never contains the items `mime`, `auto`,
`default` or `forced`: the track type is VIDEO, AUDIO, TIMEDTEXT or UNKNOWN, never
SUBTITLE, so the branch that sets these items is not taken. -/
theorem getTrackInfo_no_subtitle_items (s : GenericSource) (trackIndex : Nat) (format : AMessage)
    (h : getTrackInfo s trackIndex = some (some format)) :
    format.contains "mime" = false ∧ format.contains "auto" = false ∧
      format.contains "default" = false ∧ format.contains "forced" = false ∧
      format.findItem "type" ≠ some (AMessageValue.int32 MEDIA_TRACK_TYPE_SUBTITLE) := by
  have hlt : trackIndex < s.mSources.length := by
    by_contra hge
    unfold getTrackInfo at h
    simp only [if_pos (not_lt.mp hge)] at h
    exact absurd h (by simp)
  have hsrc : s.mSources[trackIndex]? = some s.mSources[trackIndex] :=
    List.getElem?_eq_getElem hlt
  cases hm : (s.mSources[trackIndex]).mFormat.findCString kKeyMIMEType with
  | none =>
    unfold getTrackInfo at h
    simp only [if_neg (not_le.mpr hlt), hsrc, hm] at h
    exact absurd h (by simp)
  | some mime =>
    rw [getTrackInfo_eq s trackIndex _ mime hsrc hm] at h
    simp only [Option.some.injEq] at h
    subst h
    refine ⟨by simp [AMessage.contains], by simp [AMessage.contains],
      by simp [AMessage.contains], by simp [AMessage.contains], ?_⟩
    simp only [AMessage.findItem, List.lookup, beq_self_eq_true, ne_eq, Option.some.injEq,
      AMessageValue.int32.injEq]
    split_ifs <;> decide

theorem getTrackInfo_no_subtitle_items_witness :
    getTrackInfo startedExample 1 = some (some { mItems :=
        [("type", AMessageValue.int32 2), ("language", AMessageValue.string "eng")] }) ∧
      AMessage.contains { mItems :=
        [("type", AMessageValue.int32 2), ("language", AMessageValue.string "eng")] } "mime"
        = false :=
  ⟨by decide, (getTrackInfo_no_subtitle_items startedExample 1 _ (by decide)).1⟩

theorem initTrack_duration (s : GenericSource) (i : Nat) (meta : MetaData)
    (track : Option MediaSource) (hmime : meta.findCString kKeyMIMEType ≠ none) :
    ∃ s1, initTrack s i meta track = some s1 ∧
      s1.mDurationUs =
        match (if track.isSome then meta.findInt64 kKeyDuration else none) with
        | some d => max s.mDurationUs d
        | none => s.mDurationUs := by
  cases hm : meta.findCString kKeyMIMEType with
  | none => exact absurd hm hmime
  | some mime =>
    unfold initTrack
    simp only [hm]
    cases track with
    | none =>
      simp only [Option.isSome_none, Bool.false_eq_true, if_false]
      split_ifs <;> exact ⟨_, rfl, rfl⟩
    | some source =>
      simp only [Option.isSome_some, if_true]
      cases hd : meta.findInt64 kKeyDuration with
      | none =>
        simp only
        split_ifs <;> exact ⟨_, rfl, rfl⟩
      | some d =>
        simp only
        split_ifs <;> refine ⟨_, rfl, ?_⟩ <;> simp only [] <;> simp only [gt_iff_lt] at * <;>
          first
            | exact (max_eq_right (le_of_lt (by assumption))).symm
            | exact (max_eq_left (not_lt.mp (by assumption))).symm

theorem initTracks_duration : ∀ (tracks : List (MetaData × Option MediaSource))
    (s : GenericSource) (i : Nat),
    (∀ t ∈ tracks, t.1.findCString kKeyMIMEType ≠ none) →
    ∃ s1, initTracks s tracks i = some s1 ∧
      s1.mDurationUs =
        (tracks.filterMap
          (fun t => if t.2.isSome then t.1.findInt64 kKeyDuration else none)).foldl max
          s.mDurationUs := by
  intro tracks
  induction tracks with
  | nil =>
    intro s i _
    exact ⟨s, rfl, rfl⟩
  | cons t rest ih =>
    intro s i hmime
    obtain ⟨meta, track⟩ := t
    obtain ⟨s1, h1, h2⟩ := initTrack_duration s i meta track
      (hmime (meta, track) (List.mem_cons_self _ _))
    obtain ⟨s2, h3, h4⟩ := ih s1 (i + 1) (fun t ht => hmime t (List.mem_cons_of_mem _ ht))
    refine ⟨s2, ?_, ?_⟩
    · simp only [initTracks, h1]
      exact h3
    · rw [h4, h2, List.filterMap_cons]
      cases hd : (if track.isSome then meta.findInt64 kKeyDuration else none) with
      | none => rfl
      | some d => rfl

theorem le_foldl_max (l : List Int) : ∀ (a : Int),
    a ≤ l.foldl max a ∧ ∀ d ∈ l, d ≤ l.foldl max a := by
  induction l with
  | nil =>
    intro a
    exact ⟨le_refl a, fun d hd => absurd hd (List.not_mem_nil d)⟩
  | cons x l ih =>
    intro a
    obtain ⟨h1, h2⟩ := ih (max a x)
    refine ⟨le_trans (le_max_left a x) h1, fun d hd => ?_⟩
    rcases List.mem_cons.mp hd with hd | hd
    · rw [hd]
      exact le_trans (le_max_right a x) h1
    · exact h2 d hd

/-- C26: after initFromDataSource, on the members as the constructor leaves them and with
an extractor all of whose tracks carry a mime type, the duration that getDuration reports
is the maximum of the file-level duration (0 when the extractor has no file meta data or
they carry no duration) and of the durations of all tracks whose source is non-null; it
is at least the duration of every such track, and getDuration returns OK, as it does
on every state. -/
theorem getDuration_is_max (isWidevine uidValid : Bool) (uid : Nat) (dataSource : DataSource)
    (extractor : MediaExtractor)
    (hext : createExtractor (ctor isWidevine uidValid uid) dataSource = some (some extractor))
    (hmime : ∀ t ∈ extractor.mTracks, t.1.findCString kKeyMIMEType ≠ none) :
    (∃ s, initFromDataSource (ctor isWidevine uidValid uid) dataSource = some s ∧
      (getDuration s).1 =
        (extractor.mTracks.filterMap
          (fun t => if t.2.isSome then t.1.findInt64 kKeyDuration else none)).foldl max
          (match extractor.mFileMetaData with
            | some fileMeta => (fileMeta.findInt64 kKeyDuration).getD 0
            | none => 0) ∧
      (∀ t ∈ extractor.mTracks, t.2 ≠ none → ∀ d, t.1.findInt64 kKeyDuration = some d →
        d ≤ (getDuration s).1) ∧
      (getDuration s).2 = OK) ∧
      ∀ s : GenericSource, (getDuration s).2 = OK := by
  refine ⟨?_, fun _ => rfl⟩
  have hfile : ∃ s0 : GenericSource,
      (match extractor.mFileMetaData with
        | some fileMeta =>
          match fileMeta.findInt64 kKeyDuration with
          | some duration => { (ctor isWidevine uidValid uid) with mDurationUs := duration }
          | none => ctor isWidevine uidValid uid
        | none => ctor isWidevine uidValid uid) = s0 ∧
      s0.mDurationUs =
        match extractor.mFileMetaData with
        | some fileMeta => (fileMeta.findInt64 kKeyDuration).getD 0
        | none => 0 := by
    refine ⟨_, rfl, ?_⟩
    cases extractor.mFileMetaData with
    | none => rfl
    | some fileMeta =>
      simp only
      cases fileMeta.findInt64 kKeyDuration with
      | none => rfl
      | some d => rfl
  obtain ⟨s0, hs0, hd0⟩ := hfile
  obtain ⟨s1, h1, h2⟩ := initTracks_duration extractor.mTracks s0 0 hmime
  refine ⟨s1, ?_, ?_, ?_, rfl⟩
  · unfold initFromDataSource
    simp only [hext, hs0]
    exact h1
  · show s1.mDurationUs = _
    rw [h2, hd0]
  · intro t ht hsrc d hd
    show d ≤ s1.mDurationUs
    rw [h2]
    apply (le_foldl_max _ _).2
    rw [List.mem_filterMap]
    refine ⟨t, ht, ?_⟩
    rw [if_pos (Option.isSome_iff_ne_none.mpr hsrc)]
    exact hd

theorem getDuration_is_max_witness :
    ∃ s, initFromDataSource (ctor false false 0) dataSourceExample = some s ∧
      (getDuration s).1 =
        (extractorExample.mTracks.filterMap
          (fun t => if t.2.isSome then t.1.findInt64 kKeyDuration else none)).foldl max
          (match extractorExample.mFileMetaData with
            | some fileMeta => (fileMeta.findInt64 kKeyDuration).getD 0
            | none => 0) ∧
      (∀ t ∈ extractorExample.mTracks, t.2 ≠ none → ∀ d,
        t.1.findInt64 kKeyDuration = some d → d ≤ (getDuration s).1) ∧
      (getDuration s).2 = OK :=
  (getDuration_is_max false false 0 dataSourceExample extractorExample rfl
    (by
      intro t ht
      simp only [extractorExample, List.mem_cons, List.mem_singleton, List.not_mem_nil,
        or_false] at ht
      rcases ht with rfl | rfl <;> decide)).1

/-- C27: dequeueAccessUnit(audio, &unit) returns `-EWOULDBLOCK` when the selected track has
no source.  With a source, after the read that is tried first for the video track of a
Widevine source, when the packet queue of the track has no buffer available it returns
`-EWOULDBLOCK` if the final result of the queue is `OK` and that final result otherwise; in
all these cases the queue and `unit` are left as they are.  Only when a buffer is
available does it return what the dequeue of the packet queue returns, with the dequeued
buffer in `unit`. -/
theorem dequeueAccessUnit_result (s : GenericSource) (audio : Bool)
    (accessUnit : Option ABuffer) :
    ((selectedTrack s audio).mSource = none →
        dequeueAccessUnit s audio accessUnit = some (s, -EWOULDBLOCK, accessUnit)) ∧
      ∀ s1 packets, (selectedTrack s audio).mSource ≠ none → readFirst s audio = some s1 →
        (selectedTrack s1 audio).mPackets = some packets →
        (packets.hasBufferAvailable.1 = false →
          dequeueAccessUnit s audio accessUnit =
            some (s1,
              if packets.hasBufferAvailable.2 = OK then -EWOULDBLOCK
              else packets.hasBufferAvailable.2,
              accessUnit)) ∧
          (packets.hasBufferAvailable.1 = true →
            ∀ r, readBuffer (withSelectedTrack s1 audio
                { (selectedTrack s1 audio) with
                  mPackets := some packets.dequeueAccessUnit.2.2 }) audio (-1) false = some r →
              dequeueAccessUnit s audio accessUnit =
                some (r.1, packets.dequeueAccessUnit.1, packets.dequeueAccessUnit.2.1)) := by
  refine ⟨fun h => ?_, fun s1 packets hsrc hfirst hpk => ⟨fun hav => ?_, fun hav r hr => ?_⟩⟩
  · unfold dequeueAccessUnit
    rw [h]
  · cases hs : (selectedTrack s audio).mSource with
    | none => exact absurd hs hsrc
    | some source =>
      unfold dequeueAccessUnit
      simp only [hs, hfirst, hpk, hav, Bool.not_false, if_true]
  · cases hs : (selectedTrack s audio).mSource with
    | none => exact absurd hs hsrc
    | some source =>
      unfold dequeueAccessUnit
      simp only [hs, hfirst, hpk, hav, Bool.not_true, Bool.false_eq_true, if_false, hr]

theorem dequeueAccessUnit_result_witness :
    dequeueAccessUnit startedExample true none = some (startedExample, -EWOULDBLOCK, none) :=
  (((dequeueAccessUnit_result startedExample true none).2 startedExample
    (AnotherPacketSource.new audioFormatExample) (by decide) (by decide) (by decide)).1
    (by decide))

theorem readLoop_format_changed (s : GenericSource) (audio seeking hasActual : Bool)
    (rest : List ReadResult) (packets : AnotherPacketSource) (actualTimeUs : Option Int) :
    ∀ k : Nat,
      readLoop s audio seeking hasActual
          (List.replicate k (ReadResult.status INFO_FORMAT_CHANGED) ++ rest) packets
          actualTimeUs =
        readLoop s audio seeking hasActual rest packets actualTimeUs := by
  intro k
  induction k with
  | zero => rfl
  | succ k ih =>
    rw [List.replicate_succ, List.cons_append, readLoop]
    rw [if_neg (by decide), if_neg (by decide), if_pos rfl]
    exact ih

theorem int32Bytes_length (value : Int) : (int32Bytes value).length = 4 := rfl

theorem makeAccessUnit_data (s : GenericSource) (audio : Bool) (mbuf : MediaBuffer)
    (timeUs : Int) (hnw : (s.mIsWidevine && !audio) = false)
    (hrange : mbuf.mRangeOffset + mbuf.mRangeLength ≤ mbuf.mData.length)
    (htime : mbuf.mMetaData.findInt64 kKeyTime = some timeUs) :
    ∃ buffer data, makeAccessUnit s audio mbuf = some (buffer, timeUs) ∧
      buffer.mData = some data ∧ buffer.mRangeLength = data.length ∧
      data.take mbuf.mRangeLength = (mbuf.mData.drop mbuf.mRangeOffset).take mbuf.mRangeLength ∧
      if (audio && s.mAudioIsVorbis) = true then
        data.length = mbuf.mRangeLength + 4 ∧
          data.drop mbuf.mRangeLength =
            int32Bytes (match mbuf.mMetaData.findInt32 kKeyValidSamples with
              | some n => n
              | none => -1)
      else data.length = mbuf.mRangeLength := by
  have hbytes : ((mbuf.mData.drop mbuf.mRangeOffset).take mbuf.mRangeLength).length =
      mbuf.mRangeLength := by
    rw [List.length_take, List.length_drop]
    omega
  generalize hb : (mbuf.mData.drop mbuf.mRangeOffset).take mbuf.mRangeLength = bytes at hbytes
  have hread : readBytes mbuf.mData mbuf.mRangeOffset mbuf.mRangeLength = some bytes := by
    unfold readBytes
    rw [if_pos hrange, hb]
  by_cases hv : (audio && s.mAudioIsVorbis) = true
  · have hcopy : memcpy (List.replicate (mbuf.mRangeLength + 4) 0) 0 bytes =
        some (bytes ++ List.replicate 4 0) := by
      unfold memcpy
      rw [if_pos (by simp [hbytes])]
      simp [hbytes, List.drop_replicate]
    have hcopy2 : ∀ v : Int, memcpy (bytes ++ List.replicate 4 0) mbuf.mRangeLength
        (int32Bytes v) = some (bytes ++ int32Bytes v) := by
      intro v
      unfold memcpy
      rw [if_pos (by simp [hbytes, int32Bytes_length])]
      rw [← hbytes, List.take_left, int32Bytes_length]
      have : (bytes ++ List.replicate 4 0).length = bytes.length + 4 := by simp
      rw [List.drop_of_length_le (by omega)]
      simp
    have key : ∀ n : Int,
        (match mbuf.mMetaData.findInt32 kKeyValidSamples with
          | some n => n
          | none => -1) = n →
        ∃ buffer data, makeAccessUnit s audio mbuf = some (buffer, timeUs) ∧
          buffer.mData = some data ∧ buffer.mRangeLength = data.length ∧
          data.take mbuf.mRangeLength = bytes ∧
          data.length = mbuf.mRangeLength + 4 ∧ data.drop mbuf.mRangeLength = int32Bytes n := by
      intro n hn
      refine ⟨⟨some (bytes ++ int32Bytes n), mbuf.mRangeLength + 4,
        AMessage.new.setInt64 "timeUs" timeUs⟩, bytes ++ int32Bytes n, ?_, rfl, ?_, ?_, ?_, ?_⟩
      · unfold makeAccessUnit
        simp only [hnw, hv, if_true, hread, hcopy, ABuffer.new, hn, hcopy2, htime,
          Bool.false_eq_true, if_false]
      · simp [hbytes, int32Bytes_length]
      · rw [← hbytes, List.take_left]
      · simp [hbytes, int32Bytes_length]
      · rw [← hbytes, List.drop_left]
    obtain ⟨buffer, data, h1, h2, h3, h4, h5, h6⟩ := key _ rfl
    refine ⟨buffer, data, h1, h2, h3, h4, ?_⟩
    rw [if_pos hv]
    exact ⟨h5, h6⟩
  · have hcopy : memcpy (List.replicate mbuf.mRangeLength 0) 0 bytes = some bytes := by
      unfold memcpy
      rw [if_pos (by simp [hbytes])]
      simp [hbytes, List.drop_replicate]
    refine ⟨⟨some bytes, mbuf.mRangeLength, AMessage.new.setInt64 "timeUs" timeUs⟩, bytes, ?_,
      rfl, ?_, ?_, ?_⟩
    · unfold makeAccessUnit
      simp only [hnw, hv, if_false, hread, hcopy, ABuffer.new, htime, Bool.false_eq_true]
    · simp [hbytes]
    · rw [← hbytes, List.take_length]
    · rw [if_neg hv]
      exact hbytes

theorem extractorTracks_congr {s s1 : GenericSource} (dataSource : DataSource)
    (h : s1.mIsWidevine = s.mIsWidevine) :
    extractorTracks s1 dataSource = extractorTracks s dataSource := by
  unfold extractorTracks createExtractor
  rw [h]

theorem audioTrackCoherent_of_keeps {tracks : List (MetaData × Option MediaSource)}
    {s s1 : GenericSource} (hk : keepsAudioConfig s s1) (h : audioTrackCoherent tracks s) :
    audioTrackCoherent tracks s1 := by
  obtain ⟨_, hv, hi, hsrc⟩ := hk
  intro h1
  obtain ⟨meta, track, mime, h2, h3, h4, h5⟩ := h (hsrc h1)
  exact ⟨meta, track, mime, by rw [hi]; exact h2, h3, h4, by rw [hv]; exact h5⟩

theorem keepsAudioConfig_refl (s : GenericSource) : keepsAudioConfig s s :=
  ⟨rfl, rfl, rfl, fun h => h⟩

theorem keepsAudioConfig_trans {s s1 s2 : GenericSource} (h1 : keepsAudioConfig s s1)
    (h2 : keepsAudioConfig s1 s2) : keepsAudioConfig s s2 :=
  ⟨h2.1.trans h1.1, h2.2.1.trans h1.2.1, h2.2.2.1.trans h1.2.2.1,
    fun h => h1.2.2.2 (h2.2.2.2 h)⟩

theorem keepsAudioConfig_packets (s : GenericSource) (audio : Bool)
    (packets : AnotherPacketSource) :
    keepsAudioConfig s
      (withSelectedTrack s audio { (selectedTrack s audio) with mPackets := some packets }) := by
  cases audio
  · exact ⟨rfl, rfl, rfl, fun h => h⟩
  · exact ⟨rfl, rfl, rfl, fun h => h⟩

theorem keepsAudioConfig_readBuffer {s : GenericSource} {audio : Bool} {seekTimeUs : Int}
    {hasActual : Bool} {r : GenericSource × Option Int}
    (h : readBuffer s audio seekTimeUs hasActual = some r) : keepsAudioConfig s r.1 := by
  unfold readBuffer at h
  cases hsrc : (selectedTrack s audio).mSource with
  | none => simp [hsrc] at h
  | some source =>
    cases hpk : (selectedTrack s audio).mPackets with
    | none => simp [hsrc, hpk] at h
    | some packets =>
      simp only [hsrc, hpk] at h
      split at h
      · exact absurd h (by simp)
      · simp only [Option.some.injEq] at h
        subst h
        cases audio
        · exact ⟨rfl, rfl, rfl, fun h => h⟩
        · refine ⟨rfl, rfl, rfl, fun _ => ?_⟩
          have : s.mAudioTrack.mSource = some source := hsrc
          rw [this]
          exact Option.some_ne_none _

theorem keepsAudioConfig_dequeueAccessUnit {s : GenericSource} {audio : Bool}
    {accessUnit : Option ABuffer} {r : GenericSource × Int × Option ABuffer}
    (h : dequeueAccessUnit s audio accessUnit = some r) : keepsAudioConfig s r.1 := by
  unfold dequeueAccessUnit at h
  cases hsrc : (selectedTrack s audio).mSource with
  | none =>
    simp only [hsrc, Option.some.injEq] at h
    subst h
    exact keepsAudioConfig_refl s
  | some source =>
    simp only [hsrc] at h
    cases hfirst : readFirst s audio with
    | none => simp [hfirst] at h
    | some s1 =>
      have hk1 : keepsAudioConfig s s1 := by
        unfold readFirst at hfirst
        split at hfirst
        · cases hrb : readBuffer s audio (-1) false with
          | none => simp [hrb] at hfirst
          | some r1 =>
            simp only [hrb, Option.some.injEq] at hfirst
            subst hfirst
            exact keepsAudioConfig_readBuffer hrb
        · simp only [Option.some.injEq] at hfirst
          subst hfirst
          exact keepsAudioConfig_refl s
      simp only [hfirst] at h
      cases hpk : (selectedTrack s1 audio).mPackets with
      | none => simp [hpk] at h
      | some packets =>
        simp only [hpk] at h
        split at h
        · simp only [Option.some.injEq] at h
          subst h
          exact hk1
        · cases hrb : readBuffer (withSelectedTrack s1 audio
              { (selectedTrack s1 audio) with
                mPackets := some packets.dequeueAccessUnit.2.2 }) audio (-1) false with
          | none => simp [hrb] at h
          | some r2 =>
            simp only [hrb, Option.some.injEq] at h
            subst h
            exact keepsAudioConfig_trans
              (keepsAudioConfig_trans hk1 (keepsAudioConfig_packets s1 audio _))
              (keepsAudioConfig_readBuffer hrb)

theorem initTrack_coherent {all : List (MetaData × Option MediaSource)} {s s1 : GenericSource}
    {i : Nat} {meta : MetaData} {track : Option MediaSource}
    (hall : all[i]? = some (meta, track)) (hcoh : audioTrackCoherent all s)
    (h : initTrack s i meta track = some s1) :
    audioTrackCoherent all s1 ∧ s1.mIsWidevine = s.mIsWidevine := by
  unfold initTrack at h
  cases hm : meta.findCString kKeyMIMEType with
  | none => simp [hm] at h
  | some mime =>
    simp only [hm] at h
    cases track with
    | none =>
      simp only at h
      split_ifs at h <;>
        (simp only [Option.some.injEq] at h
         subst h
         first
           | exact ⟨hcoh, rfl⟩
           | exact ⟨fun hsrc => absurd rfl hsrc, rfl⟩)
    | some source =>
      cases hd : meta.findInt64 kKeyDuration with
      | none =>
        simp only [hd] at h
        split_ifs at h <;>
          (simp only [Option.some.injEq] at h
           subst h
           first
             | exact ⟨hcoh, rfl⟩
             | exact ⟨fun _ => ⟨meta, some source, mime, hall, hm, by assumption, rfl⟩, rfl⟩)
      | some d =>
        simp only [hd] at h
        split_ifs at h <;>
          (simp only [Option.some.injEq] at h
           subst h
           first
             | exact ⟨hcoh, rfl⟩
             | exact ⟨fun _ => ⟨meta, some source, mime, hall, hm, by assumption, rfl⟩, rfl⟩)

theorem initTracks_coherent : ∀ (rest done : List (MetaData × Option MediaSource))
    (s s1 : GenericSource) (i : Nat), i = done.length →
    audioTrackCoherent (done ++ rest) s → initTracks s rest i = some s1 →
    audioTrackCoherent (done ++ rest) s1 ∧ s1.mIsWidevine = s.mIsWidevine := by
  intro rest
  induction rest with
  | nil =>
    intro done s s1 i _ hcoh h
    simp only [initTracks, Option.some.injEq] at h
    subst h
    exact ⟨hcoh, rfl⟩
  | cons t rest ih =>
    intro done s s1 i hi hcoh h
    obtain ⟨meta, track⟩ := t
    simp only [initTracks] at h
    cases hstep : initTrack s i meta track with
    | none => simp [hstep] at h
    | some s2 =>
      simp only [hstep] at h
      have hall : (done ++ (meta, track) :: rest)[i]? = some (meta, track) := by
        rw [hi, List.getElem?_append_right (le_refl _)]
        simp
      obtain ⟨h2, hw2⟩ := initTrack_coherent hall hcoh hstep
      have hlist : done ++ (meta, track) :: rest = (done ++ [(meta, track)]) ++ rest := by
        simp
      rw [hlist] at h2 ⊢
      obtain ⟨h3, hw3⟩ := ih (done ++ [(meta, track)]) s2 s1 (i + 1) (by simp [hi]) h2 h
      exact ⟨h3, hw3.trans hw2⟩

theorem initFromDataSource_coherent {isWidevine uidValid : Bool} {uid : Nat}
    {dataSource : DataSource} {s : GenericSource}
    (h : initFromDataSource (ctor isWidevine uidValid uid) dataSource = some s) :
    audioTrackCoherent (extractorTracks s dataSource) s := by
  unfold initFromDataSource at h
  cases hext : createExtractor (ctor isWidevine uidValid uid) dataSource with
  | none =>
    simp only [hext, Option.some.injEq] at h
    subst h
    intro hsrc
    exact absurd rfl hsrc
  | some e =>
    cases e with
    | none => simp [hext] at h
    | some extractor =>
      simp only [hext] at h
      have hstart : ∀ s0 : GenericSource, s0.mAudioTrack.mSource = none →
          s0.mIsWidevine = isWidevine → initTracks s0 extractor.mTracks 0 = some s →
          audioTrackCoherent (extractorTracks s dataSource) s := by
        intro s0 h0 hw hs
        obtain ⟨h1, h2⟩ := initTracks_coherent extractor.mTracks [] s0 s 0 rfl
          (fun hsrc => absurd h0 hsrc) hs
        have ht : extractorTracks s dataSource = extractor.mTracks := by
          rw [extractorTracks_congr (s := ctor isWidevine uidValid uid) dataSource
            (h2.trans hw)]
          unfold extractorTracks
          rw [hext]
        rw [ht]
        simpa using h1
      cases hfm : extractor.mFileMetaData with
      | none =>
        simp only [hfm] at h
        exact hstart _ rfl rfl h
      | some fileMeta =>
        simp only [hfm] at h
        cases hd : fileMeta.findInt64 kKeyDuration with
        | none =>
          simp only [hd] at h
          exact hstart _ rfl rfl h
        | some d =>
          simp only [hd] at h
          exact hstart _ rfl rfl h

theorem running_coherent {dataSource : DataSource} {s : GenericSource}
    (h : Running dataSource s) : audioTrackCoherent (extractorTracks s dataSource) s := by
  induction h with
  | initFromDataSource isWidevine uidValid uid s h => exact initFromDataSource_coherent h
  | @packets s0 audio packets _ ih =>
    have hk := keepsAudioConfig_packets s0 audio packets
    rw [extractorTracks_congr dataSource hk.1]
    exact audioTrackCoherent_of_keeps hk ih
  | readBuffer audio seekTimeUs hasActual r _ hr ih =>
    have hk := keepsAudioConfig_readBuffer hr
    rw [extractorTracks_congr dataSource hk.1]
    exact audioTrackCoherent_of_keeps hk ih
  | dequeueAccessUnit audio accessUnit r _ hr ih =>
    have hk := keepsAudioConfig_dequeueAccessUnit hr
    rw [extractorTracks_congr dataSource hk.1]
    exact audioTrackCoherent_of_keeps hk ih

theorem int32Bytes_value (value : Int) :
    ∃ b0 b1 b2 b3 : Nat, int32Bytes value = [b0, b1, b2, b3] ∧
      b0 < 256 ∧ b1 < 256 ∧ b2 < 256 ∧ b3 < 256 ∧
      ((b0 + 256 * b1 + 65536 * b2 + 16777216 * b3 : Nat) : Int) = value % 2 ^ 32 := by
  have hnn : 0 ≤ value % 2 ^ 32 := Int.emod_nonneg _ (by norm_num)
  have hlt : value % 2 ^ 32 < 2 ^ 32 := Int.emod_lt_of_pos _ (by norm_num)
  have hu : ((value % 2 ^ 32).toNat : Int) = value % 2 ^ 32 := Int.toNat_of_nonneg hnn
  have hub : (value % 2 ^ 32).toNat < 4294967296 := by omega
  have hb : int32Bytes value =
      [(value % 2 ^ 32).toNat % 256, (value % 2 ^ 32).toNat / 256 % 256,
        (value % 2 ^ 32).toNat / 65536 % 256, (value % 2 ^ 32).toNat / 16777216 % 256] := rfl
  rw [hb, ← hu]
  generalize (value % 2 ^ 32).toNat = u at hub
  refine ⟨u % 256, u / 256 % 256, u / 65536 % 256, u / 16777216 % 256, rfl,
    Nat.mod_lt _ (by norm_num), Nat.mod_lt _ (by norm_num), Nat.mod_lt _ (by norm_num),
    Nat.mod_lt _ (by norm_num), ?_⟩
  congr 1
  omega

/-- C28: in every state of a GenericSource after initFromDataSource, for a successful read
in readBuffer (after any number of reads that report a format change) on a track that is
not the video track of a Widevine source, of a media buffer whose range lies within its
bytes and which carries a time stamp: the access unit that is queued starts with the
`range_length` bytes of the media buffer from `range_offset`.  For the video track its
length is `range_length`.  For the audio track, which initFromDataSource took from the
extractor with a mime type: when that mime type is, up to case, the Vorbis one, the length
is `range_length + 4` and the last 4 bytes are, least significant byte first, the bytes
of the two's complement of the count of valid page samples, or of -1 when the meta data of
the buffer have none; for every other mime type the length is exactly `range_length`. -/
theorem readBuffer_queues_access_unit (dataSource : DataSource) (s : GenericSource)
    (audio : Bool) (seekTimeUs : Int) (hasActual : Bool) (source : MediaSource)
    (packets : AnotherPacketSource) (mbuf : MediaBuffer) (rest : List ReadResult) (k : Nat)
    (timeUs : Int) (hrun : Running dataSource s)
    (hsrc : (selectedTrack s audio).mSource = some source)
    (hpk : (selectedTrack s audio).mPackets = some packets)
    (hpend : source.mPending =
      List.replicate k (ReadResult.status INFO_FORMAT_CHANGED) ++ ReadResult.buffer mbuf :: rest)
    (hnw : (s.mIsWidevine && !audio) = false)
    (hrange : mbuf.mRangeOffset + mbuf.mRangeLength ≤ mbuf.mData.length)
    (htime : mbuf.mMetaData.findInt64 kKeyTime = some timeUs) :
    ∃ r buffer data, readBuffer s audio seekTimeUs hasActual = some r ∧
      (selectedTrack r.1 audio).mPackets =
        some ((if seekTimeUs ≥ 0 then packets.queueDiscontinuity DISCONTINUITY_SEEK true
          else packets).queueAccessUnit buffer) ∧
      buffer.mData = some data ∧ buffer.mRangeLength = data.length ∧
      data.take mbuf.mRangeLength = (mbuf.mData.drop mbuf.mRangeOffset).take mbuf.mRangeLength ∧
      (audio = false → data.length = mbuf.mRangeLength) ∧
      (audio = true →
        ∃ meta track mime,
          (extractorTracks s dataSource)[s.mAudioTrack.mIndex]? = some (meta, track) ∧
          meta.findCString kKeyMIMEType = some mime ∧
          (mime.toList.map Char.toLower ≠ MEDIA_MIMETYPE_AUDIO_VORBIS.toList →
            data.length = mbuf.mRangeLength) ∧
          (mime.toList.map Char.toLower = MEDIA_MIMETYPE_AUDIO_VORBIS.toList →
            data.length = mbuf.mRangeLength + 4 ∧
              ∃ b0 b1 b2 b3 : Nat, data.drop mbuf.mRangeLength = [b0, b1, b2, b3] ∧
                b0 < 256 ∧ b1 < 256 ∧ b2 < 256 ∧ b3 < 256 ∧
                ((b0 + 256 * b1 + 65536 * b2 + 16777216 * b3 : Nat) : Int) =
                  (match mbuf.mMetaData.findInt32 kKeyValidSamples with
                    | some n => n
                    | none => -1) % 2 ^ 32)) := by
  obtain ⟨buffer, data, hmake, h1, h2, h3, h4⟩ :=
    makeAccessUnit_data s audio mbuf timeUs hnw hrange htime
  have hloop : ∀ a : Option Int,
      readLoop s audio (decide (seekTimeUs ≥ 0)) hasActual source.mPending packets a =
        some (rest,
          (if seekTimeUs ≥ 0 then packets.queueDiscontinuity DISCONTINUITY_SEEK true
            else packets).queueAccessUnit buffer,
          if hasActual then some timeUs else a) := by
    intro a
    rw [hpend, readLoop_format_changed, readLoop]
    simp only [hmake, decide_eq_true_eq]
  have hrb : ∃ r, readBuffer s audio seekTimeUs hasActual = some r ∧
      (selectedTrack r.1 audio).mPackets =
        some ((if seekTimeUs ≥ 0 then packets.queueDiscontinuity DISCONTINUITY_SEEK true
          else packets).queueAccessUnit buffer) := by
    unfold readBuffer
    simp only [hsrc, hpk, hloop]
    refine ⟨_, rfl, ?_⟩
    cases audio <;> simp [selectedTrack, withSelectedTrack]
  obtain ⟨r, hr1, hr2⟩ := hrb
  refine ⟨r, buffer, data, hr1, hr2, h1, h2, h3, fun ha => ?_, fun ha => ?_⟩
  · subst ha
    simpa using h4
  · subst ha
    have hsrc2 : s.mAudioTrack.mSource ≠ none := by
      have : s.mAudioTrack.mSource = some source := hsrc
      rw [this]
      exact Option.some_ne_none _
    obtain ⟨meta, track, mime, hc1, hc2, _, hc4⟩ := running_coherent hrun hsrc2
    have hiff := strcasecmp_eq_zero_iff mime MEDIA_MIMETYPE_AUDIO_VORBIS (by decide)
    refine ⟨meta, track, mime, hc1, hc2, fun hne => ?_, fun heq => ?_⟩
    · have hv : s.mAudioIsVorbis = false := by
        rw [hc4]
        exact decide_eq_false (fun h0 => hne (hiff.mp h0))
      rw [hv] at h4
      simpa using h4
    · have hv : s.mAudioIsVorbis = true := by
        rw [hc4]
        exact decide_eq_true (hiff.mpr heq)
      rw [hv] at h4
      simp only [Bool.and_self, if_true] at h4
      refine ⟨h4.1, ?_⟩
      rw [h4.2]
      exact int32Bytes_value _

theorem startedExample_running : Running dataSourceExample startedExample := by
  have h : initFromDataSource (ctor false false 0) dataSourceExample =
      some ((initFromDataSource (ctor false false 0) dataSourceExample).getD
        (ctor false false 0)) := by decide
  have h2 := Running.packets false (AnotherPacketSource.new videoFormatExample)
    (Running.packets true (AnotherPacketSource.new audioFormatExample)
      (Running.initFromDataSource false false 0 _ h))
  convert h2 using 1

theorem startedNoSamplesExample_running :
    Running dataSourceNoSamplesExample startedNoSamplesExample := by
  have h : initFromDataSource (ctor false false 0) dataSourceNoSamplesExample =
      some ((initFromDataSource (ctor false false 0) dataSourceNoSamplesExample).getD
        (ctor false false 0)) := by decide
  have h2 := Running.packets true (AnotherPacketSource.new audioFormatExample)
    (Running.initFromDataSource false false 0 _ h)
  convert h2 using 1

/-- C28 at concrete inputs: the Vorbis audio track of `startedExample`, whose media buffer
holds the bytes 1, 2, 3 in its range and 1024 valid samples, gives an access unit of the
bytes 1, 2, 3, 0, 4, 0, 0; the Vorbis track of `startedNoSamplesExample`, whose media buffer
holds 7, 8 and no count of valid samples, gives 7, 8, 255, 255, 255, 255. -/
theorem readBuffer_queues_access_unit_witness :
    (∃ r buffer, readBuffer startedExample true (-1) false = some r ∧
        (selectedTrack r.1 true).mPackets =
          some ((AnotherPacketSource.new audioFormatExample).queueAccessUnit buffer) ∧
        buffer.mData = some [1, 2, 3, 0, 4, 0, 0]) ∧
      ∃ r buffer, readBuffer startedNoSamplesExample true (-1) false = some r ∧
        (selectedTrack r.1 true).mPackets =
          some ((AnotherPacketSource.new audioFormatExample).queueAccessUnit buffer) ∧
        buffer.mData = some [7, 8, 255, 255, 255, 255] := by
  constructor
  · obtain ⟨r, buffer, data, h1, h2, h3, _, h5, _, h7⟩ :=
      readBuffer_queues_access_unit dataSourceExample startedExample true (-1) false
        audioSourceExample (AnotherPacketSource.new audioFormatExample) mediaBufferExample [] 0
        40000 startedExample_running (by decide) (by decide) (by decide) (by decide)
        (by decide) (by decide)
    refine ⟨r, buffer, h1, by simpa using h2, ?_⟩
    obtain ⟨meta, track, mime, hc1, hc2, _, hvor⟩ := h7 rfl
    have e1 : (extractorTracks startedExample dataSourceExample)[
        startedExample.mAudioTrack.mIndex]? = some (audioFormatExample, some audioSourceExample) := by
      decide
    rw [e1] at hc1
    simp only [Option.some.injEq, Prod.mk.injEq] at hc1
    rw [← hc1.1] at hc2
    have e2 : audioFormatExample.findCString kKeyMIMEType = some "audio/vorbis" := by decide
    rw [e2] at hc2
    simp only [Option.some.injEq] at hc2
    subst hc2
    obtain ⟨hlen, b0, b1, b2, b3, hd, hb0, hb1, hb2, hb3, hsum⟩ := hvor (by decide)
    have e3 : (match mediaBufferExample.mMetaData.findInt32 kKeyValidSamples with
        | some n => n
        | none => -1) = 1024 := by decide
    rw [e3] at hsum
    have hb : b0 = 0 ∧ b1 = 4 ∧ b2 = 0 ∧ b3 = 0 := by
      norm_num at hsum
      omega
    obtain ⟨rfl, rfl, rfl, rfl⟩ := hb
    have e4 : (mediaBufferExample.mData.drop mediaBufferExample.mRangeOffset).take
        mediaBufferExample.mRangeLength = [1, 2, 3] := by decide
    rw [e4] at h5
    rw [h3, ← List.take_append_drop mediaBufferExample.mRangeLength data, h5, hd]
    rfl
  · obtain ⟨r, buffer, data, h1, h2, h3, _, h5, _, h7⟩ :=
      readBuffer_queues_access_unit dataSourceNoSamplesExample startedNoSamplesExample true (-1)
        false
        { mFormat := audioFormatExample,
          mPending := [ReadResult.buffer mediaBufferNoSamplesExample] }
        (AnotherPacketSource.new audioFormatExample) mediaBufferNoSamplesExample [] 0
        80000 startedNoSamplesExample_running (by decide) (by decide) (by decide) (by decide)
        (by decide) (by decide)
    refine ⟨r, buffer, h1, by simpa using h2, ?_⟩
    obtain ⟨meta, track, mime, hc1, hc2, _, hvor⟩ := h7 rfl
    have e1 : (extractorTracks startedNoSamplesExample dataSourceNoSamplesExample)[
        startedNoSamplesExample.mAudioTrack.mIndex]? =
        some (audioFormatExample,
          some { mFormat := audioFormatExample,
                 mPending := [ReadResult.buffer mediaBufferNoSamplesExample] }) := by
      decide
    rw [e1] at hc1
    simp only [Option.some.injEq, Prod.mk.injEq] at hc1
    rw [← hc1.1] at hc2
    have e2 : audioFormatExample.findCString kKeyMIMEType = some "audio/vorbis" := by decide
    rw [e2] at hc2
    simp only [Option.some.injEq] at hc2
    subst hc2
    obtain ⟨hlen, b0, b1, b2, b3, hd, hb0, hb1, hb2, hb3, hsum⟩ := hvor (by decide)
    have e3 : (match mediaBufferNoSamplesExample.mMetaData.findInt32 kKeyValidSamples with
        | some n => n
        | none => -1) = -1 := by decide
    rw [e3] at hsum
    have hb : b0 = 255 ∧ b1 = 255 ∧ b2 = 255 ∧ b3 = 255 := by
      norm_num at hsum
      omega
    obtain ⟨rfl, rfl, rfl, rfl⟩ := hb
    have e4 : (mediaBufferNoSamplesExample.mData.drop
        mediaBufferNoSamplesExample.mRangeOffset).take
        mediaBufferNoSamplesExample.mRangeLength = [7, 8] := by decide
    rw [e4] at h5
    rw [h3, ← List.take_append_drop mediaBufferNoSamplesExample.mRangeLength data, h5, hd]
    rfl

end GenericSource
